import Mathlib

/-!
# Easy Multi Save: level archive reconciliation

A shallow embedding of the save/load engine of the EasyMultiSave plugin
(`EMSObject.cpp`, `EMSData.h`, `EMSObject.h`) and theorems about it.

Conventions of the embedding

* An object pointer is an index into the object store `UWorld.Actors`; the
  null pointer is `none`, and an index outside the store reads as null.
* `TArray<uint8>` is a list of naturals below 256, `FString` and `FName` are
  strings.
* The engine's reflection based `UObject::Serialize` through a
  `FSaveGameArchive` is an external collaborator: an object carries the byte
  image of its SaveGame properties in `Fields`; writing copies it out and
  reading replaces it.
* The interface events `ActorPreSave`, `ActorSaved` and `ActorLoaded` are user
  code; the embedding records that they fired, in order, in `UWorld.Events`.
* Everything runs on the game thread (`IsInGameThread()` is true), so the
  `AsyncTask` branches are not taken.
* The components an actor lists in `ComponentsToSave` are objects of their
  own, distinct from its root component.
* The world and its persistent level exist, and the manager, the settings
  object and a load task are never null.
* Strings and names are compared exactly; the engine's comparison of
  `FString` and `FName` ignores case.
* The engine's serializers of primitive types and its compressed proxies are
  parameters (`FArchive`, `FCompressedProxy`); the file manager is a list of
  files and directories (`FFileSystem`).
* The player controller of the world is `UWorld.PlayerController`, with the
  pawn and the player state it points at; the engine's conversions between
  quaternions and rotators are parameters (`FRotationMath`).
* The timer manager runs, on each tick, the member function a task has
  scheduled (`NextTick`); nothing else touches the world between two ticks.
* Reflection data is a type graph (`FTypeGraph`): properties and script
  structs are numbers, the `CPF_SaveGame` bits of the properties are a
  function of their own (`FPropertyFlags`); a recursion of the code that has
  no bound of its own carries a depth bound and yields `none` at the bound.
-/

namespace EMS

/-! ## Engine types -/

abbrev FString := String
abbrev FName := String
abbrev Bytes := List Nat

/-- Three integer coordinates, standing for `FVector`. -/
structure FVector where
  X : Int
  Y : Int
  Z : Int
deriving DecidableEq, Repr

/-- Four integer coordinates, standing for `FQuat`. -/
structure FQuat where
  X : Int
  Y : Int
  Z : Int
  W : Int
deriving DecidableEq, Repr

/-- Rotation, translation and scale, standing for `FTransform`. -/
structure FTransform where
  Rotation : FQuat
  Translation : FVector
  Scale3D : FVector
deriving DecidableEq, Repr

/-- The constant `FTransform::Identity`. -/
def FTransform.Identity : FTransform :=
  { Rotation := { X := 0, Y := 0, Z := 0, W := 1 },
    Translation := { X := 0, Y := 0, Z := 0 },
    Scale3D := { X := 1, Y := 1, Z := 1 } }

/-- Engine contract of `FTransform::IsValid`: no component is NaN and the
rotation is normalized. Integer coordinates are never NaN. -/
def FTransform.IsValid (T : FTransform) : Bool :=
  decide (T.Rotation.X * T.Rotation.X + T.Rotation.Y * T.Rotation.Y
    + T.Rotation.Z * T.Rotation.Z + T.Rotation.W * T.Rotation.W = 1)

inductive EComponentMobility where
  | Static
  | Stationary
  | Movable
deriving DecidableEq, Repr

/-! ## `EMSData.h` -/

def HasLoadedTag : FName := "EMS_HasLoaded"
def SkipSaveTag : FName := "EMS_SkipSave"
def PersistentTag : FName := "EMS_Persistent"
def SkipTransformTag : FName := "EMS_SkipTransform"

inductive EUpdateActorResult where
  | RES_Success
  | RES_Skip
  | RES_ShouldSpawnNewActor
deriving DecidableEq, Repr

inductive EActorType where
  | AT_Runtime
  | AT_Placed
  | AT_LevelScript
  | AT_Player
  | AT_GameObject
  | AT_Persistent
deriving DecidableEq, Repr

/-- The cast `uint8(Type)` of the enumerators, in declaration order. -/
def EActorType.toUInt8 : EActorType → Nat
  | .AT_Runtime => 0
  | .AT_Placed => 1
  | .AT_LevelScript => 2
  | .AT_Player => 3
  | .AT_GameObject => 4
  | .AT_Persistent => 5

inductive ELoadMethod where
  | LM_Default
  | LM_Deferred
  | LM_Thread
deriving DecidableEq, Repr

inductive EFileSaveMethod where
  | FM_Legacy
  | FM_Optimized
deriving DecidableEq, Repr

structure FComponentSaveData where
  Name : Bytes := []
  RelativeTransform : FTransform := FTransform.Identity
  Data : Bytes := []
deriving DecidableEq, Repr

structure FGameObjectSaveData where
  Data : Bytes := []
  Components : List FComponentSaveData := []
deriving DecidableEq, Repr

structure FActorSaveData where
  Class : Bytes := []
  Name : Bytes := []
  Transform : FTransform := FTransform.Identity
  Type_ : Nat := 0
  SaveData : FGameObjectSaveData := {}
deriving DecidableEq, Repr

structure FLevelScriptSaveData where
  Name : FName := ""
  SaveData : FGameObjectSaveData := {}
deriving DecidableEq, Repr

inductive ESaveGameMode where
  | MODE_Player
  | MODE_Level
  | MODE_All
deriving DecidableEq, Repr

structure FLevelArchive where
  SavedActors : List FActorSaveData := []
  SavedScripts : List FLevelScriptSaveData := []
  SavedGameMode : FGameObjectSaveData := {}
  SavedGameState : FGameObjectSaveData := {}
  Level : FName := ""
deriving DecidableEq, Repr

/-- Pitch, yaw and roll in integer units, standing for `FRotator`. -/
structure FRotator where
  Pitch : Int := 0
  Yaw : Int := 0
  Roll : Int := 0
deriving DecidableEq, Repr

structure FPawnSaveData where
  Position : FVector := { X := 0, Y := 0, Z := 0 }
  Rotation : FRotator := {}
  SaveData : FGameObjectSaveData := {}
deriving DecidableEq, Repr

structure FControllerSaveData where
  Rotation : FRotator := {}
  SaveData : FGameObjectSaveData := {}
deriving DecidableEq, Repr

structure FPlayerArchive where
  SavedController : FControllerSaveData := {}
  SavedPawn : FPawnSaveData := {}
  SavedPlayerState : FGameObjectSaveData := {}
  Level : FName := ""
deriving DecidableEq, Repr

inductive EDataLoadType where
  | DATA_Level
  | DATA_Player
  | DATA_Object
deriving DecidableEq, Repr

def SaveType : FString := ".sav"
def PlayerSuffix : FString := "Player"
def ActorSuffix : FString := "Level"
def SlotSuffix : FString := "Slot"
def PersistentSuffix : FString := "Persistent"
def LocalProfileName : FString := "LocalProfile"

/-- A save game object: the name of its class and the byte image of its
properties. -/
structure USaveGame where
  Class : FString := ""
  Fields : Bytes := []
deriving DecidableEq, Repr

/-- The name of `USaveGame::StaticClass()`. -/
def USaveGameStaticClass : FString := "SaveGame"

/-! ## `EMSPluginSettings.h` -/

structure UEMSPluginSettings where
  DefaultSaveGameName : FString := "MySaveGame"
  bPersistentPlayer : Bool := false
  bPersistentGameMode : Bool := false
  bCopyPersistentSave : Bool := false
  bAdvancedSpawnCheck : Bool := false
  bMultiThreadSaving : Bool := false
  LoadMethod : ELoadMethod := ELoadMethod.LM_Default
  FileNamingType : EFileSaveMethod := EFileSaveMethod.FM_Legacy
  PersistentSaveGameClass : Option FString := some "EMSPersistentSaveGame"
  SlotInfoSaveGameClass : Option FString := some "EMSInfoSaveGame"
  ProfileSaveGameClass : Option FString := some "EMSProfileSaveGame"
deriving DecidableEq, Repr

/-! ## Live objects -/

/-- The engine base class an actor's class derives from, as seen by the
`Cast<...>` tests of `GetActorType`. -/
inductive EActorKind where
  | Actor
  | Pawn
  | PlayerController
  | PlayerState
  | LevelScriptActor
  | GameModeBase
  | GameStateBase
deriving DecidableEq, Repr

/-- What `GetChildActor()` of a child actor component points at. -/
structure FChildActor where
  bHasSaveInterface : Bool := false
  Fields : Bytes := []
deriving DecidableEq, Repr

/-- Mobility and relative transform of a `USceneComponent`. -/
structure FSceneState where
  Mobility : EComponentMobility := EComponentMobility.Movable
  RelativeTransform : FTransform := FTransform.Identity
deriving DecidableEq, Repr

/-- An actor component as the save code sees it: `Scene` is the result of
`Cast<USceneComponent>`, `ChildActorComp` the one of
`Cast<UChildActorComponent>` with the child actor it holds, if any. -/
structure UActorComponent where
  Name : FString := ""
  bRegistered : Bool := true
  Scene : Option FSceneState := none
  ChildActorComp : Option (Option FChildActor) := none
  Fields : Bytes := []
deriving DecidableEq, Repr

/-- The root scene component of an actor: mobility and world transform. -/
structure FRootComponent where
  Mobility : EComponentMobility := EComponentMobility.Movable
  ComponentToWorld : FTransform := FTransform.Identity
deriving DecidableEq, Repr

structure AActor where
  Name : FString := ""
  ClassPathName : FString := ""
  Kind : EActorKind := EActorKind.Actor
  bImplementsSaveInterface : Bool := true
  bPendingKill : Bool := false
  bPlayerControlled : Bool := false
  bNetStartup : Bool := false
  bInPersistentLevel : Bool := true
  LevelOuterName : FString := ""
  Tags : List FName := []
  RootComponent : Option FRootComponent := none
  Fields : Bytes := []
  ComponentsToSave : List (Option UActorComponent) := []
deriving DecidableEq, Repr

/-- A class found by path name; `Template` is a freshly constructed actor of
the class, absent when the class cannot be instantiated as an actor. -/
structure UClass where
  PathName : FString := ""
  bImplementsSaveInterface : Bool := true
  Template : Option AActor := none
deriving DecidableEq, Repr

inductive EHook where
  | ActorPreSave
  | ActorSaved
  | ActorLoaded
deriving DecidableEq, Repr

/-- The members of a player controller that the save code reads and writes,
next to its actor part: `Self` is the controller as an actor of the object
store, `PawnOrSpectator` what `GetPawnOrSpectator()` answers. A controller
whose index lies outside the store has no actor part and fails every
validity check. -/
structure APlayerController where
  Self : Nat
  PawnOrSpectator : Option Nat := none
  PlayerState : Option Nat := none
  ControlRotation : FRotator := {}
deriving DecidableEq, Repr

structure UWorld where
  OuterName : FString := ""
  StreamingLevelsPrefix : FString := ""
  Actors : List AActor := []
  AuthGameMode : Option Nat := none
  GameState : Option Nat := none
  Classes : List UClass := []
  bIsServer : Bool := false
  CameraLocation : Option FVector := none
  bSupportsMultithreading : Bool := true
  bPaused : Bool := false
  Events : List (EHook × Nat) := []
  PlayerController : Option APlayerController := none
deriving DecidableEq, Repr

/-- The member function a load task has scheduled for the next tick. -/
inductive ELoadStep where
  | StartLoading
  | LoadPlayer
  | LoadLevel
  | DeferredLoadActors
  | CompleteLoadingTask
deriving DecidableEq, Repr

/-- The load task of `EMSAsyncLoadGame.h`; `NextTick` is the callback handed
to `SetTimerForNextTick`. -/
structure UEMSAsyncLoadGame where
  Data : Nat := 0
  Mode : ESaveGameMode := ESaveGameMode.MODE_All
  bFullReload : Bool := false
  bIsActive : Bool := false
  bDeferredLoadSuccess : Bool := false
  LoadedActorNum : Nat := 0
  SavedActors : List FActorSaveData := []
  NextTick : Option ELoadStep := none
deriving DecidableEq, Repr

/-- The fields of the manager object that the level code reads and writes. -/
structure UEMSObject where
  CurrentSaveGameName : FString := ""
  CurrentSaveUserName : FString := ""
  ActorList : List (Option Nat) := []
  SavedActors : List FActorSaveData := []
  SavedScripts : List FLevelScriptSaveData := []
  SavedGameMode : FGameObjectSaveData := {}
  SavedGameState : FGameObjectSaveData := {}
  SavedController : FControllerSaveData := {}
  SavedPawn : FPawnSaveData := {}
  SavedPlayerState : FGameObjectSaveData := {}
  CachedSlotInfoSave : Option USaveGame := none
  CachedPersistentSave : Option USaveGame := none
  CachedProfileSave : Option USaveGame := none
deriving DecidableEq, Repr

/-! ## Engine helpers -/

/-- Engine contract of `StringToBytes`: each character code less one, as a
byte. -/
def BytesFromString (s : FString) : Bytes :=
  s.toList.map (fun c => (c.toNat + 255) % 256)

/-- Engine contract of `BytesToString`: each byte plus one, as a character. -/
def StringFromBytes (b : Bytes) : FString :=
  String.mk (b.map (fun x => Char.ofNat (x + 1)))

/-- First position at which `sub` occurs in the text, ignoring case, counted
from `i`. -/
def StristrFrom (sub : List Char) : List Char → Nat → Option Nat
  | [], _ => none
  | c :: cs, i =>
    if (sub.map Char.toUpper).isPrefixOf ((c :: cs).map Char.toUpper) then some i
    else StristrFrom sub cs (i + 1)

/-- Engine contract of `FString::Find` with its default arguments (from the
start, ignoring case): the index of the first occurrence, and `INDEX_NONE`
(-1) when there is none or the searched text is empty. -/
def FStringFind (s sub : List Char) : Int :=
  if sub = [] then -1
  else match StristrFrom sub s 0 with
    | some i => (i : Int)
    | none => -1

/-- The precondition of `TArray::RemoveAt`: a zero count, or a range inside
the array. -/
def RemoveAtInRange (s : List Char) (Index : Int) (Count : Nat) : Prop :=
  Count = 0 ∨ (0 ≤ Index ∧ Index + Count ≤ s.length)

instance (s : List Char) (Index : Int) (Count : Nat) :
    Decidable (RemoveAtInRange s Index Count) := by
  unfold RemoveAtInRange; infer_instance

/-- Engine contract of `FString::RemoveAt(Index, Count)`. Outside its
precondition the engine's behaviour is undefined; the text is returned as it
is there. -/
def FStringRemoveAt (s : List Char) (Index : Int) (Count : Nat) : List Char :=
  if Count = 0 then s
  else if 0 ≤ Index ∧ Index + Count ≤ s.length then
    s.take Index.toNat ++ s.drop (Index.toNat + Count)
  else s

/-- `TArray::Remove`: drops every occurrence. -/
def TagsRemove (Tags : List FName) (t : FName) : List FName :=
  Tags.filter (fun x => decide (x ≠ t))

/-- `TArray::Add`: appends. -/
def TagsAdd (Tags : List FName) (t : FName) : List FName :=
  Tags ++ [t]

/-- `AActor::ActorHasTag`. -/
def ActorHasTag (a : AActor) (t : FName) : Bool :=
  decide (t ∈ a.Tags)

/-- `AActor::GetActorTransform`: the root component's world transform, the
identity without a root component. -/
def GetActorTransform (a : AActor) : FTransform :=
  match a.RootComponent with
  | some r => r.ComponentToWorld
  | none => FTransform.Identity

/-- `AActor::SetActorTransform` with teleport and no sweep: moves the root
component, does nothing without one. -/
def SetActorTransform (a : AActor) (T : FTransform) : AActor :=
  match a.RootComponent with
  | some r => { a with RootComponent := some { r with ComponentToWorld := T } }
  | none => a

/-- Pointer dereference in the object store. -/
def UWorld.Deref (w : UWorld) (p : Option Nat) : Option AActor :=
  match p with
  | some i => w.Actors[i]?
  | none => none

/-- Writes an actor back to its slot of the object store. -/
def UWorld.SetActor (w : UWorld) (i : Nat) (a : AActor) : UWorld :=
  { w with Actors := w.Actors.set i a }

/-- Records that an interface event fired on the actor at `i`. -/
def UWorld.Fire (w : UWorld) (h : EHook) (i : Nat) : UWorld :=
  { w with Events := w.Events ++ [(h, i)] }

/-! ## `EMSObject.cpp`: helper functions -/

def HasSaveInterface (a : AActor) : Bool :=
  a.bImplementsSaveInterface

def IsValidActor (a : AActor) : Bool :=
  !a.bPendingKill && HasSaveInterface a

def IsValidForSaving (a : AActor) : Bool :=
  IsValidActor a && !ActorHasTag a SkipSaveTag

def IsValidForLoading (a : AActor) : Bool :=
  IsValidActor a && !ActorHasTag a HasLoadedTag

def GetActorType (a : AActor) : EActorType :=
  if a.Kind = EActorKind.Pawn then
    if a.bPlayerControlled then EActorType.AT_Player
    else
      if ActorHasTag a PersistentTag then EActorType.AT_Persistent
      else EActorType.AT_Runtime
  else if a.Kind = EActorKind.PlayerController ∨ a.Kind = EActorKind.PlayerState then
    EActorType.AT_Player
  else if a.Kind = EActorKind.LevelScriptActor then EActorType.AT_LevelScript
  else if a.Kind = EActorKind.GameModeBase ∨ a.Kind = EActorKind.GameStateBase then
    EActorType.AT_GameObject
  else if ActorHasTag a PersistentTag then EActorType.AT_Persistent
  else if a.bNetStartup then EActorType.AT_Placed
  else EActorType.AT_Runtime

def GetLevelName (w : UWorld) : FName :=
  let LevelName := w.OuterName.toList
  let Pre := w.StreamingLevelsPrefix.toList
  let Index := FStringFind LevelName Pre
  let Count := Pre.length
  String.mk (FStringRemoveAt LevelName Index Count)

def IsMovable (Mobility : Option EComponentMobility) : Bool :=
  match Mobility with
  | some m => decide (m = EComponentMobility.Movable)
  | none => false

/-- `LevelScriptSaveName` of `EMSObject.h`. -/
def LevelScriptSaveName (a : AActor) : FName :=
  a.LevelOuterName


/-! ## `EMSObject.cpp`: serialization of one object -/

/-- `SerializeToBinary` into an empty array: the byte image of the SaveGame
properties. -/
def SerializeToBinary (Fields : Bytes) : Bytes :=
  Fields

/-- `SerializeFromBinary`: the SaveGame properties are read back from the
bytes. -/
def SerializeFromBinary (InData : Bytes) : Bytes :=
  InData

/-- The body of the loop of `SaveActorComponents` for one non-null,
registered component. -/
def SaveComponent (c : UActorComponent) : FComponentSaveData :=
  let ComponentArray : FComponentSaveData := { Name := BytesFromString c.Name }
  let ComponentArray :=
    match c.Scene with
    | some SceneComp => { ComponentArray with RelativeTransform := SceneComp.RelativeTransform }
    | none => ComponentArray
  match c.ChildActorComp with
  | some (some ChildActor) =>
    if !ChildActor.bHasSaveInterface then
      { ComponentArray with Data := SerializeToBinary ChildActor.Fields }
    else ComponentArray
  | some none => ComponentArray
  | none => { ComponentArray with Data := SerializeToBinary c.Fields }

/-- `SaveActorComponents` with an empty `OutComponents`. -/
def SaveActorComponents (a : AActor) : List FComponentSaveData :=
  a.ComponentsToSave.filterMap (fun oc =>
    match oc with
    | some c => if c.bRegistered then some (SaveComponent c) else none
    | none => none)

/-- The body of the inner loop of `LoadActorComponents`: one saved sub-record
met by one component. -/
def LoadComponent (c : UActorComponent) (ComponentArray : FComponentSaveData) :
    UActorComponent :=
  if ComponentArray.Name = BytesFromString c.Name then
    let c1 :=
      match c.Scene with
      | some SceneComp =>
        if IsMovable (some SceneComp.Mobility) then
          { c with Scene := some { SceneComp with
              RelativeTransform := ComponentArray.RelativeTransform } }
        else c
      | none => c
    match c1.ChildActorComp with
    | some (some ChildActor) =>
      if !ChildActor.bHasSaveInterface then
        { c1 with ChildActorComp := some (some { ChildActor with
            Fields := SerializeFromBinary ComponentArray.Data }) }
      else c1
    | some none => c1
    | none => { c1 with Fields := SerializeFromBinary ComponentArray.Data }
  else c

def LoadActorComponents (a : AActor) (InComponents : List FComponentSaveData) : AActor :=
  { a with ComponentsToSave := a.ComponentsToSave.map (fun oc =>
      match oc with
      | some c => if c.bRegistered then some (InComponents.foldl LoadComponent c) else some c
      | none => none) }

/-- The effect of `SaveActorToBinary` on the actor itself and the snapshot it
fills, for an empty `OutData`. -/
def SaveActorState (a : AActor) : AActor × FGameObjectSaveData :=
  let a1 := { a with Tags := TagsRemove a.Tags HasLoadedTag }
  let OutData : FGameObjectSaveData := { Data := SerializeToBinary a1.Fields }
  let OutData :=
    if GetActorType a1 ≠ EActorType.AT_LevelScript then
      { OutData with Components := SaveActorComponents a1 }
    else OutData
  (a1, OutData)

/-- `SaveActorToBinary` on the actor at `i`, for an empty `OutData`: the
pre-save event, the snapshot, the saved event. -/
def SaveActorToBinary (w : UWorld) (i : Nat) : UWorld × FGameObjectSaveData :=
  match w.Actors[i]? with
  | none => (w, {})
  | some Actor =>
    let w1 := w.Fire EHook.ActorPreSave i
    let r := SaveActorState Actor
    let w2 := w1.SetActor i r.1
    (w2.Fire EHook.ActorSaved i, r.2)

/-- The effect of `LoadActorFromBinary` on the actor itself. -/
def LoadActorState (a : AActor) (InData : FGameObjectSaveData) : AActor :=
  let a1 := { a with Tags := TagsAdd a.Tags HasLoadedTag }
  let a2 := { a1 with Fields := SerializeFromBinary InData.Data }
  if GetActorType a2 ≠ EActorType.AT_LevelScript then
    LoadActorComponents a2 InData.Components
  else a2

/-- `LoadActorFromBinary` on the actor at `i`, followed by the loaded event. -/
def LoadActorFromBinary (w : UWorld) (i : Nat) (InData : FGameObjectSaveData) : UWorld :=
  match w.Actors[i]? with
  | none => w
  | some Actor => (w.SetActor i (LoadActorState Actor InData)).Fire EHook.ActorLoaded i

/-! ## `EMSObject.cpp`: saving level actors -/

/-- The record `SaveLevelActors` fills for an actor of type runtime, placed or
persistent, before the snapshot is taken. -/
def ActorRecordHead (a : AActor) : FActorSaveData :=
  let Type_ := GetActorType a
  let ActorArray : FActorSaveData := {}
  let ActorArray :=
    if Type_ = EActorType.AT_Runtime ∨ Type_ = EActorType.AT_Persistent then
      { ActorArray with Class := BytesFromString a.ClassPathName }
    else ActorArray
  let ActorArray := { ActorArray with Type_ := Type_.toUInt8 }
  let ActorArray :=
    if Type_ = EActorType.AT_Persistent ∨ ActorHasTag a SkipTransformTag then
      { ActorArray with Transform := FTransform.Identity }
    else { ActorArray with Transform := GetActorTransform a }
  { ActorArray with Name := BytesFromString a.Name }

/-- What the first loop of `SaveLevelActors` has built so far. -/
structure FSaveLevelLoop where
  World : UWorld
  InActors : List FActorSaveData := []
  InScripts : List FLevelScriptSaveData := []
deriving DecidableEq, Repr

/-- One iteration of the loop over `ActorList` in `SaveLevelActors`. -/
def SaveLevelActorStep (st : FSaveLevelLoop) (p : Option Nat) : FSaveLevelLoop :=
  match p with
  | none => st
  | some i =>
    match st.World.Actors[i]? with
    | none => st
    | some Actor =>
      if IsValidForSaving Actor then
        let Type_ := GetActorType Actor
        if Type_ = EActorType.AT_Runtime ∨ Type_ = EActorType.AT_Placed
            ∨ Type_ = EActorType.AT_Persistent then
          let ActorArray := ActorRecordHead Actor
          let r := SaveActorToBinary st.World i
          { st with World := r.1,
                    InActors := st.InActors ++ [{ ActorArray with SaveData := r.2 }] }
        else if Type_ = EActorType.AT_LevelScript then
          let r := SaveActorToBinary st.World i
          { st with World := r.1,
                    InScripts := st.InScripts ++
                      [{ Name := LevelScriptSaveName Actor, SaveData := r.2 }] }
        else st
      else st

/-- The game mode and game state blocks of `SaveLevelActors`: the snapshot of
the actor behind the pointer when it is valid for saving, an empty one
otherwise. -/
def SaveSingleton (w : UWorld) (p : Option Nat) : UWorld × FGameObjectSaveData :=
  match p with
  | none => (w, {})
  | some i =>
    match w.Actors[i]? with
    | none => (w, {})
    | some a => if IsValidForSaving a then SaveActorToBinary w i else (w, {})

/-- `SaveLevelActors`, up to the level archive it hands to
`SaveBinaryArchive`. -/
def SaveLevelActors (w : UWorld) (m : UEMSObject) : UWorld × FLevelArchive :=
  let st := m.ActorList.foldl SaveLevelActorStep { World := w }
  let gm := SaveSingleton st.World st.World.AuthGameMode
  let gs := SaveSingleton gm.1 gm.1.GameState
  (gs.1, { SavedActors := st.InActors,
           SavedScripts := st.InScripts,
           SavedGameMode := gm.2,
           SavedGameState := gs.2,
           Level := GetLevelName gs.1 })


/-! ## `EMSObject.cpp`: loading level actors -/

def ProcessLevelActor (w : UWorld) (i : Nat) (ActorArray : FActorSaveData) : UWorld :=
  match w.Actors[i]? with
  | none => w
  | some Actor =>
    if ActorArray.Type_ = (GetActorType Actor).toUInt8 then
      let w1 :=
        if IsMovable (Actor.RootComponent.map (fun r => r.Mobility))
            && ActorArray.Transform.IsValid then
          w.SetActor i (SetActorTransform Actor ActorArray.Transform)
        else w
      LoadActorFromBinary w1 i ActorArray.SaveData
    else w

/-- `UpdateLevelActor`, as a walk over what is left of `ActorList`. -/
def UpdateLevelActor (w : UWorld) (ActorArray : FActorSaveData) :
    List (Option Nat) → UWorld × EUpdateActorResult
  | [] => (w, EUpdateActorResult.RES_ShouldSpawnNewActor)
  | p :: rest =>
    match w.Deref p, p with
    | some Actor, some i =>
      if IsValidActor Actor then
        if ActorArray.Name = BytesFromString Actor.Name then
          if ActorHasTag Actor HasLoadedTag then (w, EUpdateActorResult.RES_Skip)
          else (ProcessLevelActor w i ActorArray, EUpdateActorResult.RES_Success)
        else UpdateLevelActor w ActorArray rest
      else UpdateLevelActor w ActorArray rest
    | _, _ => UpdateLevelActor w ActorArray rest

/-- Engine contract of `StaticFindObjectFast(nullptr, PersistentLevel, Name)`
cast to an actor: the actor of that name whose outer is the persistent
level. -/
def FindActorInPersistentLevel (Name : FName) : List AActor → Nat → Option Nat
  | [], _ => none
  | a :: rest, i =>
    if a.bInPersistentLevel ∧ a.Name = Name then some i
    else FindActorInPersistentLevel Name rest (i + 1)

def CheckForExistingActor (S : UEMSPluginSettings) (w : UWorld) (ActorArray : FActorSaveData) :
    UWorld × Bool :=
  if !S.bAdvancedSpawnCheck then (w, false)
  else
    let LoadedActorName := StringFromBytes ActorArray.Name
    match FindActorInPersistentLevel LoadedActorName w.Actors 0 with
    | some NewLevelActor => (ProcessLevelActor w NewLevelActor ActorArray, true)
    | none => (w, false)

/-- Engine contract of `FindObject<UClass>(ANY_PACKAGE, Class)` followed by
`StaticLoadObject`: the class of that path name among the loaded and
loadable ones; no class has an empty path name. -/
def FindClass (w : UWorld) (Class : FString) : Option UClass :=
  if Class = "" then none
  else w.Classes.find? (fun c => decide (c.PathName = Class))

/-- Stand-in for the name the engine makes up when it is asked to spawn
under `NAME_None`. -/
def MakeUniqueObjectName (w : UWorld) (SpawnClass : UClass) : FName :=
  SpawnClass.PathName ++ "_" ++ toString w.Actors.length

/-- The actor `UWorld::SpawnActor` constructs from the class template: under
the requested name (an engine-made one for `NAME_None`), alive, not a startup
actor, in the persistent level, its root component at the given transform. -/
def FreshActor (w : UWorld) (SpawnClass : UClass) (t : AActor) (T : FTransform)
    (Name : FName) : AActor :=
  { t with
    Name := if Name = "" then MakeUniqueObjectName w SpawnClass else Name,
    bPendingKill := false,
    bNetStartup := false,
    bInPersistentLevel := true,
    RootComponent := t.RootComponent.map (fun r => { r with ComponentToWorld := T }) }

/-- Engine contract of `UWorld::SpawnActor` as `SpawnLevelActor` calls it
(collisions ignored, name mode `Required_ErrorAndReturnNull`): null when the
class cannot be instantiated as an actor or when the requested name is taken
in the persistent level; otherwise a fresh actor of the class under the
requested name, at the given transform, at the end of the object store. -/
def SpawnActor (w : UWorld) (SpawnClass : UClass) (T : FTransform) (Name : FName) :
    Option (Nat × UWorld) :=
  match SpawnClass.Template with
  | none => none
  | some t =>
    if (FindActorInPersistentLevel Name w.Actors 0).isSome then none
    else
      some (w.Actors.length,
        { w with Actors := w.Actors ++ [FreshActor w SpawnClass t T Name] })

def SpawnLevelActor (S : UEMSPluginSettings) (w : UWorld) (ActorArray : FActorSaveData) :
    UWorld :=
  let Class := StringFromBytes ActorArray.Class
  match FindClass w Class with
  | none => w
  | some SpawnClass =>
    if SpawnClass.bImplementsSaveInterface then
      let chk := CheckForExistingActor S w ActorArray
      if !chk.2 then
        match SpawnActor chk.1 SpawnClass ActorArray.Transform
            (StringFromBytes ActorArray.Name) with
        | some (NewActor, w1) => ProcessLevelActor w1 NewActor ActorArray
        | none => chk.1
      else chk.1
    else w

def SpawnOrUpdateLevelActor (S : UEMSPluginSettings) (w : UWorld)
    (ActorList : List (Option Nat)) (ActorArray : FActorSaveData) : UWorld × Bool :=
  let bRightType :=
    ActorArray.Type_ = EActorType.AT_Placed.toUInt8
      ∨ ActorArray.Type_ = EActorType.AT_Runtime.toUInt8
      ∨ ActorArray.Type_ = EActorType.AT_Persistent.toUInt8
  if ¬ bRightType then (w, false)
  else
    let upd := UpdateLevelActor w ActorArray ActorList
    let w1 :=
      if upd.2 = EUpdateActorResult.RES_ShouldSpawnNewActor then
        SpawnLevelActor S upd.1 ActorArray
      else upd.1
    (w1, decide (upd.2 ≠ EUpdateActorResult.RES_Skip))

/-! ## `EMSAsyncLoadGame.cpp`: the part the level code calls -/

def FinishLoading (LoadTask : UEMSAsyncLoadGame) : UEMSAsyncLoadGame :=
  { LoadTask with bIsActive := false, NextTick := some ELoadStep.CompleteLoadingTask }

/-- The `while (LoadNum < Batch)` loop of `DeferredLoadActors`; the first
number is `Batch - LoadNum`, the iterations left. An index outside the
array ends the walk. -/
def DeferredLoadLoop (S : UEMSPluginSettings) (ActorList : List (Option Nat)) :
    Nat → Nat → UWorld → UEMSAsyncLoadGame → UWorld × UEMSAsyncLoadGame
  | 0, _, w, LoadTask => (w, LoadTask)
  | left + 1, LoadNum, w, LoadTask =>
    let FullBatch := LoadNum + LoadTask.LoadedActorNum
    if FullBatch ≥ LoadTask.SavedActors.length then (w, LoadTask)
    else
      let MinLoadNum := min FullBatch LoadTask.SavedActors.length
      match LoadTask.SavedActors[MinLoadNum]? with
      | none => (w, LoadTask)
      | some ActorArray =>
        let r := SpawnOrUpdateLevelActor S w ActorList ActorArray
        DeferredLoadLoop S ActorList left (LoadNum + 1) r.1
          { LoadTask with bDeferredLoadSuccess := r.2 }

def DeferredLoadActors (S : UEMSPluginSettings) (w : UWorld) (m : UEMSObject)
    (LoadTask : UEMSAsyncLoadGame) : UWorld × UEMSAsyncLoadGame :=
  let Batch := 15
  if LoadTask.LoadedActorNum < LoadTask.SavedActors.length then
    let r := DeferredLoadLoop S m.ActorList Batch 0 w LoadTask
    (r.1, { r.2 with LoadedActorNum := r.2.LoadedActorNum + Batch,
                     NextTick := some ELoadStep.DeferredLoadActors })
  else (w, FinishLoading LoadTask)

def StartDeferredLoad (S : UEMSPluginSettings) (w : UWorld) (m : UEMSObject)
    (LoadTask : UEMSAsyncLoadGame) : UWorld × UEMSAsyncLoadGame :=
  DeferredLoadActors S w m { LoadTask with SavedActors := m.SavedActors }

/-! ## `EMSObject.cpp`: the level load -/

def LoadAllLevelActors (S : UEMSPluginSettings) (w : UWorld) (m : UEMSObject)
    (LoadTask : UEMSAsyncLoadGame) : UWorld × UEMSAsyncLoadGame :=
  let w1 := m.SavedActors.foldl
    (fun acc ActorArray => (SpawnOrUpdateLevelActor S acc m.ActorList ActorArray).1) w
  (w1, FinishLoading LoadTask)

/-- Squared distance, which orders points as `FVector::Dist` does. -/
def DistSquared (A B : FVector) : Int :=
  (A.X - B.X) * (A.X - B.X) + (A.Y - B.Y) * (A.Y - B.Y) + (A.Z - B.Z) * (A.Z - B.Z)

/-- The distance sort of `StartLoadLevelActors`. The engine's sort is not
stable; the stand-in keeps records at equal distance in their order. -/
def SortByDistance (CameraLoc : FVector) (l : List FActorSaveData) : List FActorSaveData :=
  l.insertionSort (fun A B =>
    DistSquared A.Transform.Translation CameraLoc
      ≤ DistSquared B.Transform.Translation CameraLoc)

/-- `StartLoadLevelActors` with a non-null task. The multi-thread method on a
platform with threads runs the load on a worker thread and lies outside the
embedding: the result is `none` there. -/
def StartLoadLevelActors (S : UEMSPluginSettings) (w : UWorld) (m : UEMSObject)
    (LoadTask : UEMSAsyncLoadGame) : Option (UWorld × UEMSObject × UEMSAsyncLoadGame) :=
  if m.SavedActors.length ≤ 0 then some (w, m, FinishLoading LoadTask)
  else
    let m1 :=
      if w.bIsServer then
        match w.CameraLocation with
        | some CameraLoc => { m with SavedActors := SortByDistance CameraLoc m.SavedActors }
        | none => m
      else m
    if S.LoadMethod = ELoadMethod.LM_Thread then
      if w.bSupportsMultithreading then none
      else
        let r := StartDeferredLoad S w m1 LoadTask
        some (r.1, m1, r.2)
    else if S.LoadMethod = ELoadMethod.LM_Deferred then
      let r := StartDeferredLoad S w m1 LoadTask
      some (r.1, m1, r.2)
    else
      let r := LoadAllLevelActors S w m1 LoadTask
      some (r.1, m1, r.2)

/-- The inner loop of the level script block of `LoadLevelActors`: every
saved script of the actor's level name is loaded into the actor at `i`. -/
def LoadScriptsInto (w : UWorld) (i : Nat) (ScriptName : FName) :
    List FLevelScriptSaveData → UWorld
  | [] => w
  | ScriptArray :: rest =>
    if ScriptArray.Name = ScriptName then
      LoadScriptsInto (LoadActorFromBinary w i ScriptArray.SaveData) i ScriptName rest
    else LoadScriptsInto w i ScriptName rest

/-- One iteration of the loop over `ActorList` in the level script block. -/
def LoadLevelScriptStep (SavedScripts : List FLevelScriptSaveData) (w : UWorld)
    (p : Option Nat) : UWorld :=
  match w.Deref p, p with
  | some Actor, some i =>
    if IsValidForLoading Actor ∧ GetActorType Actor = EActorType.AT_LevelScript then
      LoadScriptsInto w i (LevelScriptSaveName Actor) SavedScripts
    else w
  | _, _ => w

/-- The game mode and the game state block of `LoadLevelActors`: the saved
snapshot is loaded into the actor behind the pointer when the snapshot has
data and the actor is valid for loading. -/
def LoadSingleton (w : UWorld) (p : Option Nat) (Saved : FGameObjectSaveData) : UWorld :=
  if Saved.Data.length > 0 then
    match w.Deref p, p with
    | some a, some i => if IsValidForLoading a then LoadActorFromBinary w i Saved else w
    | _, _ => w
  else w

/-- The level script, game mode and game state blocks of `LoadLevelActors`,
which come before the call of `StartLoadLevelActors`. -/
def LoadLevelSingletons (w : UWorld) (m : UEMSObject) : UWorld :=
  let w1 :=
    if m.SavedScripts.length > 0 then
      m.ActorList.foldl (LoadLevelScriptStep m.SavedScripts) w
    else w
  let w2 := LoadSingleton w1 w1.AuthGameMode m.SavedGameMode
  LoadSingleton w2 w2.GameState m.SavedGameState

def LoadLevelActors (S : UEMSPluginSettings) (w : UWorld) (m : UEMSObject)
    (LoadTask : UEMSAsyncLoadGame) : Option (UWorld × UEMSObject × UEMSAsyncLoadGame) :=
  StartLoadLevelActors S (LoadLevelSingletons w m) m LoadTask

/-- The body of the loop over the archive's actors in `UnpackBinaryArchive`:
the manager's `SavedActors` and the success flag so far, and one record. -/
def UnpackActorStep (LevelArchive : FLevelArchive) (CurrentLevel : FName)
    (acc : List FActorSaveData × Bool) (TempSavedActor : FActorSaveData) :
    List FActorSaveData × Bool :=
  if TempSavedActor.Type_ = EActorType.AT_Persistent.toUInt8 then
    (acc.1 ++ [TempSavedActor], true)
  else
    if LevelArchive.Level = CurrentLevel then (acc.1 ++ [TempSavedActor], true)
    else acc

/-- `UnpackBinaryArchive` for `DATA_Level`, from the archive that
`FromBinary << LevelArchive` has read. -/
def UnpackBinaryArchive (S : UEMSPluginSettings) (w : UWorld) (m : UEMSObject)
    (LevelArchive : FLevelArchive) : UEMSObject × Bool :=
  let r := LevelArchive.SavedActors.foldl
    (UnpackActorStep LevelArchive (GetLevelName w)) ([], false)
  let m1 := { m with SavedActors := r.1 }
  let r2 : UEMSObject × Bool :=
    if LevelArchive.Level = GetLevelName w then
      ({ m1 with SavedScripts := LevelArchive.SavedScripts }, true)
    else (m1, r.2)
  if LevelArchive.Level = GetLevelName w ∨ S.bPersistentGameMode = true then
    ({ r2.1 with SavedGameMode := LevelArchive.SavedGameMode,
                 SavedGameState := LevelArchive.SavedGameState }, true)
  else r2

/-! ## The rule lists of the classification -/

/-- The category of the first rule of a list that matches, and the default
when none does. -/
def FirstMatchingRule (Default : EActorType) : List (Bool × EActorType) → EActorType
  | [] => Default
  | (cond, T) :: rest => if cond then T else FirstMatchingRule Default rest

/-- The precedence list as the specification words it: the startup rule
speaks of any actor. -/
def SpecClassificationRules (a : AActor) : List (Bool × EActorType) :=
  [ (decide (a.Kind = EActorKind.Pawn) && !a.bPlayerControlled && ActorHasTag a PersistentTag,
      EActorType.AT_Persistent),
    ((decide (a.Kind = EActorKind.Pawn) && a.bPlayerControlled)
        || decide (a.Kind = EActorKind.PlayerController)
        || decide (a.Kind = EActorKind.PlayerState), EActorType.AT_Player),
    (decide (a.Kind = EActorKind.LevelScriptActor), EActorType.AT_LevelScript),
    (decide (a.Kind = EActorKind.GameModeBase) || decide (a.Kind = EActorKind.GameStateBase),
      EActorType.AT_GameObject),
    (ActorHasTag a PersistentTag, EActorType.AT_Persistent),
    (a.bNetStartup, EActorType.AT_Placed) ]

/-- The precedence list with the startup rule narrowed to actors that are not
pawns. -/
def PawnAwareClassificationRules (a : AActor) : List (Bool × EActorType) :=
  [ (decide (a.Kind = EActorKind.Pawn) && !a.bPlayerControlled && ActorHasTag a PersistentTag,
      EActorType.AT_Persistent),
    ((decide (a.Kind = EActorKind.Pawn) && a.bPlayerControlled)
        || decide (a.Kind = EActorKind.PlayerController)
        || decide (a.Kind = EActorKind.PlayerState), EActorType.AT_Player),
    (decide (a.Kind = EActorKind.LevelScriptActor), EActorType.AT_LevelScript),
    (decide (a.Kind = EActorKind.GameModeBase) || decide (a.Kind = EActorKind.GameStateBase),
      EActorType.AT_GameObject),
    (ActorHasTag a PersistentTag, EActorType.AT_Persistent),
    (a.bNetStartup && decide (a.Kind ≠ EActorKind.Pawn), EActorType.AT_Placed) ]

/-! ## Auxiliary notions for the statements -/

/-- An actor with the loaded marker taken off, as `SaveActorToBinary` leaves
it. -/
def ClearLoaded (a : AActor) : AActor :=
  { a with Tags := TagsRemove a.Tags HasLoadedTag }

/-- The pointer leads to an actor that is valid for saving. -/
def SavableAt (w : UWorld) (p : Option Nat) : Bool :=
  match w.Deref p with
  | some a => IsValidForSaving a
  | none => false

/-- The actors of the world behind those pointers of the list for which
`SaveLevelActors` emits an actor record: valid for saving and classified
runtime, placed or persistent. -/
def RecordedActors (w : UWorld) (ActorList : List (Option Nat)) : List AActor :=
  ActorList.filterMap (fun p =>
    match w.Deref p with
    | some a =>
      if IsValidForSaving a ∧ (GetActorType a = EActorType.AT_Runtime
          ∨ GetActorType a = EActorType.AT_Placed
          ∨ GetActorType a = EActorType.AT_Persistent) then some a
      else none
    | none => none)

/-- The whole record `SaveLevelActors` emits for an actor. -/
def ActorRecord (a : AActor) : FActorSaveData :=
  { ActorRecordHead a with SaveData := (SaveActorState a).2 }

/-- Two worlds that differ at most by loaded markers on their actors and by
the events fired. -/
def SameUpToLoaded (w w1 : UWorld) : Prop :=
  w1.Actors.map ClearLoaded = w.Actors.map ClearLoaded
    ∧ w1.AuthGameMode = w.AuthGameMode ∧ w1.GameState = w.GameState
    ∧ w1.OuterName = w.OuterName ∧ w1.StreamingLevelsPrefix = w.StreamingLevelsPrefix

/-- The scan of `UpdateLevelActor`: the first pointer of the list that leads to
a valid actor whose encoded name is the given one. -/
def FindLevelActor (w : UWorld) (Name : Bytes) : List (Option Nat) → Option Nat
  | [] => none
  | p :: rest =>
    match w.Deref p, p with
    | some Actor, some i =>
      if IsValidActor Actor = true ∧ Name = BytesFromString Actor.Name then some i
      else FindLevelActor w Name rest
    | _, _ => FindLevelActor w Name rest

/-- The actor `ProcessLevelActor` leaves behind when the record's type is the
actor's classification: moved when it is movable and the saved transform is
valid, then loaded from the snapshot. -/
def ProcessedActor (Actor : AActor) (ActorArray : FActorSaveData) : AActor :=
  LoadActorState
    (if IsMovable (Actor.RootComponent.map (fun r => r.Mobility))
        && ActorArray.Transform.IsValid then
      SetActorTransform Actor ActorArray.Transform
    else Actor)
    ActorArray.SaveData

/-! ## Sample scenes -/

/-- A crate spawned during play. -/
def RuntimeCrate : AActor :=
  { Name := "Crate_1", ClassPathName := "/Game/BP_Crate.BP_Crate_C", Fields := [1],
    RootComponent := some {} }

/-- A crate that was part of the level at startup. -/
def PlacedCrate : AActor :=
  { RuntimeCrate with bNetStartup := true }

/-- A crate of a streamed sub-level that carries the loaded marker. -/
def LoadedCrate : AActor :=
  { RuntimeCrate with bInPersistentLevel := false, Tags := [HasLoadedTag] }

/-- A record of type runtime for the crate, as saved with other field values. -/
def RuntimeCrateRecord : FActorSaveData :=
  { Class := BytesFromString "/Game/BP_Crate.BP_Crate_C",
    Name := BytesFromString "Crate_1",
    Type_ := EActorType.AT_Runtime.toUInt8,
    SaveData := { Data := [7] } }

/-- The crate class: its fresh actors carry no tag. -/
def CrateClass : UClass :=
  { PathName := "/Game/BP_Crate.BP_Crate_C",
    Template := some { ClassPathName := "/Game/BP_Crate.BP_Crate_C", RootComponent := some {} } }

/-- A record of type persistent for a crate that got its persistent tag during
play. -/
def PersistentCrateRecord : FActorSaveData :=
  { RuntimeCrateRecord with Type_ := EActorType.AT_Persistent.toUInt8 }

/-- A world without actors that knows the crate class. -/
def EmptyCrateWorld : UWorld :=
  { Classes := [CrateClass] }

/-- The template of the crate class. -/
def CrateTemplate : AActor :=
  { ClassPathName := "/Game/BP_Crate.BP_Crate_C", RootComponent := some {} }

/-- A door placed in the level, away from the origin, that declines transform
persistence. -/
def SkipTransformDoor : AActor :=
  { Name := "Door_1", bNetStartup := true, Tags := [SkipTransformTag], Fields := [1],
    RootComponent := some
      { Mobility := EComponentMobility.Movable,
        ComponentToWorld :=
          { FTransform.Identity with Translation := { X := 100, Y := 0, Z := 0 } } } }

def DoorWorld : UWorld :=
  { Actors := [SkipTransformDoor] }

def DoorManager : UEMSObject :=
  { ActorList := [some 0] }

/-- A level archive written in level A: game mode and game state snapshots and
one persistent actor. -/
def LevelAArchive : FLevelArchive :=
  { Level := "LevelA",
    SavedGameMode := { Data := [42] },
    SavedGameState := { Data := [43] },
    SavedActors := [PersistentCrateRecord] }

/-- Level A, where the archive was written and is first loaded. -/
def LevelAWorld : UWorld :=
  { OuterName := "LevelA" }

/-- Level B after travel, with its own game mode and game state. -/
def LevelBWorld : UWorld :=
  { OuterName := "LevelB",
    Actors := [{ Name := "GameMode_B", Kind := EActorKind.GameModeBase, Fields := [0] },
               { Name := "GameState_B", Kind := EActorKind.GameStateBase, Fields := [0] }],
    AuthGameMode := some 0,
    GameState := some 1 }

/-- The manager as an earlier load of the archive in level A leaves it. -/
def ManagerAfterLevelALoad : UEMSObject :=
  (UnpackBinaryArchive {} LevelAWorld {} LevelAArchive).1

/-! ## `EMSFunctionLibrary.cpp` -/

/-- `TArray::AddUnique`: appends unless the element is there already. -/
def TagsAddUnique (Tags : List FName) (t : FName) : List FName :=
  if t ∈ Tags then Tags else Tags ++ [t]

/-- `SetActorSaveProperties` on a world context object that is an actor. -/
def SetActorSaveProperties (SaveActor : AActor) (bSkipSave bPersistent bSkipTransform : Bool) :
    AActor :=
  let Tags := SaveActor.Tags
  let Tags := if bSkipSave then TagsAddUnique Tags SkipSaveTag else TagsRemove Tags SkipSaveTag
  let Tags := if bPersistent then TagsAddUnique Tags PersistentTag
    else TagsRemove Tags PersistentTag
  let Tags := if bSkipTransform then TagsAddUnique Tags SkipTransformTag
    else TagsRemove Tags SkipTransformTag
  { SaveActor with Tags := Tags }

/-- One block of `SetActorSaveProperties`: the tag is added once when the flag
is set and removed altogether when it is not. -/
def SetPropertyTag (Tags : List FName) (t : FName) (b : Bool) : List FName :=
  if b then TagsAddUnique Tags t else TagsRemove Tags t

/-- A tag that is none of the three property tags. -/
def IsOtherTag (t : FName) : Bool :=
  decide (t ≠ SkipSaveTag ∧ t ≠ PersistentTag ∧ t ≠ SkipTransformTag)

/-! ## `EMSAsyncSaveGame.cpp`, `EMSAsyncLoadGame.cpp`, `EMSAsyncWait.cpp`: starting tasks -/

/-- The save task of `EMSAsyncSaveGame.h`. -/
structure UEMSAsyncSaveGame where
  Data : Nat := 0
  Mode : ESaveGameMode := ESaveGameMode.MODE_Player
  bIsActive : Bool := false
  bFinishedStep : Bool := false
deriving DecidableEq, Repr

/-- The enumerators of `ESaveTypeFlags` and `ELoadTypeFlags` as numbers. -/
def SF_Player : Nat := 0
def SF_Level : Nat := 1
def LF_Player : Nat := 0
def LF_Level : Nat := 1

/-- The macro `ENUM_TO_FLAG`. -/
def ENUM_TO_FLAG (Enum : Nat) : Nat :=
  1 <<< Enum

/-- `UEMSAsyncSaveGame::GetMode`; `Data` is the bit pattern of the flags. -/
def UEMSAsyncSaveGame.GetMode (Data : Nat) : ESaveGameMode :=
  if Data &&& ENUM_TO_FLAG SF_Player ≠ 0 then
    if Data &&& ENUM_TO_FLAG SF_Level ≠ 0 then ESaveGameMode.MODE_All
    else ESaveGameMode.MODE_Player
  else ESaveGameMode.MODE_Level

/-- `UEMSAsyncLoadGame::GetMode`. -/
def UEMSAsyncLoadGame.GetMode (Data : Nat) : ESaveGameMode :=
  if Data &&& ENUM_TO_FLAG LF_Player ≠ 0 then
    if Data &&& ENUM_TO_FLAG LF_Level ≠ 0 then ESaveGameMode.MODE_All
    else ESaveGameMode.MODE_Player
  else ESaveGameMode.MODE_Level

/-- `IsAsyncSaveOrLoadTaskActive`; the two lists are what the object iterators
over the live load tasks and the live save tasks visit. -/
def IsAsyncSaveOrLoadTaskActive (w : UWorld) (LoadTasks : List UEMSAsyncLoadGame)
    (SaveTasks : List UEMSAsyncSaveGame) (Mode : ESaveGameMode) (bLog : Bool) : Bool :=
  if bLog && w.bPaused then true
  else if LoadTasks.any (fun It =>
      It.bIsActive && (decide (It.Mode = Mode) || decide (It.Mode = ESaveGameMode.MODE_All)))
    then true
  else if SaveTasks.any (fun It =>
      It.bIsActive && (decide (It.Mode = Mode) || decide (It.Mode = ESaveGameMode.MODE_All)))
    then true
  else false

/-- `UEMSAsyncSaveGame::AsyncSaveActors`; `EMSObject` is the result of
`UEMSObject::Get`, the result the new task or null. -/
def AsyncSaveActors (EMSObject : Option UEMSObject) (w : UWorld)
    (LoadTasks : List UEMSAsyncLoadGame) (SaveTasks : List UEMSAsyncSaveGame) (Data : Nat) :
    Option UEMSAsyncSaveGame :=
  match EMSObject with
  | none => none
  | some _ =>
    if !IsAsyncSaveOrLoadTaskActive w LoadTasks SaveTasks (UEMSAsyncSaveGame.GetMode Data) true
    then some { Data := Data, Mode := UEMSAsyncSaveGame.GetMode Data, bIsActive := true }
    else none

/-- `UEMSAsyncLoadGame::AsyncLoadActors`. -/
def AsyncLoadActors (EMSObject : Option UEMSObject) (w : UWorld)
    (LoadTasks : List UEMSAsyncLoadGame) (SaveTasks : List UEMSAsyncSaveGame) (Data : Nat)
    (bFullReload : Bool) : Option UEMSAsyncLoadGame :=
  match EMSObject with
  | none => none
  | some _ =>
    if !IsAsyncSaveOrLoadTaskActive w LoadTasks SaveTasks (UEMSAsyncLoadGame.GetMode Data) true
    then some { Data := Data, Mode := UEMSAsyncLoadGame.GetMode Data,
                bFullReload := bFullReload, bIsActive := true }
    else none

/-- `UEMSFunctionLibrary::IsSavingOrLoading`. -/
def IsSavingOrLoading (EMS : Option UEMSObject) (w : UWorld)
    (LoadTasks : List UEMSAsyncLoadGame) (SaveTasks : List UEMSAsyncSaveGame) : Bool :=
  match EMS with
  | some _ => IsAsyncSaveOrLoadTaskActive w LoadTasks SaveTasks ESaveGameMode.MODE_All false
  | none => false

/-- The member function a wait task has scheduled for the next tick. -/
inductive EWaitStep where
  | StartWaitTask
  | CompleteWaitTask
deriving DecidableEq, Repr

/-- `UEMSAsyncWait::StartWaitTask`: what the wait task schedules next. -/
def StartWaitTask (w : UWorld) (LoadTasks : List UEMSAsyncLoadGame)
    (SaveTasks : List UEMSAsyncSaveGame) : EWaitStep :=
  if IsAsyncSaveOrLoadTaskActive w LoadTasks SaveTasks ESaveGameMode.MODE_All false then
    EWaitStep.StartWaitTask
  else EWaitStep.CompleteWaitTask

/-- The scope of a mode includes the player actors. -/
def IncludesPlayer (Mode : ESaveGameMode) : Bool :=
  decide (Mode = ESaveGameMode.MODE_Player ∨ Mode = ESaveGameMode.MODE_All)

/-- The scope of a mode includes the level actors. -/
def IncludesLevel (Mode : ESaveGameMode) : Bool :=
  decide (Mode = ESaveGameMode.MODE_Level ∨ Mode = ESaveGameMode.MODE_All)

/-- Two scopes overlap: both include the player, or both include the level. -/
def ScopesOverlap (A B : ESaveGameMode) : Bool :=
  (IncludesPlayer A && IncludesPlayer B) || (IncludesLevel A && IncludesLevel B)

/-- A save task for the player actors only that is under way. -/
def ActivePlayerSave : UEMSAsyncSaveGame :=
  { Data := 1, Mode := ESaveGameMode.MODE_Player, bIsActive := true }

/-- A load task for the level actors only that is under way. -/
def ActiveLevelLoad : UEMSAsyncLoadGame :=
  { Data := 2, Mode := ESaveGameMode.MODE_Level, bIsActive := true }

/-! ## Auxiliary notions for the component statements -/

/-- The first saved sub-record that carries the component's encoded name. -/
def MatchingRecord (c : UActorComponent) (l : List FComponentSaveData) :
    Option FComponentSaveData :=
  l.find? (fun r => decide (r.Name = BytesFromString c.Name))

/-- The sub-record's name is the one of a registered component of the actor's
`ComponentsToSave` list. -/
def NamesRegisteredComponent (a : AActor) (r : FComponentSaveData) : Bool :=
  a.ComponentsToSave.any (fun oc =>
    match oc with
    | some c => c.bRegistered && decide (r.Name = BytesFromString c.Name)
    | none => false)

/-- A lamp with a movable light and a static mesh. -/
def LampActor : AActor :=
  { Name := "Lamp_1",
    ComponentsToSave :=
      [some { Name := "Light", Scene := some {}, Fields := [1] },
       some { Name := "Mesh", Scene := some { Mobility := EComponentMobility.Static },
              Fields := [2] }] }

/-- Saved sub-records for the lamp's light and mesh and for a component the
lamp no longer has. -/
def LampSubRecords : List FComponentSaveData :=
  [{ Name := BytesFromString "Light", Data := [10] },
   { Name := BytesFromString "Mesh", Data := [20] },
   { Name := BytesFromString "Gone", Data := [30] }]

/-! ## `EMSObject.h`: file access and path names -/

/-- The directory `FPaths::ProjectSavedDir()` answers, with its closing
slash. -/
structure FPaths where
  ProjectSavedDir : FString := "Saved/"
deriving DecidableEq, Repr

/-- The files and directories the file manager sees; `bCanMakeDirectory` is
the answer of `MakeDirectory`. -/
structure FFileSystem where
  Files : List (FString × Bytes) := []
  Directories : List FString := []
  bCanMakeDirectory : Bool := true
deriving DecidableEq, Repr

/-- The content of the file at a path, if there is one. -/
def FFileSystem.Read (fs : FFileSystem) (Path : FString) : Option Bytes :=
  (fs.Files.find? (fun f => decide (f.1 = Path))).map (fun f => f.2)

/-- Engine contract of `IFileManager::FileSize`: the length of the file, -1
without one. -/
def FFileSystem.FileSize (fs : FFileSystem) (Path : FString) : Int :=
  match fs.Read Path with
  | some Data => (Data.length : Int)
  | none => -1

/-- Writes a file, replacing the one at the path. -/
def FFileSystem.Write (fs : FFileSystem) (Path : FString) (Data : Bytes) : FFileSystem :=
  { fs with Files := (Path, Data) :: fs.Files.filter (fun f => decide (f.1 ≠ Path)) }

/-- Engine contract of `IFileManager::Copy(Dest, Src, true, false)`: nothing
when both paths are the same or the source is missing, otherwise the
destination gets the source's content. -/
def FFileSystem.Copy (fs : FFileSystem) (Dest Src : FString) : FFileSystem :=
  if Dest = Src then fs
  else
    match fs.Read Src with
    | some Data => fs.Write Dest Data
    | none => fs

def SaveUserDir (P : FPaths) : FString :=
  P.ProjectSavedDir ++ "UserSaveGames/"

def BaseSaveDir (P : FPaths) (m : UEMSObject) : FString :=
  if m.CurrentSaveUserName ≠ "" then SaveUserDir P ++ m.CurrentSaveUserName ++ "/"
  else P.ProjectSavedDir ++ "SaveGames/"

def SaveFolder (P : FPaths) (m : UEMSObject) (SaveGameName : FString) : FString :=
  BaseSaveDir P m ++ SaveGameName ++ "/"

def ProfileSaveFile (P : FPaths) (m : UEMSObject) : FString :=
  BaseSaveDir P m ++ LocalProfileName ++ SaveType

def GetCurrentSaveGameName (S : UEMSPluginSettings) (m : UEMSObject) : FString :=
  let DefaultName := S.DefaultSaveGameName
  if m.CurrentSaveGameName = "" then DefaultName
  else m.CurrentSaveGameName

def FullSaveDir (S : UEMSPluginSettings) (P : FPaths) (m : UEMSObject) (DataType : FString)
    (SaveGameName : FString) : FString :=
  let SaveGameName := if SaveGameName = "" then GetCurrentSaveGameName S m else SaveGameName
  if S.FileNamingType = EFileSaveMethod.FM_Optimized then
    SaveFolder P m SaveGameName ++ DataType
  else SaveFolder P m SaveGameName ++ SaveGameName ++ "_" ++ DataType

def PersistentSaveFile (S : UEMSPluginSettings) (P : FPaths) (m : UEMSObject)
    (SaveGameName : FString) : FString :=
  let SaveGameName := if SaveGameName = "" then GetCurrentSaveGameName S m else SaveGameName
  FullSaveDir S P m (PersistentSuffix ++ SaveType) SaveGameName

def SlotInfoSaveFile (S : UEMSPluginSettings) (P : FPaths) (m : UEMSObject)
    (SaveGameName : FString) : FString :=
  let SaveGameName := if SaveGameName = "" then GetCurrentSaveGameName S m else SaveGameName
  FullSaveDir S P m (SlotSuffix ++ SaveType) SaveGameName

def ActorSaveFile (S : UEMSPluginSettings) (P : FPaths) (m : UEMSObject)
    (SaveGameName : FString) : FString :=
  let SaveGameName := if SaveGameName = "" then GetCurrentSaveGameName S m else SaveGameName
  FullSaveDir S P m (ActorSuffix ++ SaveType) SaveGameName

def PlayerSaveFile (S : UEMSPluginSettings) (P : FPaths) (m : UEMSObject)
    (SaveGameName : FString) : FString :=
  let SaveGameName := if SaveGameName = "" then GetCurrentSaveGameName S m else SaveGameName
  FullSaveDir S P m (PlayerSuffix ++ SaveType) SaveGameName

def ThumbnailSaveFile (S : UEMSPluginSettings) (P : FPaths) (m : UEMSObject)
    (SaveGameName : FString) : FString :=
  if S.FileNamingType = EFileSaveMethod.FM_Optimized then
    SaveFolder P m SaveGameName ++ "thumb.png"
  else SaveFolder P m SaveGameName ++ SaveGameName ++ ".png"

/-! ## `EMSObject.cpp`: save slots and save users -/

/-- `VerifyOrCreateDirectory`; `FPaths::Combine` of the base directory, which
ends in a slash, and the name appends the name. -/
def VerifyOrCreateDirectory (P : FPaths) (fs : FFileSystem) (m : UEMSObject)
    (NewDir : FString) : FFileSystem × Bool :=
  let SaveFile := BaseSaveDir P m ++ NewDir
  if SaveFile ∈ fs.Directories then (fs, true)
  else if fs.bCanMakeDirectory then
    ({ fs with Directories := fs.Directories ++ [SaveFile] }, true)
  else (fs, false)

/-- What a call of `SetCurrentSaveGameName` leaves: the manager, the files,
and the destination and source handed to `IFileManager::Copy` when the copy
of the persistent file is made. -/
structure FSetSlotResult where
  Manager : UEMSObject
  FileSystem : FFileSystem
  CopyDestAndSrc : Option (FString × FString) := none
deriving DecidableEq, Repr

def SetCurrentSaveGameName (S : UEMSPluginSettings) (P : FPaths) (fs : FFileSystem)
    (m : UEMSObject) (SaveGameName : FString) : FSetSlotResult :=
  if m.CurrentSaveGameName ≠ SaveGameName then
    let m1 := { m with CachedSlotInfoSave := none }
    let m2 := { m1 with CachedPersistentSave := none }
    let OldSaveName := m2.CurrentSaveGameName
    let m3 := { m2 with CurrentSaveGameName := SaveGameName }
    if S.bCopyPersistentSave then
      let dir := VerifyOrCreateDirectory P fs m3 SaveGameName
      if dir.2 then
        let SrcPersistentFile := PersistentSaveFile S P m3 OldSaveName
        { Manager := m3,
          FileSystem := dir.1.Copy (PersistentSaveFile S P m3 "") SrcPersistentFile,
          CopyDestAndSrc := some (PersistentSaveFile S P m3 "", SrcPersistentFile) }
      else { Manager := m3, FileSystem := dir.1 }
    else { Manager := m3, FileSystem := fs }
  else { Manager := m, FileSystem := fs }

def SetCurrentSaveUserName (m : UEMSObject) (UserName : FString) : UEMSObject :=
  if m.CurrentSaveUserName ≠ UserName then
    let m1 := { m with CachedSlotInfoSave := none }
    let m2 := { m1 with CachedPersistentSave := none }
    { m2 with CurrentSaveUserName := UserName }
  else m

/-- The settings with the copy of the persistent save switched on. -/
def CopyPersistentSettings : UEMSPluginSettings :=
  { bCopyPersistentSave := true }

/-! ## `EMSData.h`: the `operator<<` of the record types

In the source one `operator<<` both writes and reads, depending on the
archive. The embedding gives each a writer, which appends to the bytes
written so far, and a reader, which takes its value off the front of the
bytes and hands back the rest. The engine's serializers of the primitive
types are the fields of `FArchive`; like the engine's memory reader they
always yield a value. -/

/-- The engine's serializers of the primitive types: the element count of a
`TArray`, `TArray<uint8>`, `uint8`, `FTransform`, `FVector`, `FRotator` and
`FName`. -/
structure FArchive where
  WriteNum : Nat → Bytes
  ReadNum : Bytes → Nat × Bytes
  WriteByteArray : Bytes → Bytes
  ReadByteArray : Bytes → Bytes × Bytes
  WriteUInt8 : Nat → Bytes
  ReadUInt8 : Bytes → Nat × Bytes
  WriteTransform : FTransform → Bytes
  ReadTransform : Bytes → FTransform × Bytes
  WriteVector : FVector → Bytes
  ReadVector : Bytes → FVector × Bytes
  WriteRotator : FRotator → Bytes
  ReadRotator : Bytes → FRotator × Bytes
  WriteName : FName → Bytes
  ReadName : Bytes → FName × Bytes

/-- Each primitive serializer reads back what it wrote and leaves the bytes
that follow. -/
structure FArchive.RoundTrips (Ar : FArchive) : Prop where
  Num : ∀ n rest, Ar.ReadNum (Ar.WriteNum n ++ rest) = (n, rest)
  ByteArray : ∀ b rest, Ar.ReadByteArray (Ar.WriteByteArray b ++ rest) = (b, rest)
  UInt8 : ∀ n rest, Ar.ReadUInt8 (Ar.WriteUInt8 n ++ rest) = (n, rest)
  Transform : ∀ T rest, Ar.ReadTransform (Ar.WriteTransform T ++ rest) = (T, rest)
  Vector : ∀ V rest, Ar.ReadVector (Ar.WriteVector V ++ rest) = (V, rest)
  Rotator : ∀ R rest, Ar.ReadRotator (Ar.WriteRotator R ++ rest) = (R, rest)
  Name : ∀ N rest, Ar.ReadName (Ar.WriteName N ++ rest) = (N, rest)

/-- The elements of a `TArray`, one after the other. -/
def WriteElements {α : Type} (write : α → Bytes) : List α → Bytes
  | [] => []
  | x :: xs => write x ++ WriteElements write xs

/-- Reads the given number of elements of a `TArray`. -/
def ReadElements {α : Type} (read : Bytes → α × Bytes) : Nat → Bytes → List α × Bytes
  | 0, s => ([], s)
  | n + 1, s =>
    let r := read s
    let rs := ReadElements read n r.2
    (r.1 :: rs.1, rs.2)

/-- `operator<<` of `TArray<T>`, writing: the element count, then the
elements. -/
def WriteArray {α : Type} (Ar : FArchive) (write : α → Bytes) (l : List α) : Bytes :=
  Ar.WriteNum l.length ++ WriteElements write l

/-- `operator<<` of `TArray<T>`, reading. -/
def ReadArray {α : Type} (Ar : FArchive) (read : Bytes → α × Bytes) (s : Bytes) :
    List α × Bytes :=
  let n := Ar.ReadNum s
  ReadElements read n.1 n.2

def WriteComponentSaveData (Ar : FArchive) (ComponentData : FComponentSaveData) : Bytes :=
  Ar.WriteByteArray ComponentData.Name
    ++ Ar.WriteTransform ComponentData.RelativeTransform
    ++ Ar.WriteByteArray ComponentData.Data

def ReadComponentSaveData (Ar : FArchive) (s : Bytes) : FComponentSaveData × Bytes :=
  let Name := Ar.ReadByteArray s
  let RelativeTransform := Ar.ReadTransform Name.2
  let Data := Ar.ReadByteArray RelativeTransform.2
  ({ Name := Name.1, RelativeTransform := RelativeTransform.1, Data := Data.1 }, Data.2)

def WriteGameObjectSaveData (Ar : FArchive) (GameObjectData : FGameObjectSaveData) : Bytes :=
  Ar.WriteByteArray GameObjectData.Data
    ++ WriteArray Ar (WriteComponentSaveData Ar) GameObjectData.Components

def ReadGameObjectSaveData (Ar : FArchive) (s : Bytes) : FGameObjectSaveData × Bytes :=
  let Data := Ar.ReadByteArray s
  let Components := ReadArray Ar (ReadComponentSaveData Ar) Data.2
  ({ Data := Data.1, Components := Components.1 }, Components.2)

def WriteActorSaveData (Ar : FArchive) (ActorData : FActorSaveData) : Bytes :=
  Ar.WriteByteArray ActorData.Class
    ++ Ar.WriteByteArray ActorData.Name
    ++ Ar.WriteTransform ActorData.Transform
    ++ Ar.WriteUInt8 ActorData.Type_
    ++ WriteGameObjectSaveData Ar ActorData.SaveData

def ReadActorSaveData (Ar : FArchive) (s : Bytes) : FActorSaveData × Bytes :=
  let Class := Ar.ReadByteArray s
  let Name := Ar.ReadByteArray Class.2
  let Transform := Ar.ReadTransform Name.2
  let Type_ := Ar.ReadUInt8 Transform.2
  let SaveData := ReadGameObjectSaveData Ar Type_.2
  ({ Class := Class.1, Name := Name.1, Transform := Transform.1, Type_ := Type_.1,
     SaveData := SaveData.1 }, SaveData.2)

def WriteLevelScriptSaveData (Ar : FArchive) (ScriptData : FLevelScriptSaveData) : Bytes :=
  Ar.WriteName ScriptData.Name ++ WriteGameObjectSaveData Ar ScriptData.SaveData

def ReadLevelScriptSaveData (Ar : FArchive) (s : Bytes) : FLevelScriptSaveData × Bytes :=
  let Name := Ar.ReadName s
  let SaveData := ReadGameObjectSaveData Ar Name.2
  ({ Name := Name.1, SaveData := SaveData.1 }, SaveData.2)

def WritePawnSaveData (Ar : FArchive) (PawnData : FPawnSaveData) : Bytes :=
  Ar.WriteVector PawnData.Position
    ++ Ar.WriteRotator PawnData.Rotation
    ++ WriteGameObjectSaveData Ar PawnData.SaveData

def ReadPawnSaveData (Ar : FArchive) (s : Bytes) : FPawnSaveData × Bytes :=
  let Position := Ar.ReadVector s
  let Rotation := Ar.ReadRotator Position.2
  let SaveData := ReadGameObjectSaveData Ar Rotation.2
  ({ Position := Position.1, Rotation := Rotation.1, SaveData := SaveData.1 }, SaveData.2)

def WriteControllerSaveData (Ar : FArchive) (ControllerData : FControllerSaveData) : Bytes :=
  Ar.WriteRotator ControllerData.Rotation
    ++ WriteGameObjectSaveData Ar ControllerData.SaveData

def ReadControllerSaveData (Ar : FArchive) (s : Bytes) : FControllerSaveData × Bytes :=
  let Rotation := Ar.ReadRotator s
  let SaveData := ReadGameObjectSaveData Ar Rotation.2
  ({ Rotation := Rotation.1, SaveData := SaveData.1 }, SaveData.2)

def WriteLevelArchive (Ar : FArchive) (LevelArchive : FLevelArchive) : Bytes :=
  WriteArray Ar (WriteActorSaveData Ar) LevelArchive.SavedActors
    ++ WriteArray Ar (WriteLevelScriptSaveData Ar) LevelArchive.SavedScripts
    ++ WriteGameObjectSaveData Ar LevelArchive.SavedGameMode
    ++ WriteGameObjectSaveData Ar LevelArchive.SavedGameState
    ++ Ar.WriteName LevelArchive.Level

def ReadLevelArchive (Ar : FArchive) (s : Bytes) : FLevelArchive × Bytes :=
  let SavedActors := ReadArray Ar (ReadActorSaveData Ar) s
  let SavedScripts := ReadArray Ar (ReadLevelScriptSaveData Ar) SavedActors.2
  let SavedGameMode := ReadGameObjectSaveData Ar SavedScripts.2
  let SavedGameState := ReadGameObjectSaveData Ar SavedGameMode.2
  let Level := Ar.ReadName SavedGameState.2
  ({ SavedActors := SavedActors.1, SavedScripts := SavedScripts.1,
     SavedGameMode := SavedGameMode.1, SavedGameState := SavedGameState.1,
     Level := Level.1 }, Level.2)

def WritePlayerArchive (Ar : FArchive) (PlayerArchive : FPlayerArchive) : Bytes :=
  WriteControllerSaveData Ar PlayerArchive.SavedController
    ++ WritePawnSaveData Ar PlayerArchive.SavedPawn
    ++ WriteGameObjectSaveData Ar PlayerArchive.SavedPlayerState
    ++ Ar.WriteName PlayerArchive.Level

def ReadPlayerArchive (Ar : FArchive) (s : Bytes) : FPlayerArchive × Bytes :=
  let SavedController := ReadControllerSaveData Ar s
  let SavedPawn := ReadPawnSaveData Ar SavedController.2
  let SavedPlayerState := ReadGameObjectSaveData Ar SavedPawn.2
  let Level := Ar.ReadName SavedPlayerState.2
  ({ SavedController := SavedController.1, SavedPawn := SavedPawn.1,
     SavedPlayerState := SavedPlayerState.1, Level := Level.1 }, Level.2)

/-! ## `EMSObject.cpp`: archive functions and save objects -/

/-- The engine's compressed proxies: the compressed image of a buffer, what
`Decompressor << DecompressedBinary` leaves in the buffer, and the answers of
`GetError()` right after the save proxy and the load proxy are constructed. -/
structure FCompressedProxy where
  Compress : Bytes → Bytes
  Decompress : Bytes → Bytes
  bSaveError : Bool := false
  bLoadError : Bytes → Bool := fun _ => false

/-- What a call of `LoadBinaryArchive` leaves: the manager, the object handed
in, and the answer. -/
structure FLoadResult where
  Manager : UEMSObject
  Object : Option USaveGame := none
  bSuccess : Bool := false
deriving DecidableEq, Repr

/-- The `DATA_Player` branch of `UnpackBinaryArchive`, from the archive that
`FromBinary << PlayerArchive` has read. -/
def UnpackPlayerArchive (S : UEMSPluginSettings) (w : UWorld) (m : UEMSObject)
    (PlayerArchive : FPlayerArchive) : UEMSObject × Bool :=
  if PlayerArchive.Level = GetLevelName w ∨ S.bPersistentPlayer = true then
    ({ m with SavedController := PlayerArchive.SavedController,
              SavedPawn := PlayerArchive.SavedPawn,
              SavedPlayerState := PlayerArchive.SavedPlayerState }, true)
  else (m, false)

/-- `UnpackBinaryArchive` on the reader `FromBinary`, with its three
branches; in the `DATA_Object` branch the object's properties are read from
the buffer that `FromBinary << ObjectArchive` yields. -/
def UnpackBinaryArchiveFrom (Ar : FArchive) (S : UEMSPluginSettings) (w : UWorld)
    (m : UEMSObject) (FromBinary : Bytes) (LoadType : EDataLoadType)
    (Object : Option USaveGame) : FLoadResult :=
  match LoadType with
  | EDataLoadType.DATA_Level =>
    let r := UnpackBinaryArchive S w m (ReadLevelArchive Ar FromBinary).1
    { Manager := r.1, Object := Object, bSuccess := r.2 }
  | EDataLoadType.DATA_Player =>
    let r := UnpackPlayerArchive S w m (ReadPlayerArchive Ar FromBinary).1
    { Manager := r.1, Object := Object, bSuccess := r.2 }
  | EDataLoadType.DATA_Object =>
    match Object with
    | some Obj =>
      { Manager := m,
        Object := some { Obj with
          Fields := SerializeFromBinary (Ar.ReadByteArray FromBinary).1 },
        bSuccess := true }
    | none => { Manager := m, Object := none, bSuccess := false }

def LoadBinaryArchive (Ar : FArchive) (Z : FCompressedProxy) (S : UEMSPluginSettings)
    (w : UWorld) (fs : FFileSystem) (m : UEMSObject) (LoadType : EDataLoadType)
    (FullSavePath : FString) (Object : Option USaveGame) : FLoadResult :=
  if fs.FileSize FullSavePath ≤ 0 then { Manager := m, Object := Object, bSuccess := false }
  else
    match fs.Read FullSavePath with
    | none => { Manager := m, Object := Object, bSuccess := false }
    | some BinaryData =>
      if BinaryData.length ≤ 0 then { Manager := m, Object := Object, bSuccess := false }
      else if Z.bLoadError BinaryData then
        { Manager := m, Object := Object, bSuccess := false }
      else
        let DecompressedBinary := Z.Decompress BinaryData
        UnpackBinaryArchiveFrom Ar S w m DecompressedBinary LoadType Object

/-- `SaveBinaryArchive`; writing the file succeeds. -/
def SaveBinaryArchive (Z : FCompressedProxy) (fs : FFileSystem) (BinaryData : Bytes)
    (FullSavePath : FString) : FFileSystem × Bool :=
  if Z.bSaveError then (fs, false)
  else (fs.Write FullSavePath (Z.Compress BinaryData), true)

def CreateSaveObject (SaveGameClass : Option FString) : Option USaveGame :=
  match SaveGameClass with
  | some Class => if Class ≠ USaveGameStaticClass then some { Class := Class } else none
  | none => none

def SaveObject (Ar : FArchive) (Z : FCompressedProxy) (fs : FFileSystem)
    (FullSavePath : FString) (SaveGameObject : Option USaveGame) : FFileSystem × Bool :=
  match SaveGameObject with
  | some Obj =>
    let Data := SerializeToBinary Obj.Fields
    SaveBinaryArchive Z fs (Ar.WriteByteArray Data) FullSavePath
  | none => (fs, false)

def LoadObject (Ar : FArchive) (Z : FCompressedProxy) (S : UEMSPluginSettings) (w : UWorld)
    (fs : FFileSystem) (m : UEMSObject) (FullSavePath : FString)
    (SaveGameClass : Option FString) : Option USaveGame :=
  match CreateSaveObject SaveGameClass with
  | some SaveGameObject =>
    (LoadBinaryArchive Ar Z S w fs m EDataLoadType.DATA_Object FullSavePath
      (some SaveGameObject)).Object
  | none => none

/-- `GetDesiredSaveObject`: the object returned, and the cached object the
reference parameter holds afterwards. -/
def GetDesiredSaveObject (Ar : FArchive) (Z : FCompressedProxy) (S : UEMSPluginSettings)
    (w : UWorld) (fs : FFileSystem) (m : UEMSObject) (FullSavePath : FString)
    (Class : Option FString) (SaveGameObject : Option USaveGame) :
    Option USaveGame × Option USaveGame :=
  if FullSavePath = "" then (none, SaveGameObject)
  else
    let SaveGameObject :=
      match SaveGameObject with
      | none => LoadObject Ar Z S w fs m FullSavePath Class
      | some Obj => some Obj
    (SaveGameObject, SaveGameObject)

/-- `GetSlotInfoObject`: the object returned and the manager afterwards. -/
def GetSlotInfoObject (Ar : FArchive) (Z : FCompressedProxy) (S : UEMSPluginSettings)
    (P : FPaths) (w : UWorld) (fs : FFileSystem) (m : UEMSObject) (SaveGameName : FString) :
    Option USaveGame × UEMSObject :=
  let m1 := if SaveGameName ≠ "" then { m with CachedSlotInfoSave := none } else m
  let r := GetDesiredSaveObject Ar Z S w fs m1 (SlotInfoSaveFile S P m1 SaveGameName)
    S.SlotInfoSaveGameClass m1.CachedSlotInfoSave
  (r.1, { m1 with CachedSlotInfoSave := r.2 })

def GetPersistentSave (Ar : FArchive) (Z : FCompressedProxy) (S : UEMSPluginSettings)
    (P : FPaths) (w : UWorld) (fs : FFileSystem) (m : UEMSObject) :
    Option USaveGame × UEMSObject :=
  let r := GetDesiredSaveObject Ar Z S w fs m (PersistentSaveFile S P m "")
    S.PersistentSaveGameClass m.CachedPersistentSave
  (r.1, { m with CachedPersistentSave := r.2 })

def GetLocalProfileSaveGame (Ar : FArchive) (Z : FCompressedProxy) (S : UEMSPluginSettings)
    (P : FPaths) (w : UWorld) (fs : FFileSystem) (m : UEMSObject) :
    Option USaveGame × UEMSObject :=
  let r := GetDesiredSaveObject Ar Z S w fs m (ProfileSaveFile P m)
    S.ProfileSaveGameClass m.CachedProfileSave
  (r.1, { m with CachedProfileSave := r.2 })

def TryLoadPlayerFile (Ar : FArchive) (Z : FCompressedProxy) (S : UEMSPluginSettings)
    (P : FPaths) (w : UWorld) (fs : FFileSystem) (m : UEMSObject) : FLoadResult :=
  LoadBinaryArchive Ar Z S w fs m EDataLoadType.DATA_Player (PlayerSaveFile S P m "") none

def TryLoadLevelFile (Ar : FArchive) (Z : FCompressedProxy) (S : UEMSPluginSettings)
    (P : FPaths) (w : UWorld) (fs : FFileSystem) (m : UEMSObject) : FLoadResult :=
  LoadBinaryArchive Ar Z S w fs m EDataLoadType.DATA_Level (ActorSaveFile S P m "") none

/-! ## A sample archive and a sample compressed proxy -/

/-- An integer as a sign cell and a magnitude cell. -/
def WriteInt (z : Int) : Bytes :=
  [if z < 0 then 1 else 0, z.natAbs]

def ReadInt : Bytes → Int × Bytes
  | s :: n :: rest => (if s = 1 then -(n : Int) else (n : Int), rest)
  | rest => (0, rest)

def WriteVectorCells (V : FVector) : Bytes :=
  WriteInt V.X ++ WriteInt V.Y ++ WriteInt V.Z

def ReadVectorCells (s : Bytes) : FVector × Bytes :=
  let X := ReadInt s
  let Y := ReadInt X.2
  let Z := ReadInt Y.2
  ({ X := X.1, Y := Y.1, Z := Z.1 }, Z.2)

def WriteQuatCells (Q : FQuat) : Bytes :=
  WriteInt Q.X ++ WriteInt Q.Y ++ WriteInt Q.Z ++ WriteInt Q.W

def ReadQuatCells (s : Bytes) : FQuat × Bytes :=
  let X := ReadInt s
  let Y := ReadInt X.2
  let Z := ReadInt Y.2
  let W := ReadInt Z.2
  ({ X := X.1, Y := Y.1, Z := Z.1, W := W.1 }, W.2)

def ReadCell : Bytes → Nat × Bytes
  | n :: rest => (n, rest)
  | [] => (0, [])

def ReadCounted : Bytes → Bytes × Bytes
  | n :: rest => (rest.take n, rest.drop n)
  | [] => ([], [])

/-- A sample of primitive serializers: counts and bytes as single cells,
arrays and names behind their length, coordinates as sign and magnitude. -/
def SampleArchive : FArchive :=
  { WriteNum := fun n => [n],
    ReadNum := ReadCell,
    WriteByteArray := fun b => b.length :: b,
    ReadByteArray := ReadCounted,
    WriteUInt8 := fun n => [n],
    ReadUInt8 := ReadCell,
    WriteTransform := fun T =>
      WriteQuatCells T.Rotation ++ WriteVectorCells T.Translation ++ WriteVectorCells T.Scale3D,
    ReadTransform := fun s =>
      let Rotation := ReadQuatCells s
      let Translation := ReadVectorCells Rotation.2
      let Scale3D := ReadVectorCells Translation.2
      ({ Rotation := Rotation.1, Translation := Translation.1, Scale3D := Scale3D.1 },
        Scale3D.2),
    WriteVector := WriteVectorCells,
    ReadVector := ReadVectorCells,
    WriteRotator := fun R => WriteInt R.Pitch ++ WriteInt R.Yaw ++ WriteInt R.Roll,
    ReadRotator := fun s =>
      let Pitch := ReadInt s
      let Yaw := ReadInt Pitch.2
      let Roll := ReadInt Yaw.2
      ({ Pitch := Pitch.1, Yaw := Yaw.1, Roll := Roll.1 }, Roll.2),
    WriteName := fun N => N.length :: N.toList.map Char.toNat,
    ReadName := fun s =>
      let r := ReadCounted s
      (String.mk (r.1.map Char.ofNat), r.2) }

/-- A sample compressed proxy: the envelope is a two byte marker before the
data; bytes without the marker decompress to nothing, and the proxies report
no error when they are constructed. -/
def SampleProxy : FCompressedProxy :=
  { Compress := fun d => 120 :: 156 :: d,
    Decompress := fun d =>
      match d with
      | 120 :: 156 :: rest => rest
      | _ => [] }

/-! ## Sample files -/

/-- The manager with slot A as current slot. -/
def SlotAManager : UEMSObject :=
  { CurrentSaveGameName := "SlotA" }

/-- Slot info files of slot A and slot B, written by `SaveObject`. -/
def TwoSlotFiles : FFileSystem :=
  (SaveObject SampleArchive SampleProxy
    (SaveObject SampleArchive SampleProxy {}
      (SlotInfoSaveFile {} {} SlotAManager "SlotA")
      (some { Class := "EMSInfoSaveGame", Fields := [65] })).1
    (SlotInfoSaveFile {} {} SlotAManager "SlotB")
    (some { Class := "EMSInfoSaveGame", Fields := [66] })).1

/-- A manager that holds a record from an earlier load. -/
def ManagerWithSavedCrate : UEMSObject :=
  { SavedActors := [RuntimeCrateRecord] }

/-- A level file whose content is not a compressed envelope. -/
def GarbageLevelFile : FFileSystem :=
  { Files := [(ActorSaveFile {} {} ManagerWithSavedCrate "", [1, 2, 3])] }

/-- A level file of length zero. -/
def EmptyLevelFile : FFileSystem :=
  { Files := [(ActorSaveFile {} {} ManagerWithSavedCrate "", [])] }

/-! ## The file layout as the specification words it -/

/-- The slot a file function works on: the given name, or the current slot
name (the configured default when none is set) for an empty one. -/
def EffectiveSlotName (S : UEMSPluginSettings) (m : UEMSObject) (SaveGameName : FString) :
    FString :=
  if SaveGameName = "" then GetCurrentSaveGameName S m else SaveGameName

/-- The layout formula: the saved directory, `SaveGames/` or
`UserSaveGames/<user>/`, the slot directory, and the file name, which is the
data kind with the extension, behind the slot name and an underscore under
the legacy naming. -/
def SaveFileLayout (S : UEMSPluginSettings) (P : FPaths) (User Slot Kind : FString) : FString :=
  (if User = "" then P.ProjectSavedDir ++ "SaveGames/"
    else P.ProjectSavedDir ++ "UserSaveGames/" ++ User ++ "/")
  ++ Slot ++ "/"
  ++ (if S.FileNamingType = EFileSaveMethod.FM_Optimized then Kind ++ ".sav"
      else Slot ++ "_" ++ Kind ++ ".sav")

/-- A world whose outer name does not hold its streaming levels prefix. -/
def UnprefixedLevelWorld : UWorld :=
  { OuterName := "LevelA", StreamingLevelsPrefix := "UEDPIE_0_" }

/-- A profile object with one byte of state. -/
def CachedProfileOfAnn : USaveGame :=
  { Class := "EMSProfileSaveGame", Fields := [7] }

/-- The manager of user Ann, holding the profile object in its cache. -/
def ProfileManagerOfAnn : UEMSObject :=
  { CurrentSaveUserName := "Ann", CachedProfileSave := some CachedProfileOfAnn }

/-! ## Components of an actor: auxiliary notions -/

/-- The non-null registered components of the actor's `ComponentsToSave`
list, in list order. -/
def RegisteredComponents (a : AActor) : List UActorComponent :=
  a.ComponentsToSave.filterMap (fun oc =>
    match oc with
    | some c => if c.bRegistered then some c else none
    | none => none)

/-- The data blob a sub-record carries: the child actor's state for a child
actor component whose child does not declare the save interface, nothing for
one whose child declares it or that has no child, and the component's own
state for every other component. -/
def SubRecordData (c : UActorComponent) : Bytes :=
  match c.ChildActorComp with
  | some (some ChildActor) => if ChildActor.bHasSaveInterface then [] else ChildActor.Fields
  | some none => []
  | none => c.Fields

/-- A child actor component whose child actor declares the save interface. -/
def GunComponent : UActorComponent :=
  { Name := "Gun",
    Scene := some { RelativeTransform :=
      { Rotation := ⟨0, 0, 0, 1⟩, Translation := ⟨5, 0, 0⟩, Scale3D := ⟨1, 1, 1⟩ } },
    ChildActorComp := some (some { bHasSaveInterface := true, Fields := [9] }),
    Fields := [3] }

/-- A turret whose only listed component is the gun. -/
def TurretActor : AActor :=
  { Name := "Turret_1", ComponentsToSave := [some GunComponent] }

/-- Engine conversions between quaternions and rotators (`FQuat::Rotator`,
`FRotator::Quaternion`), taken as parameters. -/
structure FRotationMath where
  Rotator : FQuat → FRotator
  Quaternion : FRotator → FQuat

/-- `UGameplayStatics::GetPlayerController(GetWorld(), PlayerIndex)`. -/
def GetPlayerController (w : UWorld) : Option APlayerController :=
  w.PlayerController

def GetPlayerPawn (w : UWorld) : Option Nat :=
  match GetPlayerController w with
  | some PC => PC.PawnOrSpectator
  | none => none

/-- Engine contract of `IsValid`: not null and not pending kill. -/
def IsValid (a : Option AActor) : Bool :=
  match a with
  | some x => !x.bPendingKill
  | none => false

def HasValidGameMode (w : UWorld) : Bool :=
  IsValid (w.Deref w.AuthGameMode)

def HasValidPlayer (w : UWorld) : Bool :=
  IsValid (w.Deref (GetPlayerPawn w))

/-- `AActor::GetActorLocation`: the root component's location, zero without a
root component. -/
def GetActorLocation (a : AActor) : FVector :=
  match a.RootComponent with
  | some r => r.ComponentToWorld.Translation
  | none => { X := 0, Y := 0, Z := 0 }

/-- `AActor::GetActorRotation`: the root component's rotation as a rotator,
zero without a root component. -/
def GetActorRotation (K : FRotationMath) (a : AActor) : FRotator :=
  match a.RootComponent with
  | some r => K.Rotator r.ComponentToWorld.Rotation
  | none => {}

/-- `AActor::SetActorLocation` with teleport and no sweep. -/
def SetActorLocation (a : AActor) (NewLocation : FVector) : AActor :=
  match a.RootComponent with
  | some r =>
    let T : FTransform := { r.ComponentToWorld with Translation := NewLocation }
    { a with RootComponent := some { r with ComponentToWorld := T } }
  | none => a

/-- `AActor::SetActorRotation` with teleport. -/
def SetActorRotation (K : FRotationMath) (a : AActor) (NewRotation : FRotator) : AActor :=
  match a.RootComponent with
  | some r =>
    let T : FTransform := { r.ComponentToWorld with Rotation := K.Quaternion NewRotation }
    { a with RootComponent := some { r with ComponentToWorld := T } }
  | none => a

/-- `FVector::IsNearlyZero` on integer coordinates. -/
def FVector.IsNearlyZero (V : FVector) : Bool :=
  decide (V.X = 0 ∧ V.Y = 0 ∧ V.Z = 0)

/-- `FRotator::IsNearlyZero` on integer angles. -/
def FRotator.IsNearlyZero (R : FRotator) : Bool :=
  decide (R.Pitch = 0 ∧ R.Yaw = 0 ∧ R.Roll = 0)

/-- The controller block of `SavePlayerActors`. -/
def SavePlayerController (w : UWorld) : UWorld × FControllerSaveData :=
  let InController : FControllerSaveData := {}
  match GetPlayerController w with
  | some Controller =>
    match w.Actors[Controller.Self]? with
    | some a =>
      if IsValidForSaving a then
        let InController :=
          if !ActorHasTag a SkipTransformTag then
            { InController with Rotation := Controller.ControlRotation }
          else InController
        let r := SaveActorToBinary w Controller.Self
        (r.1, { InController with SaveData := r.2 })
      else (w, InController)
    | none => (w, InController)
  | none => (w, InController)

/-- The pawn block of `SavePlayerActors`. -/
def SavePlayerPawn (K : FRotationMath) (w : UWorld) : UWorld × FPawnSaveData :=
  let InPawn : FPawnSaveData := {}
  match GetPlayerPawn w, w.Deref (GetPlayerPawn w) with
  | some Pawn, some a =>
    if IsValidForSaving a then
      let InPawn :=
        if !ActorHasTag a SkipTransformTag then
          { InPawn with Position := GetActorLocation a, Rotation := GetActorRotation K a }
        else InPawn
      let r := SaveActorToBinary w Pawn
      (r.1, { InPawn with SaveData := r.2 })
    else (w, InPawn)
  | _, _ => (w, InPawn)

/-- The player state block of `SavePlayerActors`, which reads
`GetPlayerController()->PlayerState` without a test of the controller: `none`
is the dereference of a null controller. -/
def SavePlayerState (w : UWorld) : Option (UWorld × FGameObjectSaveData) :=
  match GetPlayerController w with
  | none => none
  | some PC =>
    match PC.PlayerState, w.Deref PC.PlayerState with
    | some PlayerState, some a =>
      if IsValidForSaving a then some (SaveActorToBinary w PlayerState) else some (w, {})
    | _, _ => some (w, {})

/-- `SavePlayerActors`, up to the player archive it hands to
`SaveBinaryArchive`; `none` when it dereferences a null pointer. -/
def SavePlayerActors (K : FRotationMath) (w : UWorld) : Option (UWorld × FPlayerArchive) :=
  let c := SavePlayerController w
  let p := SavePlayerPawn K c.1
  match SavePlayerState p.1 with
  | none => none
  | some s =>
    some (s.1, { SavedController := c.2,
                 SavedPawn := p.2,
                 SavedPlayerState := s.2,
                 Level := GetLevelName s.1 })

/-- The controller block of `LoadPlayerActors`. -/
def LoadPlayerController (S : UEMSPluginSettings) (w : UWorld) (m : UEMSObject) : UWorld :=
  match GetPlayerController w with
  | some Controller =>
    match w.Actors[Controller.Self]? with
    | some a =>
      if IsValidForLoading a then
        let ControllerData := m.SavedController
        let w1 :=
          if !S.bPersistentPlayer && !ControllerData.Rotation.IsNearlyZero then
            let PC : APlayerController :=
              { Controller with ControlRotation := ControllerData.Rotation }
            { w with PlayerController := some PC }
          else w
        LoadActorFromBinary w1 Controller.Self ControllerData.SaveData
      else w
    | none => w
  | none => w

/-- The pawn block of `LoadPlayerActors`. -/
def LoadPlayerPawn (K : FRotationMath) (S : UEMSPluginSettings) (w : UWorld)
    (m : UEMSObject) : UWorld :=
  match GetPlayerPawn w, w.Deref (GetPlayerPawn w) with
  | some Pawn, some a =>
    if IsValidForLoading a then
      let PawnData := m.SavedPawn
      let w1 :=
        if !S.bPersistentPlayer && !PawnData.Position.IsNearlyZero then
          w.SetActor Pawn
            (SetActorRotation K (SetActorLocation a PawnData.Position) PawnData.Rotation)
        else w
      LoadActorFromBinary w1 Pawn PawnData.SaveData
    else w
  | _, _ => w

/-- The player state block of `LoadPlayerActors`; `none` is the dereference
of a null controller. -/
def LoadPlayerState (w : UWorld) (m : UEMSObject) : Option UWorld :=
  if m.SavedPlayerState.Data.length > 0 then
    match GetPlayerController w with
    | none => none
    | some PC =>
      match PC.PlayerState, w.Deref PC.PlayerState with
      | some PlayerState, some a =>
        if IsValidForLoading a then some (LoadActorFromBinary w PlayerState m.SavedPlayerState)
        else some w
      | _, _ => some w
  else some w

def LoadPlayerActors (K : FRotationMath) (S : UEMSPluginSettings) (w : UWorld)
    (m : UEMSObject) : Option UWorld :=
  LoadPlayerState (LoadPlayerPawn K S (LoadPlayerController S w m) m) m

/-- A stand-in for the engine's conversions between quaternions and
rotators. -/
def SampleRotationMath : FRotationMath :=
  { Rotator := fun Q => { Pitch := Q.Y, Yaw := Q.Z, Roll := Q.X },
    Quaternion := fun R => { X := R.Roll, Y := R.Pitch, Z := R.Yaw, W := 1 } }

/-- A dedicated server with its game mode and without a player controller:
the manager's outer is the game mode there. -/
def DedicatedServerWorld : UWorld :=
  { OuterName := "LevelA",
    Actors := [{ Name := "GameMode_A", Kind := EActorKind.GameModeBase, Fields := [0] }],
    AuthGameMode := some 0,
    bIsServer := true }

/-- A world with a player: controller, pawn and player state. -/
def PlayerWorld : UWorld :=
  { OuterName := "LevelA",
    Actors := [{ Name := "Controller_0", bPlayerControlled := true, Fields := [1] },
               { Name := "Pawn_0", bPlayerControlled := true, Fields := [2],
                 RootComponent := some {} },
               { Name := "PlayerState_0", Fields := [3] }],
    PlayerController := some { Self := 0, PawnOrSpectator := some 1, PlayerState := some 2 } }

/-! ## `EMSObject.cpp`: preparing the actor list -/

/-- The body of the loop of `PrepareLoadAndSaveActors` for the actor at `i`:
the world and the local array `Actors` so far. The struct property pass
(`SerializeActorStructProperties`) acts on the property flags of the actor's
class, which are not part of the world state here. -/
def PrepareActorStep (Flags : Nat) (bFullReload : Bool) (st : UWorld × List (Option Nat))
    (i : Nat) : UWorld × List (Option Nat) :=
  match st.1.Actors[i]? with
  | none => st
  | some Actor =>
    if IsValidActor Actor then
      let Actor1 :=
        if bFullReload then
          let bIsPlayer :=
            match GetPlayerController st.1 with
            | some PC =>
              decide (i = PC.Self) || decide (some i = GetPlayerPawn st.1)
                || decide (some i = PC.PlayerState)
            | none => false
          let A1 :=
            if Flags &&& ENUM_TO_FLAG LF_Player ≠ 0 then
              if bIsPlayer then { Actor with Tags := TagsRemove Actor.Tags HasLoadedTag }
              else Actor
            else Actor
          if Flags &&& ENUM_TO_FLAG LF_Level ≠ 0 then
            if !bIsPlayer then { A1 with Tags := TagsRemove A1.Tags HasLoadedTag }
            else A1
          else A1
        else Actor
      let Type_ := GetActorType Actor1
      if Type_ = EActorType.AT_Runtime ∨ Type_ = EActorType.AT_Placed
          ∨ Type_ = EActorType.AT_LevelScript ∨ Type_ = EActorType.AT_Persistent then
        (st.1.SetActor i Actor1, st.2 ++ [some i])
      else (st.1.SetActor i Actor1, st.2)
    else st

def PrepareLoadAndSaveActors (w : UWorld) (m : UEMSObject) (Flags : Nat)
    (bFullReload : Bool) : UWorld × UEMSObject :=
  let r := (List.range w.Actors.length).foldl (PrepareActorStep Flags bFullReload) (w, [])
  (r.1, { m with ActorList := r.2 })

/-! ## `EMSAsyncLoadGame.cpp`: the steps of the load task -/

/-- The world, the manager and the load task between two ticks. -/
structure FLoadGameState where
  World : UWorld
  EMS : UEMSObject
  LoadTask : UEMSAsyncLoadGame
deriving DecidableEq, Repr

/-- `UEMSAsyncLoadGame::Activate`. -/
def Activate (st : FLoadGameState) : FLoadGameState :=
  let r := PrepareLoadAndSaveActors st.World st.EMS st.LoadTask.Data st.LoadTask.bFullReload
  { World := r.1, EMS := r.2,
    LoadTask := { st.LoadTask with NextTick := some ELoadStep.StartLoading } }

/-- `UEMSAsyncLoadGame::StartLoading`. -/
def StartLoading (st : FLoadGameState) : FLoadGameState :=
  { st with LoadTask := { st.LoadTask with NextTick := some ELoadStep.LoadPlayer } }

/-- `UEMSAsyncLoadGame::LoadPlayer`; `none` when `LoadPlayerActors`
dereferences a null pointer. -/
def LoadPlayer (K : FRotationMath) (Ar : FArchive) (Z : FCompressedProxy)
    (S : UEMSPluginSettings) (P : FPaths) (fs : FFileSystem) (st : FLoadGameState) :
    Option FLoadGameState :=
  if st.LoadTask.Data &&& ENUM_TO_FLAG LF_Player ≠ 0 then
    if !HasValidPlayer st.World then
      some { st with LoadTask := { st.LoadTask with NextTick := some ELoadStep.LoadPlayer } }
    else
      let r := TryLoadPlayerFile Ar Z S P st.World fs st.EMS
      if r.bSuccess then
        match LoadPlayerActors K S st.World r.Manager with
        | some w1 =>
          some { World := w1, EMS := r.Manager,
                 LoadTask := { st.LoadTask with NextTick := some ELoadStep.LoadLevel } }
        | none => none
      else
        some { World := st.World, EMS := r.Manager,
               LoadTask := { st.LoadTask with NextTick := some ELoadStep.LoadLevel } }
  else
    some { st with LoadTask := { st.LoadTask with NextTick := some ELoadStep.LoadLevel } }

/-- `UEMSAsyncLoadGame::LoadLevel`; `none` where `LoadLevelActors` leaves the
embedding (the load on a worker thread). -/
def LoadLevel (Ar : FArchive) (Z : FCompressedProxy) (S : UEMSPluginSettings) (P : FPaths)
    (fs : FFileSystem) (st : FLoadGameState) : Option FLoadGameState :=
  if st.LoadTask.Data &&& ENUM_TO_FLAG LF_Level ≠ 0 then
    if !HasValidGameMode st.World then
      some { st with LoadTask := { st.LoadTask with NextTick := some ELoadStep.LoadLevel } }
    else
      let r := TryLoadLevelFile Ar Z S P st.World fs st.EMS
      if r.bSuccess then
        match LoadLevelActors S st.World r.Manager st.LoadTask with
        | some x => some { World := x.1, EMS := x.2.1, LoadTask := x.2.2 }
        | none => none
      else some { World := st.World, EMS := r.Manager, LoadTask := FinishLoading st.LoadTask }
  else some { st with LoadTask := FinishLoading st.LoadTask }

/-- `UEMSAsyncLoadGame::CompleteLoadingTask`: the completion is broadcast and
the task is ready to be destroyed; nothing is scheduled any more. -/
def CompleteLoadingTask (st : FLoadGameState) : FLoadGameState :=
  { st with LoadTask := { st.LoadTask with NextTick := none } }

/-- One tick of the timer manager for the load task: the member function
scheduled for this tick runs. -/
def LoadTaskTick (K : FRotationMath) (Ar : FArchive) (Z : FCompressedProxy)
    (S : UEMSPluginSettings) (P : FPaths) (fs : FFileSystem) (st : FLoadGameState) :
    Option FLoadGameState :=
  match st.LoadTask.NextTick with
  | some ELoadStep.StartLoading => some (StartLoading st)
  | some ELoadStep.LoadPlayer => LoadPlayer K Ar Z S P fs st
  | some ELoadStep.LoadLevel => LoadLevel Ar Z S P fs st
  | some ELoadStep.DeferredLoadActors =>
    let r := DeferredLoadActors S st.World st.EMS st.LoadTask
    some { World := r.1, EMS := st.EMS, LoadTask := r.2 }
  | some ELoadStep.CompleteLoadingTask => some (CompleteLoadingTask st)
  | none => some st

/-- The given number of ticks after `Activate`; `none` as soon as a step
yields none. -/
def RunLoadTask (K : FRotationMath) (Ar : FArchive) (Z : FCompressedProxy)
    (S : UEMSPluginSettings) (P : FPaths) (fs : FFileSystem) :
    Nat → FLoadGameState → Option FLoadGameState
  | 0, st => some (Activate st)
  | ticks + 1, st =>
    match RunLoadTask K Ar Z S P fs ticks st with
    | some st1 => LoadTaskTick K Ar Z S P fs st1
    | none => none

/-- A load task for player and level that waits in `LoadPlayer`. -/
def WaitingForPlayer : FLoadGameState :=
  { World := DedicatedServerWorld,
    EMS := {},
    LoadTask := { Data := 3, Mode := ESaveGameMode.MODE_All, bIsActive := true,
                  NextTick := some ELoadStep.LoadPlayer } }

/-- A load task for player and level in a world with a player and without a
game mode, waiting in `LoadLevel`. -/
def WaitingForGameMode : FLoadGameState :=
  { World := PlayerWorld,
    EMS := {},
    LoadTask := { Data := 3, Mode := ESaveGameMode.MODE_All, bIsActive := true,
                  NextTick := some ELoadStep.LoadLevel } }

/-! ## `EMSObject.cpp`: struct property serialization

The reflection data the pass walks: properties and script structs are
objects of the engine; here a property of a struct, an array or a map is a
number, a script struct is a number, and the properties of the object's class
are records of their own. -/

/-- What `CastField` tells about a property: a struct property with its
`Struct`, an array property with its `Inner`, a map property with its
`KeyProp` and `ValueProp` (pointers, `none` is null), or another property. -/
inductive EPropertyKind where
  | Other
  | Struct (Struct : Option Nat)
  | Array (Inner : Option Nat)
  | Map (KeyProp ValueProp : Option Nat)
deriving DecidableEq, Repr

/-- The properties owned by structs, arrays and maps, and the script
structs, each with the list `TFieldIterator<FProperty>` walks. -/
structure FTypeGraph where
  Props : List EPropertyKind := []
  Structs : List (List Nat) := []
deriving DecidableEq, Repr

/-- The kind of a property; a number outside the list is a property of
another kind. -/
def FTypeGraph.Kind (G : FTypeGraph) (Property : Nat) : EPropertyKind :=
  G.Props.getD Property EPropertyKind.Other

/-- The properties of a script struct; a number outside the list is a struct
without properties. -/
def FTypeGraph.StructProps (G : FTypeGraph) (ScriptStruct : Nat) : List Nat :=
  G.Structs.getD ScriptStruct []

/-- A property of the object's class: its kind and whether it carries
`CPF_SaveGame`. The pass reads these flags and never writes them. -/
structure FClassProperty where
  Kind : EPropertyKind := EPropertyKind.Other
  bSaveGame : Bool := false
deriving DecidableEq, Repr

/-- The `CPF_SaveGame` bit of every property of the type graph. -/
abbrev FPropertyFlags := Nat → Bool

/-- `Prop->SetPropertyFlags(CPF_SaveGame)`. -/
def SetPropertyFlags (F : FPropertyFlags) (Property : Nat) : FPropertyFlags :=
  fun q => if q = Property then true else F q

/-- `SerializeArrayStruct`, with `SerializeScriptStruct` as parameter. -/
def SerializeArrayStruct (G : FTypeGraph)
    (Recurse : Option Nat → FPropertyFlags → Option FPropertyFlags)
    (Inner : Option Nat) (F : FPropertyFlags) : Option FPropertyFlags :=
  match Inner with
  | some InnerProperty =>
    match G.Kind InnerProperty with
    | EPropertyKind.Struct St => Recurse St F
    | _ => some F
  | none => some F

/-- `SerializeMap`, with `SerializeScriptStruct` as parameter. -/
def SerializeMap (G : FTypeGraph)
    (Recurse : Option Nat → FPropertyFlags → Option FPropertyFlags)
    (ValueProp : Option Nat) (F : FPropertyFlags) : Option FPropertyFlags :=
  match ValueProp with
  | some v =>
    let F1 := SetPropertyFlags F v
    match G.Kind v with
    | EPropertyKind.Struct St => Recurse St F1
    | _ => some F1
  | none => some F

/-- The body of the loop of `SerializeScriptStruct` for one property of the
struct. -/
def SerializeProperty (G : FTypeGraph)
    (Recurse : Option Nat → FPropertyFlags → Option FPropertyFlags)
    (F : FPropertyFlags) (Property : Nat) : Option FPropertyFlags :=
  let F1 := SetPropertyFlags F Property
  match G.Kind Property with
  | EPropertyKind.Array Inner => SerializeArrayStruct G Recurse Inner F1
  | EPropertyKind.Struct St => Recurse St F1
  | EPropertyKind.Map _ ValueProp => SerializeMap G Recurse ValueProp F1
  | EPropertyKind.Other => some F1

/-- `SerializeScriptStruct`. The number bounds the depth of the recursion;
`none` says that the bound was reached. A null struct needs no recursion. -/
def SerializeScriptStruct (G : FTypeGraph) :
    Nat → Option Nat → FPropertyFlags → Option FPropertyFlags
  | 0 => fun ScriptStruct F =>
    match ScriptStruct with
    | none => some F
    | some _ => none
  | fuel + 1 => fun ScriptStruct F =>
    match ScriptStruct with
    | none => some F
    | some s => (G.StructProps s).foldlM (SerializeProperty G (SerializeScriptStruct G fuel)) F

/-- The body of the first loop of `SerializeStructProperties`. -/
def StructPassStep (G : FTypeGraph) (fuel : Nat) (F : FPropertyFlags)
    (ObjectStruct : FClassProperty) : Option FPropertyFlags :=
  match ObjectStruct.Kind with
  | EPropertyKind.Struct St =>
    if ObjectStruct.bSaveGame then SerializeScriptStruct G fuel St F else some F
  | _ => some F

/-- The body of the second loop of `SerializeStructProperties`. -/
def ArrayPassStep (G : FTypeGraph) (fuel : Nat) (F : FPropertyFlags)
    (ArrayProp : FClassProperty) : Option FPropertyFlags :=
  match ArrayProp.Kind with
  | EPropertyKind.Array Inner =>
    if ArrayProp.bSaveGame then SerializeArrayStruct G (SerializeScriptStruct G fuel) Inner F
    else some F
  | _ => some F

/-- The body of the third loop of `SerializeStructProperties`. -/
def MapPassStep (G : FTypeGraph) (fuel : Nat) (F : FPropertyFlags)
    (MapProp : FClassProperty) : Option FPropertyFlags :=
  match MapProp.Kind with
  | EPropertyKind.Map _ ValueProp =>
    if MapProp.bSaveGame then SerializeMap G (SerializeScriptStruct G fuel) ValueProp F
    else some F
  | _ => some F

/-- `SerializeStructProperties` on an object whose class has the given
properties: the struct properties, then the array properties, then the map
properties. -/
def SerializeStructProperties (G : FTypeGraph) (fuel : Nat) (Class : List FClassProperty)
    (F : FPropertyFlags) : Option FPropertyFlags :=
  match Class.foldlM (StructPassStep G fuel) F with
  | none => none
  | some F1 =>
    match Class.foldlM (ArrayPassStep G fuel) F1 with
    | none => none
    | some F2 => Class.foldlM (MapPassStep G fuel) F2

/-! ## Struct property serialization: what gets marked -/

/-- A property of this kind, met by the pass, has the struct expanded: a
struct property leads to its struct, an array to the struct of its inner
property, a map to the struct of its value property. -/
inductive ExpandsTo (G : FTypeGraph) : EPropertyKind → Nat → Prop where
  | ofStruct (s : Nat) : ExpandsTo G (EPropertyKind.Struct (some s)) s
  | ofArray (i s : Nat) (h : G.Kind i = EPropertyKind.Struct (some s)) :
      ExpandsTo G (EPropertyKind.Array (some i)) s
  | ofMap (k : Option Nat) (v s : Nat) (h : G.Kind v = EPropertyKind.Struct (some s)) :
      ExpandsTo G (EPropertyKind.Map k (some v)) s

/-- The script structs the pass expands: those a flagged property of the
class leads to, and those a property of an expanded struct leads to. -/
inductive Expanded (G : FTypeGraph) (Class : List FClassProperty) : Nat → Prop where
  | root (P : FClassProperty) (s : Nat) (hP : P ∈ Class) (hF : P.bSaveGame = true)
      (hE : ExpandsTo G P.Kind s) : Expanded G Class s
  | child (s q t : Nat) (hs : Expanded G Class s) (hq : q ∈ G.StructProps s)
      (hE : ExpandsTo G (G.Kind q) t) : Expanded G Class t

/-- The properties the pass marks: every property of an expanded struct, the
value property of a flagged map property of the class, and the value
property of a map property of an expanded struct. -/
inductive Marked (G : FTypeGraph) (Class : List FClassProperty) : Nat → Prop where
  | member (s p : Nat) (hs : Expanded G Class s) (hp : p ∈ G.StructProps s) :
      Marked G Class p
  | rootValue (P : FClassProperty) (k : Option Nat) (v : Nat) (hP : P ∈ Class)
      (hF : P.bSaveGame = true) (hK : P.Kind = EPropertyKind.Map k (some v)) :
      Marked G Class v
  | memberValue (s q : Nat) (k : Option Nat) (v : Nat) (hs : Expanded G Class s)
      (hq : q ∈ G.StructProps s) (hK : G.Kind q = EPropertyKind.Map k (some v)) :
      Marked G Class v

/-- The marked set as the rule list words it: the properties of the struct
of a flagged struct field of the class, those of the element struct of a
flagged array field, the value property of a flagged map field; and for a
marked property inside a struct, the properties of its struct, those of its
element struct, and its value property with that value's struct
properties. -/
inductive MarkedBySpec (G : FTypeGraph) (Class : List FClassProperty) : Nat → Prop where
  | topStruct (P : FClassProperty) (s p : Nat) (hP : P ∈ Class) (hF : P.bSaveGame = true)
      (hK : P.Kind = EPropertyKind.Struct (some s)) (hp : p ∈ G.StructProps s) :
      MarkedBySpec G Class p
  | topArray (P : FClassProperty) (i s p : Nat) (hP : P ∈ Class) (hF : P.bSaveGame = true)
      (hK : P.Kind = EPropertyKind.Array (some i))
      (hI : G.Kind i = EPropertyKind.Struct (some s)) (hp : p ∈ G.StructProps s) :
      MarkedBySpec G Class p
  | topMap (P : FClassProperty) (k : Option Nat) (v : Nat) (hP : P ∈ Class)
      (hF : P.bSaveGame = true) (hK : P.Kind = EPropertyKind.Map k (some v)) :
      MarkedBySpec G Class v
  | ofStruct (q o s p : Nat) (hq : MarkedBySpec G Class q) (ho : q ∈ G.StructProps o)
      (hK : G.Kind q = EPropertyKind.Struct (some s)) (hp : p ∈ G.StructProps s) :
      MarkedBySpec G Class p
  | ofArray (q o i s p : Nat) (hq : MarkedBySpec G Class q) (ho : q ∈ G.StructProps o)
      (hK : G.Kind q = EPropertyKind.Array (some i))
      (hI : G.Kind i = EPropertyKind.Struct (some s)) (hp : p ∈ G.StructProps s) :
      MarkedBySpec G Class p
  | ofMap (q o : Nat) (k : Option Nat) (v : Nat) (hq : MarkedBySpec G Class q)
      (ho : q ∈ G.StructProps o) (hK : G.Kind q = EPropertyKind.Map k (some v)) :
      MarkedBySpec G Class v
  | ofMapValue (q o : Nat) (k : Option Nat) (v s p : Nat) (hq : MarkedBySpec G Class q)
      (ho : q ∈ G.StructProps o) (hK : G.Kind q = EPropertyKind.Map k (some v))
      (hV : G.Kind v = EPropertyKind.Struct (some s)) (hp : p ∈ G.StructProps s) :
      MarkedBySpec G Class p

/-- The struct `t` is expanded in the course of the expansion of `s`. -/
inductive ReachFrom (G : FTypeGraph) : Nat → Nat → Prop where
  | refl (s : Nat) : ReachFrom G s s
  | step (s q t u : Nat) (hq : q ∈ G.StructProps s) (hE : ExpandsTo G (G.Kind q) t)
      (hr : ReachFrom G t u) : ReachFrom G s u

/-- The properties one expansion of the struct marks itself: its properties
and the value properties of its maps. -/
def MarksIn (G : FTypeGraph) (s p : Nat) : Prop :=
  p ∈ G.StructProps s ∨ ∃ q ∈ G.StructProps s, ∃ k, G.Kind q = EPropertyKind.Map k (some p)

/-- The properties the expansion of the struct marks, recursion included. -/
def MarkedFrom (G : FTypeGraph) (s p : Nat) : Prop :=
  ∃ t, ReachFrom G s t ∧ MarksIn G t p

/-- An inventory: the class has a flagged map from names to items; an item
has a count and an array of mods; a mod has a power. Properties: 0 the key,
1 the value (an item), 2 the count, 3 the mods, 4 the inner property of the
mods (a mod), 5 the power. Structs: 0 the item, 1 the mod. -/
def InventoryGraph : FTypeGraph :=
  { Props := [EPropertyKind.Other, EPropertyKind.Struct (some 0), EPropertyKind.Other,
              EPropertyKind.Array (some 4), EPropertyKind.Struct (some 1),
              EPropertyKind.Other],
    Structs := [[2, 3], [5]] }

def InventoryClass : List FClassProperty :=
  [{ Kind := EPropertyKind.Map (some 0) (some 1), bSaveGame := true }]

/-- No property of the type graph carries the flag. -/
def NoPropertyFlags : FPropertyFlags :=
  fun _ => false

/-- The longest chain of expansions below each struct of the inventory. -/
def InventoryRank (s : Nat) : Nat :=
  if s = 0 then 1 else 0

/-- A tree node: the struct has an array of its own type. Property 0 is the
array of children, property 1 its inner property. -/
def TreeNodeGraph : FTypeGraph :=
  { Props := [EPropertyKind.Array (some 1), EPropertyKind.Struct (some 0)],
    Structs := [[0]] }

/-! ## Components of an actor: what reading a sub-record leaves -/

/-- The state of a component that has read a sub-record: a movable scene
component stands at the saved relative transform; a child actor component
hands the saved blob to its child actor, unless the child declares the save
interface or is missing, and keeps its own state; every other component has
the saved blob as its state. Name and registration are as before. -/
def DeserializedComponent (c : UActorComponent) (r : FComponentSaveData) : UActorComponent :=
  { Name := c.Name,
    bRegistered := c.bRegistered,
    Scene := c.Scene.map (fun s =>
      if s.Mobility = EComponentMobility.Movable then
        { Mobility := s.Mobility, RelativeTransform := r.RelativeTransform }
      else s),
    ChildActorComp := c.ChildActorComp.map (fun Child =>
      Child.map (fun ChildActor =>
        if ChildActor.bHasSaveInterface then ChildActor
        else { bHasSaveInterface := ChildActor.bHasSaveInterface, Fields := r.Data })),
    Fields := if c.ChildActorComp.isSome then c.Fields else r.Data }

/-- The last saved sub-record that carries the component's encoded name. -/
def LastMatchingRecord (c : UActorComponent) (l : List FComponentSaveData) :
    Option FComponentSaveData :=
  (l.filter (fun r => decide (r.Name = BytesFromString c.Name))).getLast?

/-- The components of an actor after the sub-records have been read: each
non-null registered component has read the last sub-record of its name, if
there is one; the other entries are as before. -/
def ComponentsAfterLoad (Components : List (Option UActorComponent))
    (l : List FComponentSaveData) : List (Option UActorComponent) :=
  Components.map (fun oc =>
    match oc with
    | some c =>
      if c.bRegistered then
        some (match LastMatchingRecord c l with
          | some r => DeserializedComponent c r
          | none => c)
      else some c
    | none => none)

/-- A lantern spawned during play: a movable flame, a glass pane that is a
child actor component, a static hook and an unregistered spare part. -/
def LanternActor : AActor :=
  { Name := "Lantern_1", ClassPathName := "/Game/BP_Lantern.BP_Lantern_C", Fields := [1],
    RootComponent := some {},
    ComponentsToSave :=
      [some { Name := "Flame", Scene := some {}, Fields := [1] },
       some { Name := "Glass", Scene := some { Mobility := EComponentMobility.Static },
              ChildActorComp := some (some { Fields := [2] }), Fields := [3] },
       some { Name := "Hook", Scene := some { Mobility := EComponentMobility.Static },
              Fields := [4] },
       some { Name := "Spare", bRegistered := false, Fields := [5] },
       none] }

/-- Where the flame was saved. -/
def SavedFlameTransform : FTransform :=
  { Rotation := ⟨0, 0, 0, 1⟩, Translation := ⟨0, 0, 30⟩, Scale3D := ⟨1, 1, 1⟩ }

/-- Sub-records for the flame, the glass, the spare part and a component the
lantern does not have. -/
def LanternSubRecords : List FComponentSaveData :=
  [{ Name := BytesFromString "Flame", RelativeTransform := SavedFlameTransform, Data := [10] },
   { Name := BytesFromString "Glass", RelativeTransform := SavedFlameTransform, Data := [20] },
   { Name := BytesFromString "Spare", Data := [50] },
   { Name := BytesFromString "Gone", Data := [60] }]

/-- The saved record of the lantern. -/
def LanternRecord : FActorSaveData :=
  { Class := BytesFromString "/Game/BP_Lantern.BP_Lantern_C",
    Name := BytesFromString "Lantern_1",
    Type_ := EActorType.AT_Runtime.toUInt8,
    SaveData := { Data := [7], Components := LanternSubRecords } }

/-- The components of the lantern after its record has been read. -/
def LoadedLanternComponents : List (Option UActorComponent) :=
  [some { Name := "Flame", Scene := some { RelativeTransform := SavedFlameTransform },
          Fields := [10] },
   some { Name := "Glass", Scene := some { Mobility := EComponentMobility.Static },
          ChildActorComp := some (some { Fields := [20] }), Fields := [3] },
   some { Name := "Hook", Scene := some { Mobility := EComponentMobility.Static },
          Fields := [4] },
   some { Name := "Spare", bRegistered := false, Fields := [5] },
   none]

/-! ## Records of other identities: what they leave alone -/

theorem unpack_actor_fold (LevelArchive : FLevelArchive) (CurrentLevel : FName)
    (l : List FActorSaveData) (acc : List FActorSaveData × Bool) :
    (l.foldl (UnpackActorStep LevelArchive CurrentLevel) acc).1 =
      acc.1 ++ l.filter (fun r => decide (r.Type_ = EActorType.AT_Persistent.toUInt8)
        || decide (LevelArchive.Level = CurrentLevel)) := by
  induction l generalizing acc with
  | nil => simp
  | cons r rest ih =>
    rw [List.foldl_cons, ih]
    unfold UnpackActorStep
    by_cases h1 : r.Type_ = EActorType.AT_Persistent.toUInt8
    · simp [h1, List.filter_cons]
    · by_cases h2 : LevelArchive.Level = CurrentLevel
      · simp [h1, h2, List.filter_cons]
      · simp [h1, h2, List.filter_cons]

/-- C2: unpacking a level archive sets `SavedActors` to the sub-sequence, in
archive order, of the records that are persistent or, when the archive's level
is the current level, of any type; the previous list plays no part. -/
theorem C2_unpack_sets_saved_actors (S : UEMSPluginSettings) (w : UWorld) (m : UEMSObject)
    (LevelArchive : FLevelArchive) :
    (UnpackBinaryArchive S w m LevelArchive).1.SavedActors =
      LevelArchive.SavedActors.filter (fun r =>
        decide (r.Type_ = EActorType.AT_Persistent.toUInt8)
          || decide (LevelArchive.Level = GetLevelName w)) := by
  unfold UnpackBinaryArchive
  simp only [unpack_actor_fold, List.nil_append]
  split_ifs <;> rfl

/-- C6, as stated, fails: a pawn that nobody possesses, without the persistent
tag, that was part of the level at startup is classified runtime, where the
stated precedence list yields placed. -/
theorem C6_startup_pawn_is_runtime :
    GetActorType { Kind := EActorKind.Pawn, bNetStartup := true } = EActorType.AT_Runtime
    ∧ FirstMatchingRule EActorType.AT_Runtime
        (SpecClassificationRules { Kind := EActorKind.Pawn, bNetStartup := true })
      = EActorType.AT_Placed := by
  constructor <;> decide

/-- C6, amended: `GetActorType` returns the category of the first matching rule
of the precedence list whose startup rule applies to actors that are not
pawns, and runtime when no rule matches. -/
theorem C6_GetActorType_first_matching_rule (a : AActor) :
    GetActorType a = FirstMatchingRule EActorType.AT_Runtime (PawnAwareClassificationRules a) := by
  unfold GetActorType PawnAwareClassificationRules FirstMatchingRule FirstMatchingRule
    FirstMatchingRule FirstMatchingRule FirstMatchingRule FirstMatchingRule FirstMatchingRule
  cases hk : a.Kind <;> cases hp : a.bPlayerControlled <;> cases ht : ActorHasTag a PersistentTag
    <;> cases hn : a.bNetStartup <;> simp

/-- C8, as stated, fails: an actor with the skip-save tag and without the
loaded marker is valid for loading and not valid for saving. -/
theorem C8_skip_save_actor_is_loadable :
    IsValidForLoading { Tags := [SkipSaveTag] } = true
    ∧ IsValidForSaving { Tags := [SkipSaveTag] } = false := by
  constructor <;> decide

/-- C8, amended: an actor is valid for loading exactly when it is not pending
kill, declares the save interface and does not carry the loaded marker; the
skip-save tag plays no part, and on actors without that tag being valid for
loading is being valid for saving without the loaded marker. -/
theorem C8_IsValidForLoading_iff (a : AActor) :
    (IsValidForLoading a = true ↔
      (a.bPendingKill = false ∧ a.bImplementsSaveInterface = true ∧ HasLoadedTag ∉ a.Tags))
    ∧ (IsValidForLoading a && !ActorHasTag a SkipSaveTag)
        = (IsValidForSaving a && !ActorHasTag a HasLoadedTag) := by
  unfold IsValidForLoading IsValidForSaving IsValidActor HasSaveInterface ActorHasTag
  constructor
  · simp [and_assoc]
  · cases a.bPendingKill <;> cases a.bImplementsSaveInterface <;> simp [Bool.and_comm]


/-! ### The save loop -/

theorem deref_some (w : UWorld) (i : Nat) : w.Deref (some i) = w.Actors[i]? := rfl

theorem deref_none (w : UWorld) : w.Deref none = none := rfl

theorem mem_tagsRemove_of_ne (Tags : List FName) (t u : FName) (h : t ≠ u) :
    t ∈ TagsRemove Tags u ↔ t ∈ Tags := by
  unfold TagsRemove
  simp [List.mem_filter, h]

theorem clearLoaded_idem (a : AActor) : ClearLoaded (ClearLoaded a) = ClearLoaded a := by
  unfold ClearLoaded TagsRemove
  simp [List.filter_filter]

theorem hasTag_clearLoaded (a : AActor) (t : FName) (h : t ≠ HasLoadedTag) :
    ActorHasTag (ClearLoaded a) t = ActorHasTag a t := by
  unfold ActorHasTag ClearLoaded
  simp only [mem_tagsRemove_of_ne _ _ _ h]

theorem isValidForSaving_clearLoaded (a : AActor) :
    IsValidForSaving (ClearLoaded a) = IsValidForSaving a := by
  unfold IsValidForSaving
  rw [hasTag_clearLoaded a SkipSaveTag (by decide)]
  rfl

theorem getActorType_clearLoaded (a : AActor) :
    GetActorType (ClearLoaded a) = GetActorType a := by
  unfold GetActorType
  rw [hasTag_clearLoaded a PersistentTag (by decide)]
  rfl

theorem actorRecordHead_clearLoaded (a : AActor) :
    ActorRecordHead (ClearLoaded a) = ActorRecordHead a := by
  unfold ActorRecordHead
  rw [getActorType_clearLoaded, hasTag_clearLoaded a SkipTransformTag (by decide)]
  rfl

theorem saveActorState_fst (a : AActor) : (SaveActorState a).1 = ClearLoaded a := rfl

theorem saveActorState_snd_clearLoaded (a : AActor) :
    (SaveActorState (ClearLoaded a)).2 = (SaveActorState a).2 := by
  have h := clearLoaded_idem a
  have e : (SaveActorState a).2 =
      (if GetActorType (ClearLoaded a) ≠ EActorType.AT_LevelScript then
        ({ Data := SerializeToBinary (ClearLoaded a).Fields,
           Components := SaveActorComponents (ClearLoaded a) } : FGameObjectSaveData)
       else { Data := SerializeToBinary (ClearLoaded a).Fields }) := rfl
  have e2 : (SaveActorState (ClearLoaded a)).2 =
      (if GetActorType (ClearLoaded (ClearLoaded a)) ≠ EActorType.AT_LevelScript then
        ({ Data := SerializeToBinary (ClearLoaded (ClearLoaded a)).Fields,
           Components := SaveActorComponents (ClearLoaded (ClearLoaded a)) } :
             FGameObjectSaveData)
       else { Data := SerializeToBinary (ClearLoaded (ClearLoaded a)).Fields }) := rfl
  rw [e, e2, h]


theorem sameUpToLoaded_refl (w : UWorld) : SameUpToLoaded w w :=
  ⟨rfl, rfl, rfl, rfl, rfl⟩

theorem sameUpToLoaded_trans {w w1 w2 : UWorld} (h1 : SameUpToLoaded w w1)
    (h2 : SameUpToLoaded w1 w2) : SameUpToLoaded w w2 :=
  ⟨h2.1.trans h1.1, h2.2.1.trans h1.2.1, h2.2.2.1.trans h1.2.2.1,
    h2.2.2.2.1.trans h1.2.2.2.1, h2.2.2.2.2.trans h1.2.2.2.2⟩

theorem sameUpToLoaded_getElem {w w1 : UWorld} (h : SameUpToLoaded w w1) (i : Nat) :
    (w1.Actors[i]?).map ClearLoaded = (w.Actors[i]?).map ClearLoaded := by
  have := congrArg (fun l => l[i]?) h.1
  simpa [List.getElem?_map] using this

theorem sameUpToLoaded_levelName {w w1 : UWorld} (h : SameUpToLoaded w w1) :
    GetLevelName w1 = GetLevelName w := by
  unfold GetLevelName
  rw [h.2.2.2.1, h.2.2.2.2]

theorem map_clearLoaded_set (l : List AActor) (i : Nat) (a : AActor) (h : l[i]? = some a) :
    (l.set i (ClearLoaded a)).map ClearLoaded = l.map ClearLoaded := by
  apply List.ext_getElem?
  intro j
  simp only [List.getElem?_map, List.getElem?_set]
  by_cases hij : i = j
  · subst hij
    have hlt : i < l.length := by
      by_contra hc
      rw [List.getElem?_eq_none (by omega)] at h
      cases h
    simp [hlt, h, clearLoaded_idem]
  · simp [hij]

theorem saveActorToBinary_same (w : UWorld) (i : Nat) :
    SameUpToLoaded w (SaveActorToBinary w i).1 := by
  unfold SaveActorToBinary
  cases h : w.Actors[i]? with
  | none => exact sameUpToLoaded_refl w
  | some a =>
    refine ⟨?_, rfl, rfl, rfl, rfl⟩
    simp only [UWorld.Fire, UWorld.SetActor, saveActorState_fst]
    exact map_clearLoaded_set w.Actors i a h

theorem saveActorToBinary_snd (w : UWorld) (i : Nat) (a : AActor) (h : w.Actors[i]? = some a) :
    (SaveActorToBinary w i).2 = (SaveActorState a).2 := by
  unfold SaveActorToBinary
  simp [h]

theorem isValidForSaving_congr {a b : AActor} (h : ClearLoaded b = ClearLoaded a) :
    IsValidForSaving b = IsValidForSaving a := by
  rw [← isValidForSaving_clearLoaded b, h, isValidForSaving_clearLoaded]

theorem getActorType_congr {a b : AActor} (h : ClearLoaded b = ClearLoaded a) :
    GetActorType b = GetActorType a := by
  rw [← getActorType_clearLoaded b, h, getActorType_clearLoaded]

theorem actorRecord_congr {a b : AActor} (h : ClearLoaded b = ClearLoaded a) :
    ActorRecord b = ActorRecord a := by
  unfold ActorRecord
  rw [← actorRecordHead_clearLoaded b, ← saveActorState_snd_clearLoaded b, h,
    actorRecordHead_clearLoaded, saveActorState_snd_clearLoaded]

theorem savableAt_congr {w w1 : UWorld} (h : SameUpToLoaded w w1) (p : Option Nat) :
    SavableAt w1 p = SavableAt w p := by
  unfold SavableAt
  cases p with
  | none => rfl
  | some i =>
    have hi := sameUpToLoaded_getElem h i
    simp only [deref_some]
    cases h1 : w1.Actors[i]? with
    | none =>
      cases h0 : w.Actors[i]? with
      | none => rfl
      | some a => rw [h1, h0] at hi; cases hi
    | some b =>
      cases h0 : w.Actors[i]? with
      | none => rw [h1, h0] at hi; cases hi
      | some a =>
        rw [h1, h0] at hi
        simp only [Option.map_some', Option.some.injEq] at hi
        exact isValidForSaving_congr hi


theorem saveLevelActorStep_same (w : UWorld) (st : FSaveLevelLoop) (p : Option Nat)
    (h : SameUpToLoaded w st.World) : SameUpToLoaded w (SaveLevelActorStep st p).World := by
  cases p with
  | none => exact h
  | some i =>
    cases hb : st.World.Actors[i]? with
    | none => simp only [SaveLevelActorStep, hb]; exact h
    | some b =>
      simp only [SaveLevelActorStep, hb]
      split_ifs
      · exact sameUpToLoaded_trans h (saveActorToBinary_same st.World i)
      · exact sameUpToLoaded_trans h (saveActorToBinary_same st.World i)
      · exact h
      · exact h

theorem saveLevelActorStep_skip (st : FSaveLevelLoop) (p : Option Nat)
    (h : SavableAt st.World p = false) : SaveLevelActorStep st p = st := by
  cases p with
  | none => rfl
  | some i =>
    cases hb : st.World.Actors[i]? with
    | none => simp only [SaveLevelActorStep, hb]
    | some b =>
      simp only [SavableAt, deref_some, hb] at h
      simp [SaveLevelActorStep, hb, h]

theorem saveLevelActorStep_records (w : UWorld) (st : FSaveLevelLoop) (p : Option Nat)
    (h : SameUpToLoaded w st.World) :
    (SaveLevelActorStep st p).InActors
      = st.InActors ++ (RecordedActors w [p]).map ActorRecord := by
  cases p with
  | none => simp [SaveLevelActorStep, RecordedActors, deref_none]
  | some i =>
    have hi := sameUpToLoaded_getElem h i
    cases hb : st.World.Actors[i]? with
    | none =>
      cases ha : w.Actors[i]? with
      | none => simp [SaveLevelActorStep, RecordedActors, deref_some, hb, ha]
      | some a => rw [hb, ha] at hi; cases hi
    | some b =>
      cases ha : w.Actors[i]? with
      | none => rw [hb, ha] at hi; cases hi
      | some a =>
        rw [hb, ha] at hi
        simp only [Option.map_some', Option.some.injEq] at hi
        have hv := isValidForSaving_congr hi
        have ht := getActorType_congr hi
        have hr := actorRecord_congr hi
        have hs := saveActorToBinary_snd st.World i b hb
        simp only [SaveLevelActorStep, RecordedActors, List.filterMap_cons, List.filterMap_nil,
          deref_some, hb, ha, hv, ht, hs]
        by_cases hva : IsValidForSaving a = true
        · by_cases hty : GetActorType a = EActorType.AT_Runtime
              ∨ GetActorType a = EActorType.AT_Placed
              ∨ GetActorType a = EActorType.AT_Persistent
          · simp only [hva, hty, if_true, and_self, List.map_cons, List.map_nil]
            rw [← hr]
            rfl
          · simp only [hva, hty, if_true, if_false, and_false, List.map_nil,
              List.append_nil]
            split_ifs <;> rfl
        · simp [hva]


theorem saveLoop_same (w : UWorld) (l : List (Option Nat)) (st : FSaveLevelLoop)
    (h : SameUpToLoaded w st.World) :
    SameUpToLoaded w (l.foldl SaveLevelActorStep st).World := by
  induction l generalizing st with
  | nil => exact h
  | cons p rest ih => exact ih _ (saveLevelActorStep_same w st p h)

theorem recordedActors_cons (w : UWorld) (p : Option Nat) (l : List (Option Nat)) :
    RecordedActors w (p :: l) = RecordedActors w [p] ++ RecordedActors w l := by
  unfold RecordedActors
  rw [← List.filterMap_append]
  rfl

theorem saveLoop_records (w : UWorld) (l : List (Option Nat)) (st : FSaveLevelLoop)
    (h : SameUpToLoaded w st.World) :
    (l.foldl SaveLevelActorStep st).InActors
      = st.InActors ++ (RecordedActors w l).map ActorRecord := by
  induction l generalizing st with
  | nil => simp [RecordedActors]
  | cons p rest ih =>
    rw [List.foldl_cons, ih _ (saveLevelActorStep_same w st p h),
      saveLevelActorStep_records w st p h, recordedActors_cons w p rest,
      List.map_append, List.append_assoc]

theorem saveLoop_filter (w : UWorld) (l : List (Option Nat)) (st : FSaveLevelLoop)
    (h : SameUpToLoaded w st.World) :
    l.foldl SaveLevelActorStep st
      = (l.filter (SavableAt w)).foldl SaveLevelActorStep st := by
  induction l generalizing st with
  | nil => rfl
  | cons p rest ih =>
    by_cases hp : SavableAt w p = true
    · rw [List.filter_cons_of_pos hp, List.foldl_cons, List.foldl_cons]
      exact ih _ (saveLevelActorStep_same w st p h)
    · rw [List.filter_cons_of_neg hp, List.foldl_cons]
      have hs : SavableAt st.World p = false := by
        rw [savableAt_congr h p]
        simpa using hp
      rw [saveLevelActorStep_skip st p hs]
      exact ih st h

theorem saveSingleton_same (w : UWorld) (p : Option Nat) :
    SameUpToLoaded w (SaveSingleton w p).1 := by
  cases p with
  | none => exact sameUpToLoaded_refl w
  | some i =>
    cases ha : w.Actors[i]? with
    | none => simp only [SaveSingleton, ha]; exact sameUpToLoaded_refl w
    | some a =>
      simp only [SaveSingleton, ha]
      split_ifs
      · exact saveActorToBinary_same w i
      · exact sameUpToLoaded_refl w

theorem saveSingleton_skip (w : UWorld) (p : Option Nat) (h : SavableAt w p = false) :
    (SaveSingleton w p).2 = {} := by
  cases p with
  | none => rfl
  | some i =>
    cases ha : w.Actors[i]? with
    | none => simp only [SaveSingleton, ha]
    | some a =>
      simp only [SavableAt, deref_some, ha] at h
      simp [SaveSingleton, ha, h]

/-- C7: an actor is valid for saving exactly when it is not pending kill, its
class declares the save interface and it does not carry the skip-save tag;
`SaveLevelActors` behaves as if the actors of `ActorList` that are not valid
for saving were absent from the list (no record, no script record, no event,
no change), and the game mode and game state snapshots of the archive are
empty unless the game mode, respectively the game state, is valid for
saving. -/
theorem C7_only_valid_actors_are_saved (w : UWorld) (m : UEMSObject) :
    (∀ a : AActor, IsValidForSaving a = true ↔
      (a.bPendingKill = false ∧ a.bImplementsSaveInterface = true ∧ SkipSaveTag ∉ a.Tags))
    ∧ SaveLevelActors w m
        = SaveLevelActors w { m with ActorList := m.ActorList.filter (SavableAt w) }
    ∧ (SavableAt w w.AuthGameMode = true ∨ (SaveLevelActors w m).2.SavedGameMode = {})
    ∧ (SavableAt w w.GameState = true ∨ (SaveLevelActors w m).2.SavedGameState = {}) := by
  have hloop := saveLoop_same w m.ActorList { World := w } (sameUpToLoaded_refl w)
  refine ⟨?_, ?_, ?_, ?_⟩
  · intro a
    unfold IsValidForSaving IsValidActor HasSaveInterface ActorHasTag
    simp [and_assoc]
  · unfold SaveLevelActors
    simp only
    rw [← saveLoop_filter w m.ActorList { World := w } (sameUpToLoaded_refl w)]
  · by_cases hg : SavableAt w w.AuthGameMode = true
    · exact Or.inl hg
    · right
      unfold SaveLevelActors
      simp only
      apply saveSingleton_skip
      rw [hloop.2.1, savableAt_congr hloop]
      simpa using hg
  · by_cases hg : SavableAt w w.GameState = true
    · exact Or.inl hg
    · right
      unfold SaveLevelActors
      simp only
      apply saveSingleton_skip
      have h2 := sameUpToLoaded_trans hloop
        (saveSingleton_same (m.ActorList.foldl SaveLevelActorStep { World := w }).World
          (m.ActorList.foldl SaveLevelActorStep { World := w }).World.AuthGameMode)
      rw [h2.2.2.1, savableAt_congr h2]
      simpa using hg

theorem actorRecord_identity (a : AActor) :
    ((ActorRecord a).Class, (ActorRecord a).Type_, (ActorRecord a).Name)
      = (if GetActorType a = EActorType.AT_Runtime ∨ GetActorType a = EActorType.AT_Persistent
          then BytesFromString a.ClassPathName else [],
         (GetActorType a).toUInt8, BytesFromString a.Name) := by
  unfold ActorRecord ActorRecordHead
  simp only
  split_ifs <;> rfl

/-- C10: the actor records of the archive `SaveLevelActors` builds are, in
order, those of the actors of `ActorList` that are valid for saving and
classified runtime, placed or persistent; each record's `Class` is the
encoded class path when the actor is classified runtime or persistent and is
empty otherwise (the actor is then classified placed), its `Type` is the
actor's classification and its `Name` the encoded actor name. -/
theorem C10_record_class_type_name (w : UWorld) (m : UEMSObject) :
    (SaveLevelActors w m).2.SavedActors.map (fun r => (r.Class, r.Type_, r.Name))
      = (RecordedActors w m.ActorList).map (fun a =>
          (if GetActorType a = EActorType.AT_Runtime ∨ GetActorType a = EActorType.AT_Persistent
            then BytesFromString a.ClassPathName else [],
           (GetActorType a).toUInt8, BytesFromString a.Name)) := by
  have h := saveLoop_records w m.ActorList { World := w } (sameUpToLoaded_refl w)
  unfold SaveLevelActors
  simp only [h, List.nil_append, List.map_map]
  apply List.map_congr_left
  intro a _
  exact actorRecord_identity a


/-! ### The load side -/

theorem updateLevelActor_eq (w : UWorld) (r : FActorSaveData) (l : List (Option Nat)) :
    UpdateLevelActor w r l =
      match FindLevelActor w r.Name l with
      | none => (w, EUpdateActorResult.RES_ShouldSpawnNewActor)
      | some i =>
        match w.Actors[i]? with
        | some Actor =>
          if ActorHasTag Actor HasLoadedTag then (w, EUpdateActorResult.RES_Skip)
          else (ProcessLevelActor w i r, EUpdateActorResult.RES_Success)
        | none => (w, EUpdateActorResult.RES_ShouldSpawnNewActor) := by
  induction l with
  | nil => rfl
  | cons p rest ih =>
    cases p with
    | none => simpa [UpdateLevelActor, FindLevelActor, deref_none] using ih
    | some i =>
      cases ha : w.Actors[i]? with
      | none => simpa [UpdateLevelActor, FindLevelActor, deref_some, ha] using ih
      | some a =>
        by_cases hv : IsValidActor a = true
        · by_cases hn : r.Name = BytesFromString a.Name
          · simp [UpdateLevelActor, FindLevelActor, deref_some, ha, hv, hn]
          · simpa [UpdateLevelActor, FindLevelActor, deref_some, ha, hv, hn] using ih
        · simpa [UpdateLevelActor, FindLevelActor, deref_some, ha, hv] using ih

theorem findLevelActor_none (w : UWorld) (Name : Bytes) (l : List (Option Nat))
    (h : ∀ p ∈ l, ∀ a, w.Deref p = some a → IsValidActor a = true →
      Name ≠ BytesFromString a.Name) :
    FindLevelActor w Name l = none := by
  induction l with
  | nil => rfl
  | cons p rest ih =>
    have ih1 := ih (fun q hq => h q (List.mem_cons_of_mem p hq))
    cases p with
    | none => simpa [FindLevelActor, deref_none] using ih1
    | some i =>
      cases ha : w.Actors[i]? with
      | none => simpa [FindLevelActor, deref_some, ha] using ih1
      | some a =>
        have hh := h (some i) (List.mem_cons_self _ _) a (by rw [deref_some, ha])
        by_cases hv : IsValidActor a = true
        · have hn := hh hv
          simpa [FindLevelActor, deref_some, ha, hv, hn] using ih1
        · simpa [FindLevelActor, deref_some, ha, hv] using ih1

theorem findLevelActor_first (w : UWorld) (Name : Bytes) (pre post : List (Option Nat))
    (i : Nat) (a : AActor)
    (hpre : ∀ p ∈ pre, ∀ b, w.Deref p = some b → IsValidActor b = true →
      Name ≠ BytesFromString b.Name)
    (ha : w.Actors[i]? = some a) (hv : IsValidActor a = true)
    (hn : Name = BytesFromString a.Name) :
    FindLevelActor w Name (pre ++ some i :: post) = some i := by
  induction pre with
  | nil => simp [FindLevelActor, deref_some, ha, hv, hn]
  | cons p rest ih =>
    have ih1 := ih (fun q hq => hpre q (List.mem_cons_of_mem p hq))
    cases p with
    | none => simpa [FindLevelActor, deref_none] using ih1
    | some j =>
      cases hb : w.Actors[j]? with
      | none => simpa [FindLevelActor, deref_some, hb] using ih1
      | some b =>
        have hh := hpre (some j) (List.mem_cons_self _ _) b (by rw [deref_some, hb])
        by_cases hvb : IsValidActor b = true
        · have hnb := hh hvb
          simpa [FindLevelActor, deref_some, hb, hvb, hnb] using ih1
        · simpa [FindLevelActor, deref_some, hb, hvb] using ih1

theorem processLevelActor_eq (w : UWorld) (i : Nat) (r : FActorSaveData) (a : AActor)
    (ha : w.Actors[i]? = some a) (hty : r.Type_ = (GetActorType a).toUInt8) :
    ProcessLevelActor w i r
      = (w.SetActor i (ProcessedActor a r)).Fire EHook.ActorLoaded i := by
  have hlt : i < w.Actors.length := by
    by_contra hc
    rw [List.getElem?_eq_none (by omega)] at ha
    cases ha
  unfold ProcessLevelActor ProcessedActor
  simp only [ha, hty, if_true]
  by_cases hm : (IsMovable (a.RootComponent.map (fun r => r.Mobility))
      && r.Transform.IsValid) = true
  · simp only [hm, if_true]
    unfold LoadActorFromBinary
    simp [UWorld.SetActor, UWorld.Fire, List.getElem?_set, hlt]
  · simp only [hm]
    unfold LoadActorFromBinary
    simp [ha]


theorem getActorType_of_same_traits (a b : AActor) (hk : b.Kind = a.Kind)
    (hp : b.bPlayerControlled = a.bPlayerControlled)
    (ht : ActorHasTag b PersistentTag = ActorHasTag a PersistentTag)
    (hn : b.bNetStartup = a.bNetStartup) : GetActorType b = GetActorType a := by
  unfold GetActorType
  rw [hk, hp, ht, hn]

theorem hasTag_tagsAdd (a : AActor) (t u : FName) (h : t ≠ u) :
    ActorHasTag { a with Tags := TagsAdd a.Tags u } t = ActorHasTag a t := by
  unfold ActorHasTag TagsAdd
  simp [h]

theorem setActorTransform_traits (a : AActor) (T : FTransform) :
    (SetActorTransform a T).Kind = a.Kind
    ∧ (SetActorTransform a T).bPlayerControlled = a.bPlayerControlled
    ∧ (SetActorTransform a T).Tags = a.Tags
    ∧ (SetActorTransform a T).bNetStartup = a.bNetStartup
    ∧ (SetActorTransform a T).ComponentsToSave = a.ComponentsToSave
    ∧ (SetActorTransform a T).Name = a.Name := by
  unfold SetActorTransform
  cases a.RootComponent <;> simp

theorem loadActorState_facts (a : AActor) (d : FGameObjectSaveData) :
    (LoadActorState a d).Tags = a.Tags ++ [HasLoadedTag]
    ∧ (LoadActorState a d).Fields = d.Data
    ∧ (LoadActorState a d).Name = a.Name
    ∧ (LoadActorState a d).RootComponent = a.RootComponent
    ∧ (LoadActorState a d).ComponentsToSave =
        if GetActorType a ≠ EActorType.AT_LevelScript then
          (LoadActorComponents a d.Components).ComponentsToSave
        else a.ComponentsToSave := by
  have hty : GetActorType
      { a with Tags := TagsAdd a.Tags HasLoadedTag, Fields := SerializeFromBinary d.Data }
        = GetActorType a :=
    getActorType_of_same_traits a _ rfl rfl
      (hasTag_tagsAdd a PersistentTag HasLoadedTag (by decide)) rfl
  unfold LoadActorState
  simp only [hty]
  by_cases h : GetActorType a = EActorType.AT_LevelScript
  · simp [h, TagsAdd, SerializeFromBinary]
  · simp [h, TagsAdd, SerializeFromBinary, LoadActorComponents]

theorem processedActor_facts (a : AActor) (r : FActorSaveData) :
    (ProcessedActor a r).Tags = a.Tags ++ [HasLoadedTag]
    ∧ (ProcessedActor a r).Fields = r.SaveData.Data
    ∧ (ProcessedActor a r).Name = a.Name
    ∧ (ProcessedActor a r).ComponentsToSave =
        if GetActorType a ≠ EActorType.AT_LevelScript then
          (LoadActorComponents a r.SaveData.Components).ComponentsToSave
        else a.ComponentsToSave := by
  unfold ProcessedActor
  by_cases hm : (IsMovable (a.RootComponent.map (fun r => r.Mobility))
      && r.Transform.IsValid) = true
  · simp only [hm, if_true]
    have ht := setActorTransform_traits a r.Transform
    have hf := loadActorState_facts (SetActorTransform a r.Transform) r.SaveData
    have hty : GetActorType (SetActorTransform a r.Transform) = GetActorType a :=
      getActorType_of_same_traits a _ ht.1 ht.2.1
        (by unfold ActorHasTag; rw [ht.2.2.1]) ht.2.2.2.1
    refine ⟨by rw [hf.1, ht.2.2.1], hf.2.1, by rw [hf.2.2.1, ht.2.2.2.2.2], ?_⟩
    rw [hf.2.2.2.2, hty]
    unfold LoadActorComponents
    simp only [ht.2.2.2.2.1]
  · simp only [hm]
    have hf := loadActorState_facts a r.SaveData
    exact ⟨hf.1, hf.2.1, hf.2.2.1, hf.2.2.2.2⟩

theorem spawnOrUpdate_of_found (S : UEMSPluginSettings) (w : UWorld)
    (ActorList : List (Option Nat)) (r : FActorSaveData) (i : Nat) (a : AActor)
    (hT : r.Type_ = EActorType.AT_Placed.toUInt8 ∨ r.Type_ = EActorType.AT_Runtime.toUInt8
      ∨ r.Type_ = EActorType.AT_Persistent.toUInt8)
    (hfind : FindLevelActor w r.Name ActorList = some i)
    (ha : w.Actors[i]? = some a) :
    SpawnOrUpdateLevelActor S w ActorList r =
      if ActorHasTag a HasLoadedTag then (w, false)
      else (ProcessLevelActor w i r, true) := by
  unfold SpawnOrUpdateLevelActor
  simp only [hT, not_true_eq_false, if_false, updateLevelActor_eq, hfind, ha]
  by_cases hl : ActorHasTag a HasLoadedTag = true
  · simp [hl]
  · simp [hl]


/-- C3, as stated, fails: a record of type runtime meets a valid actor of its
name without the loaded marker that is classified placed; the call reports
success and leaves the actor as it was, without marker and with its own
field values. -/
theorem C3_type_mismatch_applies_nothing :
    IsValidActor PlacedCrate = true
    ∧ RuntimeCrateRecord.Name = BytesFromString PlacedCrate.Name
    ∧ ActorHasTag PlacedCrate HasLoadedTag = false
    ∧ RuntimeCrateRecord.Type_ = EActorType.AT_Runtime.toUInt8
    ∧ PlacedCrate.Fields ≠ RuntimeCrateRecord.SaveData.Data
    ∧ SpawnOrUpdateLevelActor {} { Actors := [PlacedCrate] } [some 0] RuntimeCrateRecord
        = ({ Actors := [PlacedCrate] }, true) := by
  decide

/-- C5, as stated, fails: the record's name matches a valid actor of
`ActorList` that carries the loaded marker, but an actor of the same name
without the marker stands earlier in the list; the call returns true and
loads the record into that earlier actor. -/
theorem C5_earlier_namesake_is_loaded :
    IsValidActor LoadedCrate = true
    ∧ RuntimeCrateRecord.Name = BytesFromString LoadedCrate.Name
    ∧ ActorHasTag LoadedCrate HasLoadedTag = true
    ∧ (SpawnOrUpdateLevelActor {} { Actors := [RuntimeCrate, LoadedCrate] } [some 0, some 1]
        RuntimeCrateRecord).2 = true
    ∧ ((SpawnOrUpdateLevelActor {} { Actors := [RuntimeCrate, LoadedCrate] } [some 0, some 1]
        RuntimeCrateRecord).1.Actors.map (fun a => a.Fields)) = [[7], [1]] := by
  decide

/-- C5, amended: when the first valid actor of `ActorList` that has the
record's name carries the loaded marker, `SpawnOrUpdateLevelActor` returns
false and leaves the whole world as it is: nothing is spawned, no actor's
fields, transform or tags change and no event fires. -/
theorem C5_loaded_actor_is_skipped (S : UEMSPluginSettings) (w : UWorld)
    (pre post : List (Option Nat)) (r : FActorSaveData) (i : Nat) (a : AActor)
    (hpre : ∀ p ∈ pre, ∀ b, w.Deref p = some b → IsValidActor b = true →
      r.Name ≠ BytesFromString b.Name)
    (ha : w.Actors[i]? = some a)
    (hv : IsValidActor a = true)
    (hn : r.Name = BytesFromString a.Name)
    (hl : ActorHasTag a HasLoadedTag = true) :
    SpawnOrUpdateLevelActor S w (pre ++ some i :: post) r = (w, false) := by
  have hfind := findLevelActor_first w r.Name pre post i a hpre ha hv hn
  by_cases hT : r.Type_ = EActorType.AT_Placed.toUInt8
      ∨ r.Type_ = EActorType.AT_Runtime.toUInt8
      ∨ r.Type_ = EActorType.AT_Persistent.toUInt8
  · rw [spawnOrUpdate_of_found S w (pre ++ some i :: post) r i a hT hfind ha]
    simp [hl]
  · unfold SpawnOrUpdateLevelActor
    simp only [hT, not_false_eq_true, if_true]

/-- C5 at a sample scene: a crate that carries the loaded marker and the
record of its name. -/
theorem C5_loaded_actor_is_skipped_witness :
    SpawnOrUpdateLevelActor {} { Actors := [LoadedCrate] } ([] ++ some 0 :: [])
        RuntimeCrateRecord
      = ({ Actors := [LoadedCrate] }, false) :=
  C5_loaded_actor_is_skipped {} { Actors := [LoadedCrate] } [] [] RuntimeCrateRecord 0
    LoadedCrate (by intro p hp; cases hp) (by decide) (by decide) (by decide) (by decide)

theorem spawnOrUpdate_of_not_found (S : UEMSPluginSettings) (w : UWorld)
    (ActorList : List (Option Nat)) (r : FActorSaveData)
    (hT : r.Type_ = EActorType.AT_Runtime.toUInt8 ∨ r.Type_ = EActorType.AT_Persistent.toUInt8)
    (hfind : FindLevelActor w r.Name ActorList = none) :
    SpawnOrUpdateLevelActor S w ActorList r = (SpawnLevelActor S w r, true) := by
  have hT3 : r.Type_ = EActorType.AT_Placed.toUInt8 ∨ r.Type_ = EActorType.AT_Runtime.toUInt8
      ∨ r.Type_ = EActorType.AT_Persistent.toUInt8 := Or.inr hT
  unfold SpawnOrUpdateLevelActor
  simp [hT3, updateLevelActor_eq, hfind]

theorem checkForExisting_of_free (S : UEMSPluginSettings) (w : UWorld) (r : FActorSaveData)
    (hfree : FindActorInPersistentLevel (StringFromBytes r.Name) w.Actors 0 = none) :
    CheckForExistingActor S w r = (w, false) := by
  unfold CheckForExistingActor
  cases S.bAdvancedSpawnCheck <;> simp [hfree]

theorem spawnLevelActor_unresolved (S : UEMSPluginSettings) (w : UWorld) (r : FActorSaveData)
    (h : FindClass w (StringFromBytes r.Class) = none
      ∨ ∃ cls, FindClass w (StringFromBytes r.Class) = some cls
          ∧ cls.bImplementsSaveInterface = false) :
    SpawnLevelActor S w r = w := by
  unfold SpawnLevelActor
  rcases h with h | ⟨cls, h, hi⟩
  · simp [h]
  · simp [h, hi]

theorem spawnLevelActor_fresh (S : UEMSPluginSettings) (w : UWorld) (r : FActorSaveData)
    (cls : UClass) (t : AActor)
    (hc : FindClass w (StringFromBytes r.Class) = some cls)
    (hi : cls.bImplementsSaveInterface = true)
    (ht : cls.Template = some t)
    (hfree : FindActorInPersistentLevel (StringFromBytes r.Name) w.Actors 0 = none) :
    SpawnLevelActor S w r =
      ProcessLevelActor
        { w with Actors := w.Actors ++
            [FreshActor w cls t r.Transform (StringFromBytes r.Name)] }
        w.Actors.length r := by
  unfold SpawnLevelActor
  simp [hc, hi, checkForExisting_of_free S w r hfree, SpawnActor, ht, hfree]

theorem freshActor_facts (w : UWorld) (cls : UClass) (t : AActor) (T : FTransform)
    (Name : FName) (hne : Name ≠ "") :
    (FreshActor w cls t T Name).Name = Name
    ∧ GetActorTransform (FreshActor w cls t T Name)
        = (if t.RootComponent.isSome then T else FTransform.Identity)
    ∧ (FreshActor w cls t T Name).bNetStartup = false := by
  unfold FreshActor GetActorTransform
  cases t.RootComponent <;> simp [hne]

theorem processedActor_transform (a : AActor) (r : FActorSaveData)
    (h : GetActorTransform a = (if a.RootComponent.isSome then r.Transform
      else FTransform.Identity)) :
    GetActorTransform (ProcessedActor a r) = GetActorTransform a := by
  have key : ∀ x : AActor, GetActorTransform (LoadActorState x r.SaveData)
      = GetActorTransform x := by
    intro x
    unfold GetActorTransform
    rw [(loadActorState_facts x r.SaveData).2.2.2.1]
  unfold ProcessedActor
  by_cases hm : (IsMovable (a.RootComponent.map (fun r => r.Mobility))
      && r.Transform.IsValid) = true
  · simp only [hm, if_true, key]
    rw [h]
    unfold SetActorTransform GetActorTransform
    cases hr : a.RootComponent with
    | none => simp [hr, IsMovable] at hm
    | some c => simp
  · simp only [hm]
    exact key a


theorem set_length_append (l : List AActor) (x y : AActor) :
    (l ++ [x]).set l.length y = l ++ [y] := by
  induction l with
  | nil => rfl
  | cons a rest ih => simp [List.set, ih]

/-- C4, as stated, fails: a record of type persistent whose class resolves and
declares the save interface, with no actor of its name alive, is spawned, but
the fresh actor carries no persistent tag and is classified runtime, so the
snapshot is not applied: the new actor has no loaded marker and keeps its
constructed field values. -/
theorem C4_spawned_actor_of_other_type_is_not_loaded :
    PersistentCrateRecord.Type_ = EActorType.AT_Persistent.toUInt8
    ∧ (FindClass EmptyCrateWorld (StringFromBytes PersistentCrateRecord.Class)).map
        (fun c => c.bImplementsSaveInterface) = some true
    ∧ PersistentCrateRecord.SaveData.Data = [7]
    ∧ (SpawnOrUpdateLevelActor {} EmptyCrateWorld [] PersistentCrateRecord).1.Actors.map
        (fun a => (a.Name, ActorHasTag a HasLoadedTag, a.Fields)) = [("Crate_1", false, [])] := by
  decide

/-- C4, amended: for a record of type runtime or persistent whose name no valid
actor of `ActorList` has: if the class path resolves to a class that declares
the save interface and can be instantiated, and the name is not empty and not
taken in the persistent level, `SpawnOrUpdateLevelActor` appends exactly one
new actor, of the saved name and at the saved transform, and applies the
snapshot to it when the new actor is classified as the record's type says
(loaded marker set, fields from the record); otherwise the new actor stays as
constructed. If the class path is empty, does not resolve, or the class lacks
the save interface, the world is unchanged. -/
theorem C4_spawn_when_missing (S : UEMSPluginSettings) (w : UWorld)
    (ActorList : List (Option Nat)) (r : FActorSaveData)
    (hT : r.Type_ = EActorType.AT_Runtime.toUInt8 ∨ r.Type_ = EActorType.AT_Persistent.toUInt8)
    (hnone : ∀ p ∈ ActorList, ∀ a, w.Deref p = some a → IsValidActor a = true →
      r.Name ≠ BytesFromString a.Name) :
    (∀ cls t, FindClass w (StringFromBytes r.Class) = some cls →
        cls.bImplementsSaveInterface = true → cls.Template = some t →
        FindActorInPersistentLevel (StringFromBytes r.Name) w.Actors 0 = none →
        StringFromBytes r.Name ≠ "" →
        ∃ b, (SpawnOrUpdateLevelActor S w ActorList r).1.Actors = w.Actors ++ [b]
          ∧ b.Name = StringFromBytes r.Name
          ∧ GetActorTransform b
              = (if t.RootComponent.isSome then r.Transform else FTransform.Identity)
          ∧ b = (if r.Type_
                  = (GetActorType (FreshActor w cls t r.Transform
                      (StringFromBytes r.Name))).toUInt8
                then ProcessedActor (FreshActor w cls t r.Transform (StringFromBytes r.Name)) r
                else FreshActor w cls t r.Transform (StringFromBytes r.Name))
          ∧ (r.Type_ = (GetActorType (FreshActor w cls t r.Transform
                (StringFromBytes r.Name))).toUInt8 →
              HasLoadedTag ∈ b.Tags ∧ b.Fields = r.SaveData.Data))
    ∧ ((FindClass w (StringFromBytes r.Class) = none
          ∨ ∃ cls, FindClass w (StringFromBytes r.Class) = some cls
              ∧ cls.bImplementsSaveInterface = false) →
        (SpawnOrUpdateLevelActor S w ActorList r).1 = w)
    ∧ (r.Class = [] → (SpawnOrUpdateLevelActor S w ActorList r).1 = w) := by
  have hres := spawnOrUpdate_of_not_found S w ActorList r hT
    (findLevelActor_none w r.Name ActorList hnone)
  refine ⟨?_, ?_, ?_⟩
  · intro cls t hc hi ht hfree hne
    have hfr := freshActor_facts w cls t r.Transform (StringFromBytes r.Name) hne
    have hroot : (FreshActor w cls t r.Transform (StringFromBytes r.Name)).RootComponent.isSome
        = t.RootComponent.isSome := by
      unfold FreshActor
      cases t.RootComponent <;> rfl
    have hget : (({ w with Actors := w.Actors ++
        [FreshActor w cls t r.Transform (StringFromBytes r.Name)] } : UWorld).Actors)[
          w.Actors.length]? = some (FreshActor w cls t r.Transform (StringFromBytes r.Name)) := by
      simp
    rw [hres, spawnLevelActor_fresh S w r cls t hc hi ht hfree]
    by_cases hty : r.Type_
        = (GetActorType (FreshActor w cls t r.Transform (StringFromBytes r.Name))).toUInt8
    · refine ⟨ProcessedActor (FreshActor w cls t r.Transform (StringFromBytes r.Name)) r,
        ?_, ?_, ?_, ?_, ?_⟩
      · rw [processLevelActor_eq _ _ r _ hget hty]
        simp only [UWorld.Fire, UWorld.SetActor]
        exact set_length_append _ _ _
      · rw [(processedActor_facts _ r).2.2.1, hfr.1]
      · rw [processedActor_transform _ r (by rw [hfr.2.1, hroot]), hfr.2.1]
      · rw [if_pos hty]
      · intro _
        have hf := processedActor_facts
          (FreshActor w cls t r.Transform (StringFromBytes r.Name)) r
        exact ⟨by rw [hf.1]; simp, hf.2.1⟩
    · refine ⟨FreshActor w cls t r.Transform (StringFromBytes r.Name), ?_, hfr.1, hfr.2.1,
        by rw [if_neg hty], fun h => absurd h hty⟩
      unfold ProcessLevelActor
      simp only [hget, hty, if_false]
  · intro h
    rw [hres, spawnLevelActor_unresolved S w r h]
  · intro h
    rw [hres]
    apply spawnLevelActor_unresolved
    left
    rw [h]
    rfl

/-- C4 at a sample scene: no actor alive, the runtime record of a crate and
the crate class. -/
theorem C4_spawn_when_missing_witness :
    ∃ b, (SpawnOrUpdateLevelActor {} EmptyCrateWorld [] RuntimeCrateRecord).1.Actors
          = EmptyCrateWorld.Actors ++ [b]
      ∧ b.Name = StringFromBytes RuntimeCrateRecord.Name
      ∧ HasLoadedTag ∈ b.Tags ∧ b.Fields = RuntimeCrateRecord.SaveData.Data := by
  obtain ⟨b, h1, h2, _, _, h5⟩ :=
    (C4_spawn_when_missing {} EmptyCrateWorld [] RuntimeCrateRecord (by decide)
      (by intro p hp; cases hp)).1 CrateClass CrateTemplate (by decide) (by decide) (by decide)
      (by decide) (by decide)
  exact ⟨b, h1, h2, (h5 (by decide)).1, (h5 (by decide)).2⟩

theorem unpack_keeps_game_mode_on_other_level (S : UEMSPluginSettings) (w : UWorld)
    (m : UEMSObject) (LevelArchive : FLevelArchive)
    (hl : LevelArchive.Level ≠ GetLevelName w) (hp : S.bPersistentGameMode = false) :
    (UnpackBinaryArchive S w m LevelArchive).1.SavedGameMode = m.SavedGameMode
    ∧ (UnpackBinaryArchive S w m LevelArchive).1.SavedGameState = m.SavedGameState := by
  unfold UnpackBinaryArchive
  simp [hl, hp]

theorem unpack_assigns_game_mode (S : UEMSPluginSettings) (w : UWorld)
    (m : UEMSObject) (LevelArchive : FLevelArchive)
    (h : LevelArchive.Level = GetLevelName w ∨ S.bPersistentGameMode = true) :
    (UnpackBinaryArchive S w m LevelArchive).1.SavedGameMode = LevelArchive.SavedGameMode
    ∧ (UnpackBinaryArchive S w m LevelArchive).1.SavedGameState
        = LevelArchive.SavedGameState := by
  unfold UnpackBinaryArchive
  simp [h]

/-- C9 on the code: a placed, movable door away from the origin that carries
the skip-transform tag is saved with the identity transform, and loading that
record into the door moves it onto the identity transform. -/
theorem C9_skip_transform_actor_moves_on_load :
    ActorHasTag SkipTransformDoor SkipTransformTag = true
    ∧ GetActorTransform SkipTransformDoor ≠ FTransform.Identity
    ∧ (SaveLevelActors DoorWorld DoorManager).2.SavedActors.map (fun r => r.Transform)
        = [FTransform.Identity]
    ∧ (SaveLevelActors DoorWorld DoorManager).2.SavedActors.map (fun r =>
        (SpawnOrUpdateLevelActor {} (SaveLevelActors DoorWorld DoorManager).1
          DoorManager.ActorList r).1.Actors.map GetActorTransform)
        = [[FTransform.Identity]] := by
  decide

/-- C1 on the code: the manager has loaded the level A archive in level A; in
level B, with the persistent game mode setting off, unpacking the same archive
succeeds on its persistent actor and leaves the snapshots of level A in
`SavedGameMode` and `SavedGameState`, and `LoadLevelActors` writes them into
the game mode and game state of level B. -/
theorem C1_stale_game_mode_is_applied :
    LevelAArchive.Level ≠ GetLevelName LevelBWorld
    ∧ ({} : UEMSPluginSettings).bPersistentGameMode = false
    ∧ (UnpackBinaryArchive {} LevelBWorld ManagerAfterLevelALoad LevelAArchive).2 = true
    ∧ (UnpackBinaryArchive {} LevelBWorld ManagerAfterLevelALoad LevelAArchive).1.SavedGameMode
        = LevelAArchive.SavedGameMode
    ∧ (UnpackBinaryArchive {} LevelBWorld ManagerAfterLevelALoad LevelAArchive).1.SavedGameState
        = LevelAArchive.SavedGameState
    ∧ (LoadLevelActors {} LevelBWorld
        (UnpackBinaryArchive {} LevelBWorld ManagerAfterLevelALoad LevelAArchive).1 {}).map
          (fun res => res.1.Actors.map (fun a => (a.Name, a.Fields, ActorHasTag a HasLoadedTag)))
        = some [("GameMode_B", [42], true), ("GameState_B", [43], true)] := by
  decide

/-! ### The record's transform -/

theorem actorRecord_transform (a : AActor) :
    (ActorRecord a).Transform
      = (if GetActorType a = EActorType.AT_Persistent ∨ ActorHasTag a SkipTransformTag = true
          then FTransform.Identity else GetActorTransform a) := by
  unfold ActorRecord ActorRecordHead
  simp only
  split_ifs <;> rfl

/-- C11: the transforms of the actor records of the archive `SaveLevelActors`
builds are, in order, those of the recorded actors: the identity transform
for an actor that is classified persistent or carries the skip-transform tag,
and the actor's current transform otherwise. -/
theorem C11_record_transform (w : UWorld) (m : UEMSObject) :
    (SaveLevelActors w m).2.SavedActors.map (fun r => r.Transform)
      = (RecordedActors w m.ActorList).map (fun a =>
          if GetActorType a = EActorType.AT_Persistent ∨ ActorHasTag a SkipTransformTag = true
            then FTransform.Identity else GetActorTransform a) := by
  have h := saveLoop_records w m.ActorList { World := w } (sameUpToLoaded_refl w)
  unfold SaveLevelActors
  simp only [h, List.nil_append, List.map_map]
  apply List.map_congr_left
  intro a _
  exact actorRecord_transform a

/-! ### The property tags -/

theorem mem_setPropertyTag (Tags : List FName) (t u : FName) (b : Bool) :
    u ∈ SetPropertyTag Tags t b ↔ (if u = t then b = true else u ∈ Tags) := by
  unfold SetPropertyTag TagsAddUnique TagsRemove
  by_cases hu : u = t
  · subst hu
    cases b <;> by_cases hm : u ∈ Tags <;> simp [hm]
  · cases b <;> by_cases hm : t ∈ Tags <;> simp [hm, hu]

theorem count_setPropertyTag_self (Tags : List FName) (t : FName) (b : Bool) :
    (SetPropertyTag Tags t b).count t ≤ max 1 (Tags.count t) := by
  unfold SetPropertyTag TagsAddUnique TagsRemove
  cases b
  · have h0 : (Tags.filter (fun x => decide (x ≠ t))).count t = 0 :=
      List.count_eq_zero_of_not_mem (by simp [List.mem_filter])
    simp only [Bool.false_eq_true, if_false, h0]
    omega
  · by_cases hm : t ∈ Tags
    · simp [hm]
    · simp [hm, List.count_eq_zero_of_not_mem hm]

theorem count_setPropertyTag_other (Tags : List FName) (t u : FName) (b : Bool) (h : u ≠ t) :
    (SetPropertyTag Tags t b).count u = Tags.count u := by
  unfold SetPropertyTag TagsAddUnique TagsRemove
  cases b
  · simp [List.count_filter, h]
  · by_cases hm : t ∈ Tags
    · simp [hm]
    · simp [hm, List.count_append, List.count_singleton, h]

theorem filter_setPropertyTag (Tags : List FName) (t : FName) (b : Bool) (p : FName → Bool)
    (hp : p t = false) : (SetPropertyTag Tags t b).filter p = Tags.filter p := by
  unfold SetPropertyTag TagsAddUnique TagsRemove
  cases b
  · simp only [Bool.false_eq_true, if_false, List.filter_filter]
    apply List.filter_congr
    intro x _
    by_cases hx : x = t
    · subst hx; simp [hp]
    · simp [hx]
  · by_cases hm : t ∈ Tags
    · simp [hm]
    · simp [hm, List.filter_append, hp]

theorem setPropertyTag_fixed (Tags : List FName) (t : FName) (b : Bool)
    (h : t ∈ Tags ↔ b = true) : SetPropertyTag Tags t b = Tags := by
  unfold SetPropertyTag TagsAddUnique TagsRemove
  cases b
  · have hn : t ∉ Tags := by simpa using h
    simp only [Bool.false_eq_true, if_false]
    rw [List.filter_eq_self]
    intro x hx
    have : x ≠ t := fun he => hn (he ▸ hx)
    simpa using this
  · have hm : t ∈ Tags := by simpa using h
    simp [hm]

theorem setActorSaveProperties_tags (a : AActor) (b1 b2 b3 : Bool) :
    (SetActorSaveProperties a b1 b2 b3).Tags
      = SetPropertyTag (SetPropertyTag (SetPropertyTag a.Tags SkipSaveTag b1) PersistentTag b2)
          SkipTransformTag b3 := by
  unfold SetActorSaveProperties SetPropertyTag
  rfl

theorem setActorSaveProperties_mem (a : AActor) (b1 b2 b3 : Bool) :
    (SkipSaveTag ∈ (SetActorSaveProperties a b1 b2 b3).Tags ↔ b1 = true)
    ∧ (PersistentTag ∈ (SetActorSaveProperties a b1 b2 b3).Tags ↔ b2 = true)
    ∧ (SkipTransformTag ∈ (SetActorSaveProperties a b1 b2 b3).Tags ↔ b3 = true) := by
  have h12 : SkipSaveTag ≠ PersistentTag := by decide
  have h13 : SkipSaveTag ≠ SkipTransformTag := by decide
  have h23 : PersistentTag ≠ SkipTransformTag := by decide
  rw [setActorSaveProperties_tags]
  refine ⟨?_, ?_, ?_⟩
  · rw [mem_setPropertyTag, if_neg h13, mem_setPropertyTag, if_neg h12, mem_setPropertyTag,
      if_pos rfl]
  · rw [mem_setPropertyTag, if_neg h23, mem_setPropertyTag, if_pos rfl]
  · rw [mem_setPropertyTag, if_pos rfl]

/-- C17: after `SetActorSaveProperties` the tag list holds each of the three
property tags exactly when its flag is set, no more often than once or than
before, the other tags are kept as they were and in their order, no other
field of the actor changes, and a second call with the same flags changes
nothing. -/
theorem C17_SetActorSaveProperties (a : AActor) (b1 b2 b3 : Bool) :
    (SkipSaveTag ∈ (SetActorSaveProperties a b1 b2 b3).Tags ↔ b1 = true)
    ∧ (PersistentTag ∈ (SetActorSaveProperties a b1 b2 b3).Tags ↔ b2 = true)
    ∧ (SkipTransformTag ∈ (SetActorSaveProperties a b1 b2 b3).Tags ↔ b3 = true)
    ∧ (SetActorSaveProperties a b1 b2 b3).Tags.count SkipSaveTag
        ≤ max 1 (a.Tags.count SkipSaveTag)
    ∧ (SetActorSaveProperties a b1 b2 b3).Tags.count PersistentTag
        ≤ max 1 (a.Tags.count PersistentTag)
    ∧ (SetActorSaveProperties a b1 b2 b3).Tags.count SkipTransformTag
        ≤ max 1 (a.Tags.count SkipTransformTag)
    ∧ (SetActorSaveProperties a b1 b2 b3).Tags.filter IsOtherTag = a.Tags.filter IsOtherTag
    ∧ { SetActorSaveProperties a b1 b2 b3 with Tags := a.Tags } = a
    ∧ SetActorSaveProperties (SetActorSaveProperties a b1 b2 b3) b1 b2 b3
        = SetActorSaveProperties a b1 b2 b3 := by
  have h12 : SkipSaveTag ≠ PersistentTag := by decide
  have h13 : SkipSaveTag ≠ SkipTransformTag := by decide
  have h23 : PersistentTag ≠ SkipTransformTag := by decide
  have hm := setActorSaveProperties_mem a b1 b2 b3
  refine ⟨hm.1, hm.2.1, hm.2.2, ?_, ?_, ?_, ?_, rfl, ?_⟩
  · rw [setActorSaveProperties_tags, count_setPropertyTag_other _ _ _ _ h13,
      count_setPropertyTag_other _ _ _ _ h12]
    exact count_setPropertyTag_self _ _ _
  · rw [setActorSaveProperties_tags, count_setPropertyTag_other _ _ _ _ h23]
    refine le_trans (count_setPropertyTag_self _ _ _) ?_
    rw [count_setPropertyTag_other _ _ _ _ (Ne.symm h12)]
  · rw [setActorSaveProperties_tags]
    refine le_trans (count_setPropertyTag_self _ _ _) ?_
    rw [count_setPropertyTag_other _ _ _ _ (Ne.symm h23),
      count_setPropertyTag_other _ _ _ _ (Ne.symm h13)]
  · rw [setActorSaveProperties_tags, filter_setPropertyTag _ _ _ _ (by decide),
      filter_setPropertyTag _ _ _ _ (by decide), filter_setPropertyTag _ _ _ _ (by decide)]
  · have ht : (SetActorSaveProperties (SetActorSaveProperties a b1 b2 b3) b1 b2 b3).Tags
        = (SetActorSaveProperties a b1 b2 b3).Tags := by
      rw [setActorSaveProperties_tags (SetActorSaveProperties a b1 b2 b3),
        setPropertyTag_fixed _ _ _ hm.1, setPropertyTag_fixed _ _ _ hm.2.1,
        setPropertyTag_fixed _ _ _ hm.2.2]
    have hs : ∀ x : AActor, SetActorSaveProperties x b1 b2 b3
        = { x with Tags := (SetActorSaveProperties x b1 b2 b3).Tags } := fun _ => rfl
    rw [hs (SetActorSaveProperties a b1 b2 b3), ht]

/-! ### Starting tasks -/

theorem isAsyncActive_of_save_task (w : UWorld) (LoadTasks : List UEMSAsyncLoadGame)
    (SaveTasks : List UEMSAsyncSaveGame) (Mode : ESaveGameMode) (bLog : Bool)
    (It : UEMSAsyncSaveGame) (hm : It ∈ SaveTasks) (ha : It.bIsActive = true)
    (hmode : It.Mode = Mode ∨ It.Mode = ESaveGameMode.MODE_All) :
    IsAsyncSaveOrLoadTaskActive w LoadTasks SaveTasks Mode bLog = true := by
  unfold IsAsyncSaveOrLoadTaskActive
  have : SaveTasks.any (fun It =>
      It.bIsActive && (decide (It.Mode = Mode) || decide (It.Mode = ESaveGameMode.MODE_All)))
      = true := by
    rw [List.any_eq_true]
    exact ⟨It, hm, by simpa [ha] using hmode⟩
  simp [this]

theorem isAsyncActive_of_load_task (w : UWorld) (LoadTasks : List UEMSAsyncLoadGame)
    (SaveTasks : List UEMSAsyncSaveGame) (Mode : ESaveGameMode) (bLog : Bool)
    (It : UEMSAsyncLoadGame) (hm : It ∈ LoadTasks) (ha : It.bIsActive = true)
    (hmode : It.Mode = Mode ∨ It.Mode = ESaveGameMode.MODE_All) :
    IsAsyncSaveOrLoadTaskActive w LoadTasks SaveTasks Mode bLog = true := by
  unfold IsAsyncSaveOrLoadTaskActive
  have : LoadTasks.any (fun It =>
      It.bIsActive && (decide (It.Mode = Mode) || decide (It.Mode = ESaveGameMode.MODE_All)))
      = true := by
    rw [List.any_eq_true]
    exact ⟨It, hm, by simpa [ha] using hmode⟩
  simp [this]

/-- C12 on the code: a save task for the player actors is active and the
world is not paused; a request for player and level actors (mode all), whose
scope overlaps the active task's, gets a new save task and a new load task. -/
theorem C12_request_for_all_passes_active_player_task :
    ActivePlayerSave.bIsActive = true
    ∧ UEMSAsyncSaveGame.GetMode 3 = ESaveGameMode.MODE_All
    ∧ UEMSAsyncLoadGame.GetMode 3 = ESaveGameMode.MODE_All
    ∧ ScopesOverlap ESaveGameMode.MODE_All ActivePlayerSave.Mode = true
    ∧ AsyncSaveActors (some {}) {} [] [ActivePlayerSave] 3
        = some { Data := 3, Mode := ESaveGameMode.MODE_All, bIsActive := true }
    ∧ AsyncLoadActors (some {}) {} [] [ActivePlayerSave] 3 false
        = some { Data := 3, Mode := ESaveGameMode.MODE_All, bIsActive := true } := by
  decide

/-- C13 on the code: a load task for the level actors only is active, and
`IsSavingOrLoading` answers false; a wait task started then schedules its
completion at once. -/
theorem C13_level_only_task_is_not_seen :
    ActiveLevelLoad.bIsActive = true
    ∧ IsSavingOrLoading (some {}) {} [ActiveLevelLoad] [] = false
    ∧ StartWaitTask {} [ActiveLevelLoad] [] = EWaitStep.CompleteWaitTask := by
  decide

/-! ### Loading components by name -/

theorem loadComponent_name (c : UActorComponent) (r : FComponentSaveData) :
    (LoadComponent c r).Name = c.Name := by
  obtain ⟨n, reg, sc, ch, f⟩ := c
  unfold LoadComponent
  by_cases h : r.Name = BytesFromString n
  · rcases sc with _ | sc <;> rcases ch with _ | _ | ch <;> simp only [h, if_true]
      <;> (repeat' split) <;> rfl
  · simp only [h, if_false]

theorem loadComponent_of_ne (c : UActorComponent) (r : FComponentSaveData)
    (h : r.Name ≠ BytesFromString c.Name) : LoadComponent c r = c := by
  unfold LoadComponent
  simp only [h, if_false]

theorem foldl_loadComponent_no_match (l : List FComponentSaveData) (c : UActorComponent)
    (h : ∀ r ∈ l, r.Name ≠ BytesFromString c.Name) : l.foldl LoadComponent c = c := by
  induction l with
  | nil => rfl
  | cons r rest ih =>
    rw [List.foldl_cons, loadComponent_of_ne c r (h r (List.mem_cons_self _ _))]
    exact ih (fun x hx => h x (List.mem_cons_of_mem r hx))

theorem foldl_loadComponent_nodup (l : List FComponentSaveData) (c : UActorComponent)
    (hnd : (l.map (fun r => r.Name)).Nodup) :
    l.foldl LoadComponent c =
      match MatchingRecord c l with
      | some r => LoadComponent c r
      | none => c := by
  induction l with
  | nil => rfl
  | cons r rest ih =>
    rw [List.map_cons, List.nodup_cons] at hnd
    by_cases h : r.Name = BytesFromString c.Name
    · have hrest : ∀ x ∈ rest, x.Name ≠ BytesFromString (LoadComponent c r).Name := by
        intro x hx hxe
        rw [loadComponent_name, ← h] at hxe
        exact hnd.1 (List.mem_map.mpr ⟨x, hx, hxe⟩)
      rw [List.foldl_cons, foldl_loadComponent_no_match rest _ hrest]
      simp [MatchingRecord, h]
    · rw [List.foldl_cons, loadComponent_of_ne c r h, ih hnd.2]
      simp [MatchingRecord, h]

theorem matchingRecord_perm (c : UActorComponent) (l l2 : List FComponentSaveData)
    (hnd : (l.map (fun r => r.Name)).Nodup) (hperm : l2.Perm l) :
    MatchingRecord c l2 = MatchingRecord c l := by
  have hnd2 : (l2.map (fun r => r.Name)).Nodup := (hperm.map _).nodup_iff.mpr hnd
  unfold MatchingRecord
  cases h1 : l.find? (fun r => decide (r.Name = BytesFromString c.Name)) with
  | none =>
    rw [List.find?_eq_none] at h1 ⊢
    intro x hx
    exact h1 x (hperm.mem_iff.mp hx)
  | some r =>
    have hr_mem : r ∈ l := List.mem_of_find?_eq_some h1
    have hr_p := List.find?_some h1
    have hr_name : r.Name = BytesFromString c.Name := by simpa using hr_p
    cases h2 : l2.find? (fun r => decide (r.Name = BytesFromString c.Name)) with
    | none =>
      rw [List.find?_eq_none] at h2
      exact absurd hr_p (h2 r (hperm.mem_iff.mpr hr_mem))
    | some r2 =>
      have hr2_mem : r2 ∈ l2 := List.mem_of_find?_eq_some h2
      have hr2_name : r2.Name = BytesFromString c.Name := by
        simpa using List.find?_some h2
      have := List.inj_on_of_nodup_map hnd2 hr2_mem (hperm.mem_iff.mpr hr_mem)
        (hr2_name.trans hr_name.symm)
      rw [this]

theorem find?_filter_of_imp {α : Type} (p q : α → Bool) (l : List α)
    (h : ∀ x ∈ l, p x = true → q x = true) : (l.filter q).find? p = l.find? p := by
  induction l with
  | nil => rfl
  | cons x rest ih =>
    have ih1 := ih (fun y hy => h y (List.mem_cons_of_mem x hy))
    by_cases hq : q x = true
    · rw [List.filter_cons_of_pos hq, List.find?_cons, List.find?_cons, ih1]
    · rw [List.filter_cons_of_neg hq, List.find?_cons, ih1]
      have hp : p x = false := by
        by_contra hc
        exact hq (h x (List.mem_cons_self _ _) (by simpa using hc))
      simp [hp]

theorem loadActorComponents_by_match (a : AActor) (l : List FComponentSaveData)
    (hnd : (l.map (fun r => r.Name)).Nodup) :
    (LoadActorComponents a l).ComponentsToSave =
      a.ComponentsToSave.map (fun oc =>
        match oc with
        | some c =>
          if c.bRegistered then
            some (match MatchingRecord c l with
              | some r => LoadComponent c r
              | none => c)
          else some c
        | none => none) := by
  unfold LoadActorComponents
  simp only
  apply List.map_congr_left
  intro oc _
  cases oc with
  | none => rfl
  | some c => simp only [foldl_loadComponent_nodup l c hnd]

theorem loadComponent_of_match (c : UActorComponent) (r : FComponentSaveData)
    (h : r.Name = BytesFromString c.Name) : LoadComponent c r = DeserializedComponent c r := by
  obtain ⟨n, reg, sc, ch, f⟩ := c
  simp only at h
  unfold LoadComponent DeserializedComponent SerializeFromBinary IsMovable
  simp only [h, if_true]
  rcases sc with _ | ⟨mob, rt⟩
  · rcases ch with _ | _ | ⟨iface, cf⟩
    · rfl
    · rfl
    · cases iface <;> rfl
  · by_cases hm : mob = EComponentMobility.Movable
    · subst hm
      rcases ch with _ | _ | ⟨iface, cf⟩
      · rfl
      · rfl
      · cases iface <;> rfl
    · rcases ch with _ | _ | ⟨iface, cf⟩
      · simp [hm]
      · simp [hm]
      · cases iface <;> simp [hm]

theorem deserializedComponent_absorbs (c : UActorComponent) (r1 r2 : FComponentSaveData) :
    DeserializedComponent (DeserializedComponent c r1) r2 = DeserializedComponent c r2 := by
  obtain ⟨n, reg, sc, ch, f⟩ := c
  unfold DeserializedComponent
  rcases sc with _ | ⟨mob, rt⟩
  · rcases ch with _ | _ | ⟨iface, cf⟩
    · rfl
    · rfl
    · cases iface <;> rfl
  · by_cases hm : mob = EComponentMobility.Movable
    · subst hm
      rcases ch with _ | _ | ⟨iface, cf⟩
      · rfl
      · rfl
      · cases iface <;> rfl
    · rcases ch with _ | _ | ⟨iface, cf⟩
      · simp [hm]
      · simp [hm]
      · cases iface <;> simp [hm]

/-- The inner loop of `LoadActorComponents` on one component: the component
reads the last sub-record of its name. -/
theorem foldl_loadComponent_last (l : List FComponentSaveData) (c : UActorComponent) :
    l.foldl LoadComponent c =
      match LastMatchingRecord c l with
      | some r => DeserializedComponent c r
      | none => c := by
  induction l using List.reverseRecOn with
  | nil => rfl
  | append_singleton l r ih =>
    rw [List.foldl_append, List.foldl_cons, List.foldl_nil, ih]
    unfold LastMatchingRecord
    rw [List.filter_append]
    by_cases hr : r.Name = BytesFromString c.Name
    · have hf : [r].filter (fun x => decide (x.Name = BytesFromString c.Name)) = [r] := by
        simp [hr]
      rw [hf, List.getLast?_append_cons, List.getLast?_singleton]
      cases hl : (l.filter (fun x => decide (x.Name = BytesFromString c.Name))).getLast? with
      | none => exact loadComponent_of_match c r hr
      | some r0 =>
        show LoadComponent (DeserializedComponent c r0) r = DeserializedComponent c r
        rw [loadComponent_of_match (DeserializedComponent c r0) r hr,
          deserializedComponent_absorbs]
    · have hf : [r].filter (fun x => decide (x.Name = BytesFromString c.Name)) = [] := by
        simp [hr]
      rw [hf, List.append_nil]
      cases hl : (l.filter (fun x => decide (x.Name = BytesFromString c.Name))).getLast? with
      | none => exact loadComponent_of_ne c r hr
      | some r0 => exact loadComponent_of_ne (DeserializedComponent c r0) r hr

/-- `LoadActorComponents` in closed form, for every list of sub-records. -/
theorem loadActorComponents_eq (a : AActor) (l : List FComponentSaveData) :
    (LoadActorComponents a l).ComponentsToSave = ComponentsAfterLoad a.ComponentsToSave l := by
  unfold LoadActorComponents ComponentsAfterLoad
  apply List.map_congr_left
  intro oc _
  cases oc with
  | none => rfl
  | some c => simp only [foldl_loadComponent_last l c]

theorem matchingRecord_name (c : UActorComponent) (l : List FComponentSaveData)
    (r : FComponentSaveData) (h : MatchingRecord c l = some r) :
    r.Name = BytesFromString c.Name := by
  unfold MatchingRecord at h
  have := List.find?_some h
  simpa using this

/-- C14: for saved sub-records with pairwise distinct names,
`LoadActorComponents` leaves each registered component of `ComponentsToSave`
in the state of having read the one sub-record that carries its name (the
saved relative transform for a movable scene component, the saved blob as the
state of the component or of its child actor), and leaves a component without
such a sub-record, an unregistered and a null component as they are; the
result is the same for every permutation of the saved list, and the same when
the sub-records that name no registered component of the list are taken
out. -/
theorem C14_components_loaded_by_name (a : AActor) (l l2 : List FComponentSaveData)
    (hnd : (l.map (fun r => r.Name)).Nodup) (hperm : l2.Perm l) :
    (LoadActorComponents a l).ComponentsToSave =
        a.ComponentsToSave.map (fun oc =>
          match oc with
          | some c =>
            if c.bRegistered then
              some (match MatchingRecord c l with
                | some r => DeserializedComponent c r
                | none => c)
            else some c
          | none => none)
    ∧ LoadActorComponents a l2 = LoadActorComponents a l
    ∧ LoadActorComponents a (l.filter (NamesRegisteredComponent a)) = LoadActorComponents a l := by
  have hnd2 : (l2.map (fun r => r.Name)).Nodup := (hperm.map _).nodup_iff.mpr hnd
  have hndf : ((l.filter (NamesRegisteredComponent a)).map (fun r => r.Name)).Nodup :=
    hnd.sublist ((List.filter_sublist l).map _)
  have key : ∀ x y : AActor, x.ComponentsToSave = y.ComponentsToSave →
      { a with ComponentsToSave := x.ComponentsToSave }
        = { a with ComponentsToSave := y.ComponentsToSave } := by
    intro x y h; rw [h]
  have hshape : ∀ k : List FComponentSaveData, LoadActorComponents a k
      = { a with ComponentsToSave := (LoadActorComponents a k).ComponentsToSave } :=
    fun _ => rfl
  have hstate : (LoadActorComponents a l).ComponentsToSave =
      a.ComponentsToSave.map (fun oc =>
        match oc with
        | some c =>
          if c.bRegistered then
            some (match MatchingRecord c l with
              | some r => DeserializedComponent c r
              | none => c)
          else some c
        | none => none) := by
    rw [loadActorComponents_by_match a l hnd]
    apply List.map_congr_left
    intro oc _
    cases oc with
    | none => rfl
    | some c =>
      cases hm : MatchingRecord c l with
      | none => simp only [hm]
      | some r =>
        simp only [hm, loadComponent_of_match c r (matchingRecord_name c l r hm)]
  refine ⟨hstate, ?_, ?_⟩
  · rw [hshape l2, hshape l]
    apply key
    rw [loadActorComponents_by_match a l2 hnd2, loadActorComponents_by_match a l hnd]
    apply List.map_congr_left
    intro oc _
    cases oc with
    | none => rfl
    | some c => simp only [matchingRecord_perm c l l2 hnd hperm]
  · rw [hshape (l.filter (NamesRegisteredComponent a)), hshape l]
    apply key
    rw [loadActorComponents_by_match a _ hndf, loadActorComponents_by_match a l hnd]
    apply List.map_congr_left
    intro oc hoc
    cases oc with
    | none => rfl
    | some c =>
      by_cases hreg : c.bRegistered = true
      · have hm : MatchingRecord c (l.filter (NamesRegisteredComponent a))
            = MatchingRecord c l := by
          unfold MatchingRecord
          apply find?_filter_of_imp
          intro x _ hx
          unfold NamesRegisteredComponent
          rw [List.any_eq_true]
          exact ⟨some c, hoc, by simpa [hreg] using hx⟩
        simp only [hm]
      · simp [hreg]

/-- C14 at the lantern, its saved sub-records and the same sub-records in
another order: the flame stands at the saved transform with the saved state,
the glass hands the saved state to its child actor, the hook without
sub-record, the unregistered spare part and the null entry are as before. -/
theorem C14_components_loaded_by_name_witness :
    (LanternSubRecords.map (fun r => r.Name)).Nodup
    ∧ (LoadActorComponents LanternActor LanternSubRecords).ComponentsToSave
        = LoadedLanternComponents
    ∧ ((LoadActorComponents LanternActor LanternSubRecords).ComponentsToSave =
        LanternActor.ComponentsToSave.map (fun oc =>
          match oc with
          | some c =>
            if c.bRegistered then
              some (match MatchingRecord c LanternSubRecords with
                | some r => DeserializedComponent c r
                | none => c)
            else some c
          | none => none)
      ∧ LoadActorComponents LanternActor LanternSubRecords.reverse
          = LoadActorComponents LanternActor LanternSubRecords
      ∧ LoadActorComponents LanternActor
            (LanternSubRecords.filter (NamesRegisteredComponent LanternActor))
          = LoadActorComponents LanternActor LanternSubRecords) :=
  ⟨by decide, by decide,
   C14_components_loaded_by_name LanternActor LanternSubRecords LanternSubRecords.reverse
    (by decide) (List.reverse_perm _)⟩

/-! ### Save slots and save users -/

/-- C20 on the code: no slot name has been set, so the current slot is the
default one; with the copy of the persistent save switched on,
`SetCurrentSaveGameName` to another slot hands `IFileManager::Copy` the
persistent file of the new slot as source and as destination, not the
persistent file of the default slot as source. -/
theorem C20_copy_source_is_the_new_slot :
    GetCurrentSaveGameName CopyPersistentSettings {} = "MySaveGame"
    ∧ PersistentSaveFile CopyPersistentSettings {} {} (GetCurrentSaveGameName CopyPersistentSettings {})
        = "Saved/SaveGames/MySaveGame/MySaveGame_Persistent.sav"
    ∧ (SetCurrentSaveGameName CopyPersistentSettings {} {} {} "Slot2").Manager.CurrentSaveGameName
        = "Slot2"
    ∧ (SetCurrentSaveGameName CopyPersistentSettings {} {} {} "Slot2").CopyDestAndSrc
        = some ("Saved/SaveGames/Slot2/Slot2_Persistent.sav",
                "Saved/SaveGames/Slot2/Slot2_Persistent.sav") := by
  decide

/-! ### Round trip of the record format -/

theorem readElements_writeElements {α : Type} (write : α → Bytes)
    (read : Bytes → α × Bytes)
    (h : ∀ x rest, read (write x ++ rest) = (x, rest)) (l : List α) (rest : Bytes) :
    ReadElements read l.length (WriteElements write l ++ rest) = (l, rest) := by
  induction l with
  | nil => rfl
  | cons x xs ih =>
    simp only [List.length_cons, ReadElements, WriteElements, List.append_assoc, h, ih]

theorem readArray_writeArray {α : Type} (Ar : FArchive) (hAr : Ar.RoundTrips)
    (write : α → Bytes) (read : Bytes → α × Bytes)
    (h : ∀ x rest, read (write x ++ rest) = (x, rest)) (l : List α) (rest : Bytes) :
    ReadArray Ar read (WriteArray Ar write l ++ rest) = (l, rest) := by
  unfold ReadArray WriteArray
  simp only [List.append_assoc, hAr.Num, readElements_writeElements write read h]

theorem read_write_component (Ar : FArchive) (hAr : Ar.RoundTrips) (c : FComponentSaveData)
    (rest : Bytes) :
    ReadComponentSaveData Ar (WriteComponentSaveData Ar c ++ rest) = (c, rest) := by
  unfold ReadComponentSaveData WriteComponentSaveData
  simp only [List.append_assoc, hAr.ByteArray, hAr.Transform]

theorem read_write_gameObject (Ar : FArchive) (hAr : Ar.RoundTrips) (d : FGameObjectSaveData)
    (rest : Bytes) :
    ReadGameObjectSaveData Ar (WriteGameObjectSaveData Ar d ++ rest) = (d, rest) := by
  unfold ReadGameObjectSaveData WriteGameObjectSaveData
  simp only [List.append_assoc, hAr.ByteArray,
    readArray_writeArray Ar hAr _ _ (read_write_component Ar hAr)]

theorem read_write_actor (Ar : FArchive) (hAr : Ar.RoundTrips) (r : FActorSaveData)
    (rest : Bytes) :
    ReadActorSaveData Ar (WriteActorSaveData Ar r ++ rest) = (r, rest) := by
  unfold ReadActorSaveData WriteActorSaveData
  simp only [List.append_assoc, hAr.ByteArray, hAr.Transform, hAr.UInt8,
    read_write_gameObject Ar hAr]

theorem read_write_levelScript (Ar : FArchive) (hAr : Ar.RoundTrips)
    (r : FLevelScriptSaveData) (rest : Bytes) :
    ReadLevelScriptSaveData Ar (WriteLevelScriptSaveData Ar r ++ rest) = (r, rest) := by
  unfold ReadLevelScriptSaveData WriteLevelScriptSaveData
  simp only [List.append_assoc, hAr.Name, read_write_gameObject Ar hAr]

theorem read_write_pawn (Ar : FArchive) (hAr : Ar.RoundTrips) (r : FPawnSaveData)
    (rest : Bytes) :
    ReadPawnSaveData Ar (WritePawnSaveData Ar r ++ rest) = (r, rest) := by
  unfold ReadPawnSaveData WritePawnSaveData
  simp only [List.append_assoc, hAr.Vector, hAr.Rotator, read_write_gameObject Ar hAr]

theorem read_write_controller (Ar : FArchive) (hAr : Ar.RoundTrips) (r : FControllerSaveData)
    (rest : Bytes) :
    ReadControllerSaveData Ar (WriteControllerSaveData Ar r ++ rest) = (r, rest) := by
  unfold ReadControllerSaveData WriteControllerSaveData
  simp only [List.append_assoc, hAr.Rotator, read_write_gameObject Ar hAr]

theorem read_write_levelArchive (Ar : FArchive) (hAr : Ar.RoundTrips) (A : FLevelArchive)
    (rest : Bytes) :
    ReadLevelArchive Ar (WriteLevelArchive Ar A ++ rest) = (A, rest) := by
  unfold ReadLevelArchive WriteLevelArchive
  simp only [List.append_assoc, hAr.Name, read_write_gameObject Ar hAr,
    readArray_writeArray Ar hAr _ _ (read_write_actor Ar hAr),
    readArray_writeArray Ar hAr _ _ (read_write_levelScript Ar hAr)]

theorem read_write_playerArchive (Ar : FArchive) (hAr : Ar.RoundTrips) (A : FPlayerArchive)
    (rest : Bytes) :
    ReadPlayerArchive Ar (WritePlayerArchive Ar A ++ rest) = (A, rest) := by
  unfold ReadPlayerArchive WritePlayerArchive
  simp only [List.append_assoc, hAr.Name, read_write_gameObject Ar hAr,
    read_write_pawn Ar hAr, read_write_controller Ar hAr]

theorem readInt_writeInt (z : Int) (rest : Bytes) : ReadInt (WriteInt z ++ rest) = (z, rest) := by
  unfold WriteInt
  by_cases h : z < 0
  · simp only [h, if_true, List.cons_append, List.nil_append, ReadInt]
    have : -(z.natAbs : Int) = z := by omega
    rw [this]
  · simp only [h, if_false, List.cons_append, List.nil_append, ReadInt]
    have : (z.natAbs : Int) = z := by omega
    simp [this]

theorem readVectorCells_write (V : FVector) (rest : Bytes) :
    ReadVectorCells (WriteVectorCells V ++ rest) = (V, rest) := by
  unfold ReadVectorCells WriteVectorCells
  simp only [List.append_assoc, readInt_writeInt]

theorem readQuatCells_write (Q : FQuat) (rest : Bytes) :
    ReadQuatCells (WriteQuatCells Q ++ rest) = (Q, rest) := by
  unfold ReadQuatCells WriteQuatCells
  simp only [List.append_assoc, readInt_writeInt]

theorem readCounted_write (b rest : Bytes) : ReadCounted (b.length :: b ++ rest) = (b, rest) := by
  simp [ReadCounted]

theorem sampleArchive_roundTrips : SampleArchive.RoundTrips where
  Num := fun _ _ => rfl
  ByteArray := fun b rest => readCounted_write b rest
  UInt8 := fun _ _ => rfl
  Transform := by
    intro T rest
    simp only [SampleArchive, List.append_assoc, readQuatCells_write, readVectorCells_write]
  Vector := fun V rest => readVectorCells_write V rest
  Rotator := by
    intro R rest
    simp only [SampleArchive, List.append_assoc, readInt_writeInt]
  Name := by
    intro N rest
    have h : ReadCounted (N.length :: N.toList.map Char.toNat ++ rest)
        = (N.toList.map Char.toNat, rest) := by
      have hl : N.length = (N.toList.map Char.toNat).length := by
        rw [List.length_map]; rfl
      rw [hl]
      exact readCounted_write _ _
    simp only [SampleArchive]
    rw [show (N.length :: N.toList.map Char.toNat) ++ rest
        = N.length :: N.toList.map Char.toNat ++ rest from rfl, h]
    simp [List.map_map, Function.comp_def]

/-- C15: when the engine's primitive serializers read back what they wrote,
so do the `operator<<` of the record format: an object snapshot, a level
archive and a player archive are read back field by field, sub-records and
actor records in their order, with the bytes that follow left over; and an
actor loaded from a snapshot that went through the format holds the field
values of the actor the snapshot was taken from. -/
theorem C15_record_format_round_trip (Ar : FArchive) (hAr : Ar.RoundTrips) :
    (∀ (d : FGameObjectSaveData) (rest : Bytes),
        ReadGameObjectSaveData Ar (WriteGameObjectSaveData Ar d ++ rest) = (d, rest))
    ∧ (∀ (A : FLevelArchive) (rest : Bytes),
        ReadLevelArchive Ar (WriteLevelArchive Ar A ++ rest) = (A, rest))
    ∧ (∀ (A : FPlayerArchive) (rest : Bytes),
        ReadPlayerArchive Ar (WritePlayerArchive Ar A ++ rest) = (A, rest))
    ∧ (∀ a b : AActor,
        (LoadActorState b
          (ReadGameObjectSaveData Ar
            (WriteGameObjectSaveData Ar (SaveActorState a).2)).1).Fields = a.Fields) := by
  refine ⟨read_write_gameObject Ar hAr, read_write_levelArchive Ar hAr,
    read_write_playerArchive Ar hAr, ?_⟩
  intro a b
  have h := read_write_gameObject Ar hAr (SaveActorState a).2 []
  rw [List.append_nil] at h
  rw [h, (loadActorState_facts b _).2.1]
  unfold SaveActorState
  simp only
  split_ifs <;> rfl

/-- C15 at a sample: the level archive of level A through the sample
serializers, and the crate's snapshot loaded into the lamp. -/
theorem C15_record_format_round_trip_witness :
    ReadLevelArchive SampleArchive (WriteLevelArchive SampleArchive LevelAArchive ++ [])
        = (LevelAArchive, [])
    ∧ (LoadActorState LampActor
        (ReadGameObjectSaveData SampleArchive
          (WriteGameObjectSaveData SampleArchive (SaveActorState RuntimeCrate).2)).1).Fields
        = RuntimeCrate.Fields :=
  ⟨(C15_record_format_round_trip SampleArchive sampleArchive_roundTrips).2.1 LevelAArchive [],
   (C15_record_format_round_trip SampleArchive sampleArchive_roundTrips).2.2.2
      RuntimeCrate LampActor⟩

/-! ### Loading files -/

theorem unpack_savedActors_eq (S : UEMSPluginSettings) (w : UWorld) (m : UEMSObject)
    (LevelArchive : FLevelArchive) :
    (UnpackBinaryArchive S w m LevelArchive).1.SavedActors =
      LevelArchive.SavedActors.filter (fun r =>
        decide (r.Type_ = EActorType.AT_Persistent.toUInt8)
          || decide (LevelArchive.Level = GetLevelName w)) := by
  unfold UnpackBinaryArchive
  simp only [unpack_actor_fold, List.nil_append]
  split_ifs <;> rfl

theorem loadBinaryArchive_of_readable (Ar : FArchive) (Z : FCompressedProxy)
    (S : UEMSPluginSettings) (w : UWorld) (fs : FFileSystem) (m : UEMSObject)
    (LoadType : EDataLoadType) (Path : FString) (Object : Option USaveGame) (Data : Bytes)
    (hfile : fs.Read Path = some Data) (hne : Data ≠ [])
    (herr : Z.bLoadError Data = false) :
    LoadBinaryArchive Ar Z S w fs m LoadType Path Object
      = UnpackBinaryArchiveFrom Ar S w m (Z.Decompress Data) LoadType Object := by
  have hlen : 0 < Data.length := List.length_pos.mpr hne
  have hsize : ¬ fs.FileSize Path ≤ 0 := by
    unfold FFileSystem.FileSize
    rw [hfile]
    simp only
    omega
  have hlen2 : ¬ Data.length ≤ 0 := by omega
  unfold LoadBinaryArchive
  simp [hsize, hfile, hlen2, herr]

theorem loadBinaryArchive_level_forgets_saved_actors (Ar : FArchive) (Z : FCompressedProxy)
    (S : UEMSPluginSettings) (w : UWorld) (fs : FFileSystem) (m m2 : UEMSObject)
    (Path : FString) (Data : Bytes)
    (hfile : fs.Read Path = some Data) (hne : Data ≠ [])
    (herr : Z.bLoadError Data = false) :
    (LoadBinaryArchive Ar Z S w fs m EDataLoadType.DATA_Level Path none).Manager.SavedActors
      = (LoadBinaryArchive Ar Z S w fs m2 EDataLoadType.DATA_Level Path
          none).Manager.SavedActors := by
  rw [loadBinaryArchive_of_readable Ar Z S w fs m _ Path none Data hfile hne herr,
    loadBinaryArchive_of_readable Ar Z S w fs m2 _ Path none Data hfile hne herr]
  unfold UnpackBinaryArchiveFrom
  simp only [unpack_savedActors_eq]

/-- C16 on the code: the level file of the current slot holds three bytes
that are no compressed envelope, and the manager holds a record from an
earlier load; `TryLoadLevelFile` answers false and leaves `SavedActors`
empty. A level file of length zero leaves the manager as it is. -/
theorem C16_garbage_file_empties_saved_actors :
    GarbageLevelFile.Read (ActorSaveFile {} {} ManagerWithSavedCrate "") = some [1, 2, 3]
    ∧ SampleProxy.Decompress [1, 2, 3] = []
    ∧ ManagerWithSavedCrate.SavedActors = [RuntimeCrateRecord]
    ∧ (TryLoadLevelFile SampleArchive SampleProxy {} {} LevelBWorld GarbageLevelFile
        ManagerWithSavedCrate).bSuccess = false
    ∧ (TryLoadLevelFile SampleArchive SampleProxy {} {} LevelBWorld GarbageLevelFile
        ManagerWithSavedCrate).Manager.SavedActors = []
    ∧ TryLoadLevelFile SampleArchive SampleProxy {} {} LevelBWorld EmptyLevelFile
        ManagerWithSavedCrate
        = { Manager := ManagerWithSavedCrate, Object := none, bSuccess := false } := by
  decide

/-- C19 on the code: slot A is the current slot and its slot info file holds
other data than the one of slot B; asked with an empty name first,
`GetSlotInfoObject` returns the object of slot A's file, but asked with an
empty name after a lookup of slot B by name it returns the object of slot B's
file. -/
theorem C19_named_lookup_replaces_current_slot_info :
    GetCurrentSaveGameName {} SlotAManager = "SlotA"
    ∧ LoadObject SampleArchive SampleProxy {} {} TwoSlotFiles SlotAManager
        (SlotInfoSaveFile {} {} SlotAManager "") (some "EMSInfoSaveGame")
        = some { Class := "EMSInfoSaveGame", Fields := [65] }
    ∧ (GetSlotInfoObject SampleArchive SampleProxy {} {} {} TwoSlotFiles SlotAManager "").1
        = some { Class := "EMSInfoSaveGame", Fields := [65] }
    ∧ (GetSlotInfoObject SampleArchive SampleProxy {} {} {} TwoSlotFiles SlotAManager
        "SlotB").1 = some { Class := "EMSInfoSaveGame", Fields := [66] }
    ∧ (GetSlotInfoObject SampleArchive SampleProxy {} {} {} TwoSlotFiles
        (GetSlotInfoObject SampleArchive SampleProxy {} {} {} TwoSlotFiles SlotAManager
          "SlotB").2 "").1
        = some { Class := "EMSInfoSaveGame", Fields := [66] } := by
  decide

/-! ### The file layout -/

theorem fullSaveDir_layout (S : UEMSPluginSettings) (P : FPaths) (m : UEMSObject)
    (Kind SaveGameName : FString) :
    FullSaveDir S P m (Kind ++ SaveType) (EffectiveSlotName S m SaveGameName)
      = SaveFileLayout S P m.CurrentSaveUserName (EffectiveSlotName S m SaveGameName) Kind := by
  have hfix : (if EffectiveSlotName S m SaveGameName = "" then GetCurrentSaveGameName S m
      else EffectiveSlotName S m SaveGameName) = EffectiveSlotName S m SaveGameName := by
    unfold EffectiveSlotName
    by_cases h1 : SaveGameName = ""
    · by_cases h2 : GetCurrentSaveGameName S m = ""
      · simp [h1, h2]
      · simp [h1, h2]
    · simp [h1]
  unfold FullSaveDir SaveFileLayout SaveFolder BaseSaveDir SaveUserDir SaveType
  simp only [hfix]
  by_cases hu : m.CurrentSaveUserName = ""
  · by_cases hn : S.FileNamingType = EFileSaveMethod.FM_Optimized
    · simp [hu, hn, String.append_assoc]
    · simp [hu, hn, String.append_assoc]
  · by_cases hn : S.FileNamingType = EFileSaveMethod.FM_Optimized
    · simp [hu, hn, String.append_assoc]
    · simp [hu, hn, String.append_assoc]

/-- C21: the level, player, slot and persistent file of a slot lie at the
layout formula's path for the current user name, the effective slot name and
the data kind `Level`, `Player`, `Slot` and `Persistent`. -/
theorem C21_save_file_paths (S : UEMSPluginSettings) (P : FPaths) (m : UEMSObject)
    (SaveGameName : FString) :
    ActorSaveFile S P m SaveGameName
        = SaveFileLayout S P m.CurrentSaveUserName (EffectiveSlotName S m SaveGameName) "Level"
    ∧ PlayerSaveFile S P m SaveGameName
        = SaveFileLayout S P m.CurrentSaveUserName (EffectiveSlotName S m SaveGameName) "Player"
    ∧ SlotInfoSaveFile S P m SaveGameName
        = SaveFileLayout S P m.CurrentSaveUserName (EffectiveSlotName S m SaveGameName) "Slot"
    ∧ PersistentSaveFile S P m SaveGameName
        = SaveFileLayout S P m.CurrentSaveUserName (EffectiveSlotName S m SaveGameName)
            "Persistent" := by
  refine ⟨?_, ?_, ?_, ?_⟩
  · exact fullSaveDir_layout S P m "Level" SaveGameName
  · exact fullSaveDir_layout S P m "Player" SaveGameName
  · exact fullSaveDir_layout S P m "Slot" SaveGameName
  · exact fullSaveDir_layout S P m "Persistent" SaveGameName

/-! ### The level name -/

theorem getLevelName_of_empty_prefix (w : UWorld) (h : w.StreamingLevelsPrefix = "") :
    GetLevelName w = w.OuterName := by
  unfold GetLevelName FStringRemoveAt
  simp [h]

theorem stristrFrom_at_start (sub rest : List Char) (i : Nat) (hne : sub ≠ []) :
    StristrFrom sub (sub ++ rest) i = some i := by
  cases sub with
  | nil => exact absurd rfl hne
  | cons c cs =>
    have hp : ((c :: cs).map Char.toUpper).isPrefixOf
        ((c :: (cs ++ rest)).map Char.toUpper) = true := by
      rw [← List.cons_append, List.map_append]
      simp
    show (if ((c :: cs).map Char.toUpper).isPrefixOf
        ((c :: (cs ++ rest)).map Char.toUpper) = true then some i
      else StristrFrom (c :: cs) (cs ++ rest) (i + 1)) = some i
    rw [if_pos hp]

theorem getLevelName_of_leading_prefix (w : UWorld) (rest : List Char)
    (hne : w.StreamingLevelsPrefix.toList ≠ [])
    (h : w.OuterName.toList = w.StreamingLevelsPrefix.toList ++ rest) :
    GetLevelName w = String.mk rest
    ∧ RemoveAtInRange w.OuterName.toList
        (FStringFind w.OuterName.toList w.StreamingLevelsPrefix.toList)
        w.StreamingLevelsPrefix.toList.length := by
  have hfind : FStringFind w.OuterName.toList w.StreamingLevelsPrefix.toList = 0 := by
    unfold FStringFind
    rw [h, stristrFrom_at_start _ _ 0 hne, if_neg hne]
    rfl
  have hlen : 0 < w.StreamingLevelsPrefix.toList.length := List.length_pos.mpr hne
  constructor
  · unfold GetLevelName FStringRemoveAt
    simp only [hfind]
    have h0 : ¬ w.StreamingLevelsPrefix.toList.length = 0 := by omega
    have hr : (0 : Int) ≤ 0 ∧ (0 : Int) + (w.StreamingLevelsPrefix.toList.length : Int)
        ≤ (w.OuterName.toList.length : Int) := by
      rw [h, List.length_append]
      constructor <;> omega
    simp only [h0, if_false, hr, and_self, if_true]
    rw [h]
    simp
  · unfold RemoveAtInRange
    right
    rw [hfind, h, List.length_append]
    constructor <;> omega

/-- C28 on the code: the world's outer name does not hold the streaming
levels prefix, which is not empty; `Find` answers -1 and `RemoveAt` is called
with index -1 and the prefix length 9 as count, outside the range of the
name. -/
theorem C28_missing_prefix_removes_out_of_range :
    FStringFind UnprefixedLevelWorld.OuterName.toList
        UnprefixedLevelWorld.StreamingLevelsPrefix.toList = -1
    ∧ UnprefixedLevelWorld.StreamingLevelsPrefix.toList.length = 9
    ∧ ¬ RemoveAtInRange UnprefixedLevelWorld.OuterName.toList
        (FStringFind UnprefixedLevelWorld.OuterName.toList
          UnprefixedLevelWorld.StreamingLevelsPrefix.toList)
        UnprefixedLevelWorld.StreamingLevelsPrefix.toList.length := by
  decide

/-! ### The cached profile object -/

theorem profileSaveFile_ne_empty (P : FPaths) (m : UEMSObject) : ProfileSaveFile P m ≠ "" := by
  intro h
  have hd := congrArg String.length h
  unfold ProfileSaveFile at hd
  rw [String.length_append] at hd
  have : SaveType.length = 4 := rfl
  have h0 : ("" : String).length = 0 := rfl
  omega

theorem profileSaveFile_ne_of_user_ne (P : FPaths) (m n : UEMSObject)
    (h : m.CurrentSaveUserName ≠ n.CurrentSaveUserName) :
    ProfileSaveFile P m ≠ ProfileSaveFile P n := by
  intro heq
  have hd := congrArg String.data heq
  unfold ProfileSaveFile BaseSaveDir SaveUserDir at hd
  by_cases hm : m.CurrentSaveUserName = "" <;> by_cases hn : n.CurrentSaveUserName = ""
  · exact h (hm.trans hn.symm)
  · simp only [hm, hn, ne_eq, not_true_eq_false, not_false_eq_true, if_true, if_false,
      String.data_append, List.append_assoc] at hd
    have hd2 := List.append_cancel_left hd
    simp only [List.cons_append, List.cons.injEq] at hd2
    exact absurd hd2.1 (by decide)
  · simp only [hm, hn, ne_eq, not_true_eq_false, not_false_eq_true, if_true, if_false,
      String.data_append, List.append_assoc] at hd
    have hd2 := List.append_cancel_left hd
    simp only [List.cons_append, List.cons.injEq] at hd2
    exact absurd hd2.1 (by decide)
  · simp only [hm, hn, ne_eq, not_true_eq_false, not_false_eq_true, if_true, if_false,
      String.data_append, List.append_assoc] at hd
    have hd2 := List.append_cancel_left (List.append_cancel_left hd)
    have hd3 : m.CurrentSaveUserName.data ++ ("/".data ++ (LocalProfileName.data ++ SaveType.data))
        = n.CurrentSaveUserName.data ++ ("/".data ++ (LocalProfileName.data ++ SaveType.data)) :=
      hd2
    have hd4 := List.append_cancel_right hd3
    exact h (String.ext hd4)

/-- C30: neither the change of the slot name nor the change of the user name
touches the cached profile object; with a profile object cached,
`GetLocalProfileSaveGame` returns that object before the change of the user
name and after it (whatever the files are), and keeps it cached, although
`ProfileSaveFile` names another file as soon as the stored user name is
another one. -/
theorem C30_cached_profile_survives_user_change (Ar : FArchive) (Z : FCompressedProxy)
    (S : UEMSPluginSettings) (P : FPaths) (w : UWorld) (fs fs2 : FFileSystem)
    (m : UEMSObject) (SaveGameName UserName : FString) (Obj : USaveGame)
    (h : m.CachedProfileSave = some Obj) :
    (SetCurrentSaveGameName S P fs m SaveGameName).Manager.CachedProfileSave = some Obj
    ∧ (SetCurrentSaveUserName m UserName).CachedProfileSave = some Obj
    ∧ (GetLocalProfileSaveGame Ar Z S P w fs m).1 = some Obj
    ∧ (GetLocalProfileSaveGame Ar Z S P w fs2 (SetCurrentSaveUserName m UserName)).1 = some Obj
    ∧ (GetLocalProfileSaveGame Ar Z S P w fs2
        (SetCurrentSaveUserName m UserName)).2.CachedProfileSave = some Obj
    ∧ ((SetCurrentSaveUserName m UserName).CurrentSaveUserName ≠ m.CurrentSaveUserName →
        ProfileSaveFile P (SetCurrentSaveUserName m UserName) ≠ ProfileSaveFile P m) := by
  have hname : (SetCurrentSaveGameName S P fs m SaveGameName).Manager.CachedProfileSave
      = some Obj := by
    unfold SetCurrentSaveGameName
    dsimp only
    repeat' split
    all_goals exact h
  have huser : (SetCurrentSaveUserName m UserName).CachedProfileSave = some Obj := by
    unfold SetCurrentSaveUserName
    dsimp only
    split
    all_goals exact h
  have hget : ∀ (f : FFileSystem) (n : UEMSObject), n.CachedProfileSave = some Obj →
      GetLocalProfileSaveGame Ar Z S P w f n = (some Obj, n) := by
    intro f n hn
    unfold GetLocalProfileSaveGame GetDesiredSaveObject
    simp only [profileSaveFile_ne_empty P n, if_false, hn]
    cases n
    simp only at hn
    simp only [hn]
  refine ⟨hname, huser, ?_, ?_, ?_, ?_⟩
  · rw [hget fs m h]
  · rw [hget fs2 _ huser]
  · rw [hget fs2 _ huser]; exact huser
  · intro hne
    exact profileSaveFile_ne_of_user_ne P _ _ hne

/-- C30 at a manager of user Ann that holds a cached profile object, with the
user changed to Bob: the object is still returned, and the profile file is
another one. -/
theorem C30_cached_profile_survives_user_change_witness :
    ProfileManagerOfAnn.CachedProfileSave = some CachedProfileOfAnn
    ∧ (GetLocalProfileSaveGame SampleArchive SampleProxy {} {} EmptyCrateWorld {}
        (SetCurrentSaveUserName ProfileManagerOfAnn "Bob")).1 = some CachedProfileOfAnn
    ∧ ProfileSaveFile {} ProfileManagerOfAnn = "Saved/UserSaveGames/Ann/LocalProfile.sav"
    ∧ ProfileSaveFile {} (SetCurrentSaveUserName ProfileManagerOfAnn "Bob")
        = "Saved/UserSaveGames/Bob/LocalProfile.sav" :=
  ⟨rfl,
   (C30_cached_profile_survives_user_change SampleArchive SampleProxy {} {} EmptyCrateWorld
    {} {} ProfileManagerOfAnn "SlotB" "Bob" CachedProfileOfAnn rfl).2.2.2.1,
   by decide, by decide⟩

/-! ### Saving the components of an actor -/

/-- C25 on the code: the turret lists one component, a child actor component
whose child declares the save interface; `SaveActorComponents` still emits a
sub-record for it, with the component's name and relative transform and an
empty data blob. -/
theorem C25_self_saving_child_still_gets_a_record :
    TurretActor.ComponentsToSave = [some GunComponent]
    ∧ GunComponent.ChildActorComp = some (some { bHasSaveInterface := true, Fields := [9] })
    ∧ SaveActorComponents TurretActor
      = [{ Name := BytesFromString "Gun",
           RelativeTransform :=
             { Rotation := ⟨0, 0, 0, 1⟩, Translation := ⟨5, 0, 0⟩, Scale3D := ⟨1, 1, 1⟩ },
           Data := [] }] := by
  decide

/-- C25, amended: `SaveActorComponents` emits one sub-record per non-null
registered component of the `ComponentsToSave` list, in list order, child
actor components included; each sub-record is named after its component, and
its data blob is empty for a child actor component whose child declares the
save interface (or that has no child), the child's state for another child
actor component, and the component's state otherwise. -/
theorem C25_one_record_per_registered_component (a : AActor) :
    SaveActorComponents a = (RegisteredComponents a).map SaveComponent
    ∧ (SaveActorComponents a).length = (RegisteredComponents a).length
    ∧ (SaveActorComponents a).map (fun r => r.Name)
      = (RegisteredComponents a).map (fun c => BytesFromString c.Name)
    ∧ (SaveActorComponents a).map (fun r => r.Data)
      = (RegisteredComponents a).map SubRecordData := by
  have hname : ∀ c : UActorComponent, (SaveComponent c).Name = BytesFromString c.Name := by
    intro c
    unfold SaveComponent
    dsimp only
    repeat' split
    all_goals rfl
  have hdata : ∀ c : UActorComponent, (SaveComponent c).Data = SubRecordData c := by
    intro c
    unfold SaveComponent SubRecordData SerializeToBinary
    dsimp only
    repeat' split
    all_goals simp_all
  have hmap : SaveActorComponents a = (RegisteredComponents a).map SaveComponent := by
    unfold SaveActorComponents RegisteredComponents
    rw [List.map_filterMap]
    congr 1
    funext oc
    cases oc with
    | none => rfl
    | some c => by_cases hr : c.bRegistered = true <;> simp [hr]
  refine ⟨hmap, ?_, ?_, ?_⟩
  · rw [hmap, List.length_map]
  · rw [hmap, List.map_map]
    exact List.map_congr_left (fun c _ => hname c)
  · rw [hmap, List.map_map]
    exact List.map_congr_left (fun c _ => hdata c)

/-! ### Records of one identity -/

theorem deferredLoadLoop_eq (S : UEMSPluginSettings) (AL : List (Option Nat)) :
    ∀ (left LoadNum : Nat) (w : UWorld) (t : UEMSAsyncLoadGame),
      (DeferredLoadLoop S AL left LoadNum w t).1
        = ((t.SavedActors.drop (LoadNum + t.LoadedActorNum)).take left).foldl
            (fun acc r => (SpawnOrUpdateLevelActor S acc AL r).1) w
      ∧ (DeferredLoadLoop S AL left LoadNum w t).2.SavedActors = t.SavedActors
      ∧ (DeferredLoadLoop S AL left LoadNum w t).2.LoadedActorNum = t.LoadedActorNum
      ∧ (DeferredLoadLoop S AL left LoadNum w t).2.NextTick = t.NextTick
      ∧ (DeferredLoadLoop S AL left LoadNum w t).2.bIsActive = t.bIsActive := by
  intro left
  induction left with
  | zero =>
    intro LoadNum w t
    simp [DeferredLoadLoop]
  | succ left ih =>
    intro LoadNum w t
    by_cases h : LoadNum + t.LoadedActorNum ≥ t.SavedActors.length
    · have hd : t.SavedActors.drop (LoadNum + t.LoadedActorNum) = [] :=
        List.drop_eq_nil_of_le h
      simp only [DeferredLoadLoop, h, if_true, hd, List.take_nil, List.foldl_nil, and_self]
    · have hlt : LoadNum + t.LoadedActorNum < t.SavedActors.length := Nat.lt_of_not_ge h
      have hmin : min (LoadNum + t.LoadedActorNum) t.SavedActors.length
          = LoadNum + t.LoadedActorNum := Nat.min_eq_left (Nat.le_of_lt hlt)
      have hget : t.SavedActors[LoadNum + t.LoadedActorNum]?
          = some (t.SavedActors[LoadNum + t.LoadedActorNum]) := List.getElem?_eq_getElem hlt
      have hdrop : t.SavedActors.drop (LoadNum + t.LoadedActorNum)
          = t.SavedActors[LoadNum + t.LoadedActorNum]
            :: t.SavedActors.drop (LoadNum + 1 + t.LoadedActorNum) := by
        rw [Nat.add_right_comm]
        exact List.drop_eq_getElem_cons hlt
      have hrec := ih (LoadNum + 1)
        (SpawnOrUpdateLevelActor S w AL (t.SavedActors[LoadNum + t.LoadedActorNum])).1
        { t with bDeferredLoadSuccess :=
            (SpawnOrUpdateLevelActor S w AL (t.SavedActors[LoadNum + t.LoadedActorNum])).2 }
      simp only [DeferredLoadLoop, h, if_false, hmin, hget, hdrop, List.take_succ_cons,
        List.foldl_cons]
      exact hrec

/-- One call of `DeferredLoadActors` with records left: the next batch of at
most fifteen records is applied in list order, the counter grows by fifteen
and the function is scheduled again. -/
theorem deferredLoadActors_batch (S : UEMSPluginSettings) (w : UWorld) (m : UEMSObject)
    (t : UEMSAsyncLoadGame) (h : t.LoadedActorNum < t.SavedActors.length) :
    (DeferredLoadActors S w m t).1
        = ((t.SavedActors.drop t.LoadedActorNum).take 15).foldl
            (fun acc r => (SpawnOrUpdateLevelActor S acc m.ActorList r).1) w
    ∧ (DeferredLoadActors S w m t).2.SavedActors = t.SavedActors
    ∧ (DeferredLoadActors S w m t).2.LoadedActorNum = t.LoadedActorNum + 15
    ∧ (DeferredLoadActors S w m t).2.NextTick = some ELoadStep.DeferredLoadActors
    ∧ (DeferredLoadActors S w m t).2.bIsActive = t.bIsActive := by
  have hl := deferredLoadLoop_eq S m.ActorList 15 0 w t
  rw [Nat.zero_add] at hl
  have e : DeferredLoadActors S w m t
      = ((DeferredLoadLoop S m.ActorList 15 0 w t).1,
         { (DeferredLoadLoop S m.ActorList 15 0 w t).2 with
           LoadedActorNum := (DeferredLoadLoop S m.ActorList 15 0 w t).2.LoadedActorNum + 15,
           NextTick := some ELoadStep.DeferredLoadActors }) := by
    unfold DeferredLoadActors
    rw [if_pos h]
  rw [e]
  exact ⟨hl.1, hl.2.1, congrArg (fun k => k + 15) hl.2.2.1, rfl, hl.2.2.2.2⟩

/-- One call of `DeferredLoadActors` with no record left: `FinishLoading`. -/
theorem deferredLoadActors_finish (S : UEMSPluginSettings) (w : UWorld) (m : UEMSObject)
    (t : UEMSAsyncLoadGame) (h : t.SavedActors.length ≤ t.LoadedActorNum) :
    DeferredLoadActors S w m t = (w, FinishLoading t) := by
  unfold DeferredLoadActors
  simp only [Nat.not_lt.mpr h, if_false]

theorem saveActorToBinary_playerController (w : UWorld) (i : Nat) :
    (SaveActorToBinary w i).1.PlayerController = w.PlayerController := by
  unfold SaveActorToBinary
  cases w.Actors[i]? <;> rfl

theorem savePlayerController_playerController (w : UWorld) :
    (SavePlayerController w).1.PlayerController = w.PlayerController := by
  unfold SavePlayerController
  dsimp only
  repeat' split
  all_goals first | rfl | exact saveActorToBinary_playerController w _

theorem savePlayerPawn_playerController (K : FRotationMath) (w : UWorld) :
    (SavePlayerPawn K w).1.PlayerController = w.PlayerController := by
  unfold SavePlayerPawn
  dsimp only
  repeat' split
  all_goals first | rfl | exact saveActorToBinary_playerController w _

/-- With a player controller in the world `SavePlayerActors` returns. -/
theorem savePlayerActors_of_controller (K : FRotationMath) (w : UWorld)
    (PC : APlayerController) (h : w.PlayerController = some PC) :
    (SavePlayerActors K w).isSome = true := by
  have hp : GetPlayerController (SavePlayerPawn K (SavePlayerController w).1).1 = some PC := by
    unfold GetPlayerController
    rw [savePlayerPawn_playerController, savePlayerController_playerController, h]
  have hs : (SavePlayerState (SavePlayerPawn K (SavePlayerController w).1).1).isSome = true := by
    unfold SavePlayerState
    rw [hp]
    dsimp only
    repeat' split
    all_goals rfl
  unfold SavePlayerActors
  dsimp only
  cases hc : SavePlayerState (SavePlayerPawn K (SavePlayerController w).1).1 with
  | none => rw [hc] at hs; exact absurd hs (by simp)
  | some s => rfl

/-- C29 on the code: in a world without a player controller (a dedicated
server, where the manager hangs on the game mode) the controller block and
the pawn block are skipped behind their tests, and the player state block
dereferences the null controller: `SavePlayerActors` does not reach the
archive. -/
theorem C29_SavePlayerActors_dereferences_null_controller :
    GetPlayerController DedicatedServerWorld = none
    ∧ SavePlayerController DedicatedServerWorld = (DedicatedServerWorld, {})
    ∧ SavePlayerPawn SampleRotationMath DedicatedServerWorld = (DedicatedServerWorld, {})
    ∧ SavePlayerState DedicatedServerWorld = none
    ∧ SavePlayerActors SampleRotationMath DedicatedServerWorld = none := by
  decide

/-! ### The steps of the load task -/

theorem loadActorFromBinary_playerController (w : UWorld) (i : Nat)
    (d : FGameObjectSaveData) :
    (LoadActorFromBinary w i d).PlayerController = w.PlayerController := by
  unfold LoadActorFromBinary
  cases w.Actors[i]? <;> rfl

theorem loadPlayerController_isSome (S : UEMSPluginSettings) (w : UWorld) (m : UEMSObject) :
    (LoadPlayerController S w m).PlayerController.isSome = w.PlayerController.isSome := by
  unfold LoadPlayerController GetPlayerController
  cases hc : w.PlayerController with
  | none => simp only [hc]
  | some PC =>
    dsimp only
    repeat' split
    all_goals simp [loadActorFromBinary_playerController, hc]

theorem loadPlayerPawn_playerController (K : FRotationMath) (S : UEMSPluginSettings)
    (w : UWorld) (m : UEMSObject) :
    (LoadPlayerPawn K S w m).PlayerController = w.PlayerController := by
  unfold LoadPlayerPawn
  dsimp only
  repeat' split
  all_goals first | rfl | (rw [loadActorFromBinary_playerController]; try rfl)

theorem loadPlayerState_of_controller (w : UWorld) (m : UEMSObject)
    (h : w.PlayerController.isSome = true) : (LoadPlayerState w m).isSome = true := by
  unfold LoadPlayerState GetPlayerController
  cases hc : w.PlayerController with
  | none => rw [hc] at h; exact absurd h (by simp)
  | some PC =>
    dsimp only
    repeat' split
    all_goals rfl

theorem playerController_of_hasValidPlayer (w : UWorld) (h : HasValidPlayer w = true) :
    w.PlayerController.isSome = true := by
  unfold HasValidPlayer GetPlayerPawn GetPlayerController at h
  cases hc : w.PlayerController with
  | none =>
    rw [hc] at h
    simp [UWorld.Deref, IsValid] at h
  | some PC => rfl

/-- With a valid player pawn `LoadPlayerActors` returns. -/
theorem loadPlayerActors_of_valid_player (K : FRotationMath) (S : UEMSPluginSettings)
    (w : UWorld) (m : UEMSObject) (h : HasValidPlayer w = true) :
    (LoadPlayerActors K S w m).isSome = true := by
  unfold LoadPlayerActors
  apply loadPlayerState_of_controller
  rw [loadPlayerPawn_playerController, loadPlayerController_isSome]
  exact playerController_of_hasValidPlayer w h

/-- What a call of `DeferredLoadActors` leaves scheduled: itself, with the
activity flag untouched, or the completion, after `FinishLoading`. -/
theorem deferredLoadActors_next (S : UEMSPluginSettings) (w : UWorld) (m : UEMSObject)
    (t : UEMSAsyncLoadGame) :
    ((DeferredLoadActors S w m t).2.NextTick = some ELoadStep.CompleteLoadingTask
      ∧ (DeferredLoadActors S w m t).2.bIsActive = false)
    ∨ ((DeferredLoadActors S w m t).2.NextTick = some ELoadStep.DeferredLoadActors
      ∧ (DeferredLoadActors S w m t).2.bIsActive = t.bIsActive) := by
  by_cases h : t.LoadedActorNum < t.SavedActors.length
  · have hb := deferredLoadActors_batch S w m t h
    exact Or.inr ⟨hb.2.2.2.1, hb.2.2.2.2⟩
  · rw [deferredLoadActors_finish S w m t (Nat.le_of_not_lt h)]
    exact Or.inl ⟨rfl, rfl⟩

theorem loadActorFromBinary_threads (w : UWorld) (i : Nat) (d : FGameObjectSaveData) :
    (LoadActorFromBinary w i d).bSupportsMultithreading = w.bSupportsMultithreading := by
  unfold LoadActorFromBinary
  cases w.Actors[i]? <;> rfl

theorem loadScriptsInto_threads (i : Nat) (ScriptName : FName) :
    ∀ (l : List FLevelScriptSaveData) (w : UWorld),
      (LoadScriptsInto w i ScriptName l).bSupportsMultithreading
        = w.bSupportsMultithreading := by
  intro l
  induction l with
  | nil => intro w; rfl
  | cons x rest ih =>
    intro w
    unfold LoadScriptsInto
    split
    · rw [ih, loadActorFromBinary_threads]
    · exact ih w

theorem loadLevelScriptStep_threads (SavedScripts : List FLevelScriptSaveData) (w : UWorld)
    (p : Option Nat) :
    (LoadLevelScriptStep SavedScripts w p).bSupportsMultithreading
      = w.bSupportsMultithreading := by
  unfold LoadLevelScriptStep
  repeat' split
  all_goals first | rfl | exact loadScriptsInto_threads _ _ _ _

theorem loadSingleton_threads (w : UWorld) (p : Option Nat) (Saved : FGameObjectSaveData) :
    (LoadSingleton w p Saved).bSupportsMultithreading = w.bSupportsMultithreading := by
  unfold LoadSingleton
  repeat' split
  all_goals first | rfl | exact loadActorFromBinary_threads _ _ _

theorem loadLevelSingletons_threads (w : UWorld) (m : UEMSObject) :
    (LoadLevelSingletons w m).bSupportsMultithreading = w.bSupportsMultithreading := by
  have hfold : ∀ (l : List (Option Nat)) (v : UWorld),
      (l.foldl (LoadLevelScriptStep m.SavedScripts) v).bSupportsMultithreading
        = v.bSupportsMultithreading := by
    intro l
    induction l with
    | nil => intro v; rfl
    | cons p rest ih =>
      intro v
      rw [List.foldl_cons, ih, loadLevelScriptStep_threads]
  unfold LoadLevelSingletons
  dsimp only
  rw [loadSingleton_threads, loadSingleton_threads]
  split
  · exact hfold _ _
  · rfl

/-- What `StartLoadLevelActors` leaves scheduled when it stays on the game
thread. -/
theorem startLoadLevelActors_next (S : UEMSPluginSettings) (w : UWorld) (m : UEMSObject)
    (t : UEMSAsyncLoadGame)
    (hth : S.LoadMethod ≠ ELoadMethod.LM_Thread ∨ w.bSupportsMultithreading = false) :
    ∃ x, StartLoadLevelActors S w m t = some x
      ∧ ((x.2.2.NextTick = some ELoadStep.CompleteLoadingTask ∧ x.2.2.bIsActive = false)
        ∨ (x.2.2.NextTick = some ELoadStep.DeferredLoadActors
          ∧ x.2.2.bIsActive = t.bIsActive)) := by
  unfold StartLoadLevelActors
  by_cases h0 : m.SavedActors.length ≤ 0
  · rw [if_pos h0]
    exact ⟨_, rfl, Or.inl ⟨rfl, rfl⟩⟩
  · rw [if_neg h0]
    dsimp only
    by_cases hT : S.LoadMethod = ELoadMethod.LM_Thread
    · have hs : w.bSupportsMultithreading = false := by
        rcases hth with h | h
        · exact absurd hT h
        · exact h
      rw [if_pos hT, hs]
      exact ⟨_, rfl, deferredLoadActors_next S w _ _⟩
    · rw [if_neg hT]
      by_cases hD : S.LoadMethod = ELoadMethod.LM_Deferred
      · rw [if_pos hD]
        exact ⟨_, rfl, deferredLoadActors_next S w _ _⟩
      · rw [if_neg hD]
        exact ⟨_, rfl, Or.inl ⟨rfl, rfl⟩⟩

/-- What `LoadLevelActors` leaves scheduled when it stays on the game
thread. -/
theorem loadLevelActors_next (S : UEMSPluginSettings) (w : UWorld) (m : UEMSObject)
    (t : UEMSAsyncLoadGame)
    (hth : S.LoadMethod ≠ ELoadMethod.LM_Thread ∨ w.bSupportsMultithreading = false) :
    ∃ x, LoadLevelActors S w m t = some x
      ∧ ((x.2.2.NextTick = some ELoadStep.CompleteLoadingTask ∧ x.2.2.bIsActive = false)
        ∨ (x.2.2.NextTick = some ELoadStep.DeferredLoadActors
          ∧ x.2.2.bIsActive = t.bIsActive)) := by
  unfold LoadLevelActors
  apply startLoadLevelActors_next
  rw [loadLevelSingletons_threads]
  exact hth

/-- C27: the steps of the load task follow one another in the order Activate,
StartLoading, LoadPlayer, LoadLevel, FinishLoading, CompleteLoadingTask.
Activate schedules StartLoading, and StartLoading schedules LoadPlayer.
LoadPlayer with the player flag set and no valid player pawn leaves world,
manager and task as they are, whatever the files hold, and stays scheduled;
otherwise it returns and schedules LoadLevel. LoadLevel with the level flag
set and no valid game mode likewise leaves everything as it is and stays
scheduled; otherwise, on the game thread, it ends in FinishLoading (activity
flag cleared, CompleteLoadingTask scheduled) or hands over to the deferred
batches, which do the same. The activity flag is untouched by every step that
does not run FinishLoading. -/
theorem C27_load_steps_run_in_order (K : FRotationMath) (Ar : FArchive)
    (Z : FCompressedProxy) (S : UEMSPluginSettings) (P : FPaths) (fs : FFileSystem)
    (st : FLoadGameState) :
    ((Activate st).LoadTask.NextTick = some ELoadStep.StartLoading
      ∧ (Activate st).LoadTask.bIsActive = st.LoadTask.bIsActive)
    ∧ (st.LoadTask.NextTick = some ELoadStep.StartLoading →
        LoadTaskTick K Ar Z S P fs st
          = some { st with
              LoadTask := { st.LoadTask with NextTick := some ELoadStep.LoadPlayer } })
    ∧ (st.LoadTask.NextTick = some ELoadStep.LoadPlayer →
        st.LoadTask.Data &&& ENUM_TO_FLAG LF_Player ≠ 0 →
        HasValidPlayer st.World = false →
        LoadTaskTick K Ar Z S P fs st = some st)
    ∧ (st.LoadTask.NextTick = some ELoadStep.LoadPlayer →
        st.LoadTask.Data &&& ENUM_TO_FLAG LF_Player = 0 ∨ HasValidPlayer st.World = true →
        ∃ st1, LoadTaskTick K Ar Z S P fs st = some st1
          ∧ st1.LoadTask = { st.LoadTask with NextTick := some ELoadStep.LoadLevel })
    ∧ (st.LoadTask.NextTick = some ELoadStep.LoadLevel →
        st.LoadTask.Data &&& ENUM_TO_FLAG LF_Level ≠ 0 →
        HasValidGameMode st.World = false →
        LoadTaskTick K Ar Z S P fs st = some st)
    ∧ (st.LoadTask.NextTick = some ELoadStep.LoadLevel →
        st.LoadTask.Data &&& ENUM_TO_FLAG LF_Level = 0 ∨ HasValidGameMode st.World = true →
        S.LoadMethod ≠ ELoadMethod.LM_Thread ∨ st.World.bSupportsMultithreading = false →
        ∃ st1, LoadTaskTick K Ar Z S P fs st = some st1
          ∧ ((st1.LoadTask.NextTick = some ELoadStep.CompleteLoadingTask
              ∧ st1.LoadTask.bIsActive = false)
            ∨ (st1.LoadTask.NextTick = some ELoadStep.DeferredLoadActors
              ∧ st1.LoadTask.bIsActive = st.LoadTask.bIsActive)))
    ∧ (st.LoadTask.NextTick = some ELoadStep.DeferredLoadActors →
        ∃ st1, LoadTaskTick K Ar Z S P fs st = some st1
          ∧ ((st1.LoadTask.NextTick = some ELoadStep.CompleteLoadingTask
              ∧ st1.LoadTask.bIsActive = false)
            ∨ (st1.LoadTask.NextTick = some ELoadStep.DeferredLoadActors
              ∧ st1.LoadTask.bIsActive = st.LoadTask.bIsActive)))
    ∧ (st.LoadTask.NextTick = some ELoadStep.CompleteLoadingTask →
        LoadTaskTick K Ar Z S P fs st
          = some { st with LoadTask := { st.LoadTask with NextTick := none } }) := by
  have hself : ∀ (s : ELoadStep), st.LoadTask.NextTick = some s →
      ({ st with LoadTask := { st.LoadTask with NextTick := some s } } : FLoadGameState) = st := by
    intro s hs
    obtain ⟨w, m, t⟩ := st
    obtain ⟨d, mo, fr, act, ok, num, sa, nt⟩ := t
    simp only at hs
    subst hs
    rfl
  refine ⟨⟨rfl, rfl⟩, ?_, ?_, ?_, ?_, ?_, ?_, ?_⟩
  · intro hn
    unfold LoadTaskTick
    rw [hn]
    rfl
  · intro hn hflag hv
    unfold LoadTaskTick
    rw [hn]
    dsimp only
    unfold LoadPlayer
    rw [if_pos hflag, hv]
    simp only [Bool.not_false, if_true]
    rw [hself _ hn]
  · intro hn hcase
    unfold LoadTaskTick
    rw [hn]
    dsimp only
    unfold LoadPlayer
    by_cases hflag : st.LoadTask.Data &&& ENUM_TO_FLAG LF_Player ≠ 0
    · have hv : HasValidPlayer st.World = true := by
        rcases hcase with h | h
        · exact absurd h hflag
        · exact h
      rw [if_pos hflag, hv]
      simp only [Bool.not_true, Bool.false_eq_true, if_false]
      by_cases hr : (TryLoadPlayerFile Ar Z S P st.World fs st.EMS).bSuccess = true
      · rw [if_pos hr]
        have hsome := loadPlayerActors_of_valid_player K S st.World
          (TryLoadPlayerFile Ar Z S P st.World fs st.EMS).Manager hv
        cases hl : LoadPlayerActors K S st.World
            (TryLoadPlayerFile Ar Z S P st.World fs st.EMS).Manager with
        | none => rw [hl] at hsome; exact absurd hsome (by simp)
        | some w1 => exact ⟨_, rfl, rfl⟩
      · rw [if_neg hr]
        exact ⟨_, rfl, rfl⟩
    · rw [if_neg hflag]
      exact ⟨_, rfl, rfl⟩
  · intro hn hflag hv
    unfold LoadTaskTick
    rw [hn]
    dsimp only
    unfold LoadLevel
    rw [if_pos hflag, hv]
    simp only [Bool.not_false, if_true]
    rw [hself _ hn]
  · intro hn hcase hth
    unfold LoadTaskTick
    rw [hn]
    dsimp only
    unfold LoadLevel
    by_cases hflag : st.LoadTask.Data &&& ENUM_TO_FLAG LF_Level ≠ 0
    · have hv : HasValidGameMode st.World = true := by
        rcases hcase with h | h
        · exact absurd h hflag
        · exact h
      rw [if_pos hflag, hv]
      simp only [Bool.not_true, Bool.false_eq_true, if_false]
      by_cases hr : (TryLoadLevelFile Ar Z S P st.World fs st.EMS).bSuccess = true
      · rw [if_pos hr]
        obtain ⟨x, hx, hnext⟩ := loadLevelActors_next S st.World
          (TryLoadLevelFile Ar Z S P st.World fs st.EMS).Manager st.LoadTask hth
        rw [hx]
        exact ⟨_, rfl, hnext⟩
      · rw [if_neg hr]
        exact ⟨_, rfl, Or.inl ⟨rfl, rfl⟩⟩
    · rw [if_neg hflag]
      exact ⟨_, rfl, Or.inl ⟨rfl, rfl⟩⟩
  · intro hn
    unfold LoadTaskTick
    rw [hn]
    exact ⟨_, rfl, deferredLoadActors_next S st.World st.EMS st.LoadTask⟩
  · intro hn
    unfold LoadTaskTick
    rw [hn]
    rfl

/-- C27 at a task for player and level: in the world without a player pawn
the tick of LoadPlayer changes nothing and LoadPlayer stays scheduled; in the
world with a player and without a game mode the tick of LoadLevel changes
nothing and LoadLevel stays scheduled. -/
theorem C27_load_steps_run_in_order_witness :
    (HasValidPlayer WaitingForPlayer.World = false
      ∧ LoadTaskTick SampleRotationMath SampleArchive SampleProxy {} {} {} WaitingForPlayer
          = some WaitingForPlayer)
    ∧ (HasValidGameMode WaitingForGameMode.World = false
      ∧ LoadTaskTick SampleRotationMath SampleArchive SampleProxy {} {} {} WaitingForGameMode
          = some WaitingForGameMode) :=
  ⟨⟨by decide,
    (C27_load_steps_run_in_order SampleRotationMath SampleArchive SampleProxy {} {} {}
      WaitingForPlayer).2.2.1 rfl (by decide) (by decide)⟩,
   ⟨by decide,
    (C27_load_steps_run_in_order SampleRotationMath SampleArchive SampleProxy {} {} {}
      WaitingForGameMode).2.2.2.2.1 rfl (by decide) (by decide)⟩⟩

/-! ### Struct property serialization -/

theorem setPropertyFlags_iff (F : FPropertyFlags) (q p : Nat) :
    SetPropertyFlags F q p = true ↔ (F p = true ∨ p = q) := by
  unfold SetPropertyFlags
  by_cases h : p = q
  · simp [h]
  · simp [h]

theorem foldlM_flags {α : Type} (f : FPropertyFlags → α → Option FPropertyFlags)
    (C : α → Nat → Prop) :
    ∀ (l : List α),
      (∀ a ∈ l, ∀ F, ∃ F1, f F a = some F1 ∧ ∀ p, F1 p = true ↔ (F p = true ∨ C a p)) →
      ∀ F, ∃ F1, l.foldlM f F = some F1
        ∧ ∀ p, F1 p = true ↔ (F p = true ∨ ∃ a ∈ l, C a p) := by
  intro l
  induction l with
  | nil =>
    intro _ F
    exact ⟨F, rfl, fun p => by simp⟩
  | cons a rest ih =>
    intro hf F
    obtain ⟨F1, h1, e1⟩ := hf a (List.mem_cons_self _ _) F
    obtain ⟨F2, h2, e2⟩ := ih (fun b hb => hf b (List.mem_cons_of_mem _ hb)) F1
    refine ⟨F2, ?_, ?_⟩
    · rw [List.foldlM_cons, h1]
      exact h2
    · intro p
      rw [e2 p, e1 p]
      constructor
      · rintro ((h | h) | ⟨b, hb, h⟩)
        · exact Or.inl h
        · exact Or.inr ⟨a, List.mem_cons_self _ _, h⟩
        · exact Or.inr ⟨b, List.mem_cons_of_mem _ hb, h⟩
      · rintro (h | ⟨b, hb, h⟩)
        · exact Or.inl (Or.inl h)
        · rcases List.mem_cons.mp hb with rfl | hb
          · exact Or.inl (Or.inr h)
          · exact Or.inr ⟨b, hb, h⟩

theorem serializeScriptStruct_null (G : FTypeGraph) (fuel : Nat) (F : FPropertyFlags) :
    SerializeScriptStruct G fuel none F = some F := by
  cases fuel <;> rfl

/-- `SerializeArrayStruct` over a recursion that does what it should on the
structs below. -/
theorem serializeArrayStruct_spec (G : FTypeGraph)
    (R : Option Nat → FPropertyFlags → Option FPropertyFlags) (ok : Nat → Prop)
    (hR : ∀ St F, (∀ t, St = some t → ok t) →
      ∃ F1, R St F = some F1
        ∧ ∀ p, F1 p = true ↔ (F p = true ∨ ∃ t, St = some t ∧ MarkedFrom G t p))
    (Inner : Option Nat) (F : FPropertyFlags)
    (hok : ∀ i t, Inner = some i → G.Kind i = EPropertyKind.Struct (some t) → ok t) :
    ∃ F1, SerializeArrayStruct G R Inner F = some F1
      ∧ ∀ p, F1 p = true ↔ (F p = true
          ∨ ∃ i t, Inner = some i ∧ G.Kind i = EPropertyKind.Struct (some t)
              ∧ MarkedFrom G t p) := by
  unfold SerializeArrayStruct
  cases Inner with
  | none => exact ⟨F, rfl, fun p => by simp⟩
  | some i =>
    dsimp only
    cases hk : G.Kind i with
    | Other => exact ⟨F, rfl, fun p => by simp [hk]⟩
    | Array x => exact ⟨F, rfl, fun p => by simp [hk]⟩
    | Map x y => exact ⟨F, rfl, fun p => by simp [hk]⟩
    | Struct St =>
      obtain ⟨F1, h1, e1⟩ := hR St F (fun t ht => hok i t rfl (by rw [hk, ht]))
      refine ⟨F1, h1, fun p => ?_⟩
      rw [e1 p]
      constructor
      · rintro (h | ⟨t, ht, hm⟩)
        · exact Or.inl h
        · exact Or.inr ⟨i, t, rfl, by rw [hk, ht], hm⟩
      · rintro (h | ⟨j, t, hj, ht, hm⟩)
        · exact Or.inl h
        · cases hj
          exact Or.inr ⟨t, by simpa using hk.symm.trans ht, hm⟩

/-- `SerializeMap` over a recursion that does what it should on the structs
below. -/
theorem serializeMap_spec (G : FTypeGraph)
    (R : Option Nat → FPropertyFlags → Option FPropertyFlags) (ok : Nat → Prop)
    (hR : ∀ St F, (∀ t, St = some t → ok t) →
      ∃ F1, R St F = some F1
        ∧ ∀ p, F1 p = true ↔ (F p = true ∨ ∃ t, St = some t ∧ MarkedFrom G t p))
    (ValueProp : Option Nat) (F : FPropertyFlags)
    (hok : ∀ v t, ValueProp = some v → G.Kind v = EPropertyKind.Struct (some t) → ok t) :
    ∃ F1, SerializeMap G R ValueProp F = some F1
      ∧ ∀ p, F1 p = true ↔ (F p = true
          ∨ ∃ v, ValueProp = some v
              ∧ (p = v ∨ ∃ t, G.Kind v = EPropertyKind.Struct (some t)
                  ∧ MarkedFrom G t p)) := by
  unfold SerializeMap
  cases ValueProp with
  | none => exact ⟨F, rfl, fun p => by simp⟩
  | some v =>
    have hplain : ∀ p, SetPropertyFlags F v p = true ↔ (F p = true ∨ p = v) :=
      setPropertyFlags_iff F v
    dsimp only
    cases hk : G.Kind v with
    | Other =>
      refine ⟨SetPropertyFlags F v, rfl, fun p => ?_⟩
      rw [hplain p]
      simp [hk]
    | Array x =>
      refine ⟨SetPropertyFlags F v, rfl, fun p => ?_⟩
      rw [hplain p]
      simp [hk]
    | Map x y =>
      refine ⟨SetPropertyFlags F v, rfl, fun p => ?_⟩
      rw [hplain p]
      simp [hk]
    | Struct St =>
      obtain ⟨F1, h1, e1⟩ := hR St (SetPropertyFlags F v)
        (fun t ht => hok v t rfl (by rw [hk, ht]))
      refine ⟨F1, h1, fun p => ?_⟩
      rw [e1 p, hplain p]
      constructor
      · rintro ((h | h) | ⟨t, ht, hm⟩)
        · exact Or.inl h
        · exact Or.inr ⟨v, rfl, Or.inl h⟩
        · exact Or.inr ⟨v, rfl, Or.inr ⟨t, by rw [hk, ht], hm⟩⟩
      · rintro (h | ⟨u, hu, h | ⟨t, ht, hm⟩⟩)
        · exact Or.inl (Or.inl h)
        · cases hu
          exact Or.inl (Or.inr h)
        · cases hu
          exact Or.inr ⟨t, by simpa using hk.symm.trans ht, hm⟩

theorem expandsTo_other (G : FTypeGraph) (t : Nat) :
    ¬ ExpandsTo G EPropertyKind.Other t := by
  intro h
  cases h

theorem expandsTo_struct_iff (G : FTypeGraph) (St : Option Nat) (t : Nat) :
    ExpandsTo G (EPropertyKind.Struct St) t ↔ St = some t := by
  constructor
  · intro h
    cases h
    rfl
  · intro h
    rw [h]
    exact ExpandsTo.ofStruct t

theorem expandsTo_array_iff (G : FTypeGraph) (Inner : Option Nat) (t : Nat) :
    ExpandsTo G (EPropertyKind.Array Inner) t
      ↔ ∃ i, Inner = some i ∧ G.Kind i = EPropertyKind.Struct (some t) := by
  constructor
  · intro h
    cases h with
    | ofArray i s hi => exact ⟨i, rfl, hi⟩
  · rintro ⟨i, hi, hk⟩
    rw [hi]
    exact ExpandsTo.ofArray i t hk

theorem expandsTo_map_iff (G : FTypeGraph) (k ValueProp : Option Nat) (t : Nat) :
    ExpandsTo G (EPropertyKind.Map k ValueProp) t
      ↔ ∃ v, ValueProp = some v ∧ G.Kind v = EPropertyKind.Struct (some t) := by
  constructor
  · intro h
    cases h with
    | ofMap k v s hv => exact ⟨v, rfl, hv⟩
  · rintro ⟨v, hv, hk⟩
    rw [hv]
    exact ExpandsTo.ofMap k v t hk

/-- The body of the loop of `SerializeScriptStruct` over a recursion that does
what it should on the structs below. -/
theorem serializeProperty_spec (G : FTypeGraph)
    (R : Option Nat → FPropertyFlags → Option FPropertyFlags) (ok : Nat → Prop)
    (hR : ∀ St F, (∀ t, St = some t → ok t) →
      ∃ F1, R St F = some F1
        ∧ ∀ p, F1 p = true ↔ (F p = true ∨ ∃ t, St = some t ∧ MarkedFrom G t p))
    (q : Nat) (F : FPropertyFlags) (hok : ∀ t, ExpandsTo G (G.Kind q) t → ok t) :
    ∃ F1, SerializeProperty G R F q = some F1
      ∧ ∀ p, F1 p = true ↔ (F p = true
          ∨ (p = q ∨ (∃ k, G.Kind q = EPropertyKind.Map k (some p))
            ∨ ∃ t, ExpandsTo G (G.Kind q) t ∧ MarkedFrom G t p)) := by
  have hplain : ∀ p, SetPropertyFlags F q p = true ↔ (F p = true ∨ p = q) :=
    setPropertyFlags_iff F q
  unfold SerializeProperty
  dsimp only
  revert hok
  cases G.Kind q with
  | Other =>
    intro _
    refine ⟨SetPropertyFlags F q, rfl, fun p => ?_⟩
    rw [hplain p]
    constructor
    · rintro (h | h)
      · exact Or.inl h
      · exact Or.inr (Or.inl h)
    · rintro (h | h | ⟨k, hk⟩ | ⟨t, ht, _⟩)
      · exact Or.inl h
      · exact Or.inr h
      · cases hk
      · exact absurd ht (expandsTo_other G t)
  | Struct St =>
    intro hok
    obtain ⟨F1, h1, e1⟩ := hR St (SetPropertyFlags F q)
      (fun t ht => hok t ((expandsTo_struct_iff G St t).mpr ht))
    refine ⟨F1, h1, fun p => ?_⟩
    rw [e1 p, hplain p]
    constructor
    · rintro ((h | h) | ⟨t, ht, hm⟩)
      · exact Or.inl h
      · exact Or.inr (Or.inl h)
      · exact Or.inr (Or.inr (Or.inr ⟨t, (expandsTo_struct_iff G St t).mpr ht, hm⟩))
    · rintro (h | h | ⟨k, hk⟩ | ⟨t, ht, hm⟩)
      · exact Or.inl (Or.inl h)
      · exact Or.inl (Or.inr h)
      · cases hk
      · exact Or.inr ⟨t, (expandsTo_struct_iff G St t).mp ht, hm⟩
  | Array Inner =>
    intro hok
    obtain ⟨F1, h1, e1⟩ := serializeArrayStruct_spec G R ok hR Inner (SetPropertyFlags F q)
      (fun i t hi hk => hok t ((expandsTo_array_iff G Inner t).mpr ⟨i, hi, hk⟩))
    refine ⟨F1, h1, fun p => ?_⟩
    rw [e1 p, hplain p]
    constructor
    · rintro ((h | h) | ⟨i, t, hi, hk, hm⟩)
      · exact Or.inl h
      · exact Or.inr (Or.inl h)
      · exact Or.inr (Or.inr (Or.inr
          ⟨t, (expandsTo_array_iff G Inner t).mpr ⟨i, hi, hk⟩, hm⟩))
    · rintro (h | h | ⟨k, hk⟩ | ⟨t, ht, hm⟩)
      · exact Or.inl (Or.inl h)
      · exact Or.inl (Or.inr h)
      · cases hk
      · obtain ⟨i, hi, hk⟩ := (expandsTo_array_iff G Inner t).mp ht
        exact Or.inr ⟨i, t, hi, hk, hm⟩
  | Map k ValueProp =>
    intro hok
    obtain ⟨F1, h1, e1⟩ := serializeMap_spec G R ok hR ValueProp (SetPropertyFlags F q)
      (fun v t hv hk => hok t ((expandsTo_map_iff G k ValueProp t).mpr ⟨v, hv, hk⟩))
    refine ⟨F1, h1, fun p => ?_⟩
    rw [e1 p, hplain p]
    constructor
    · rintro ((h | h) | ⟨v, hv, h | ⟨t, hk, hm⟩⟩)
      · exact Or.inl h
      · exact Or.inr (Or.inl h)
      · exact Or.inr (Or.inr (Or.inl ⟨k, by rw [hv, h]⟩))
      · exact Or.inr (Or.inr (Or.inr
          ⟨t, (expandsTo_map_iff G k ValueProp t).mpr ⟨v, hv, hk⟩, hm⟩))
    · rintro (h | h | ⟨k2, hk⟩ | ⟨t, ht, hm⟩)
      · exact Or.inl (Or.inl h)
      · exact Or.inl (Or.inr h)
      · cases hk
        exact Or.inr ⟨p, rfl, Or.inl rfl⟩
      · obtain ⟨v, hv, hk⟩ := (expandsTo_map_iff G k ValueProp t).mp ht
        exact Or.inr ⟨v, hv, Or.inr ⟨t, hk, hm⟩⟩

theorem reachFrom_snoc (G : FTypeGraph) (a s q t : Nat) (hr : ReachFrom G a s)
    (hq : q ∈ G.StructProps s) (hE : ExpandsTo G (G.Kind q) t) : ReachFrom G a t := by
  induction hr with
  | refl s => exact ReachFrom.step s q t t hq hE (ReachFrom.refl t)
  | step s0 q0 t0 u hq0 hE0 _ ih => exact ReachFrom.step s0 q0 t0 t hq0 hE0 (ih hq)

/-- What the properties of a struct contribute is what the expansion of the
struct marks. -/
theorem markedFrom_iff (G : FTypeGraph) (s p : Nat) :
    (∃ q ∈ G.StructProps s, p = q ∨ (∃ k, G.Kind q = EPropertyKind.Map k (some p))
        ∨ ∃ t, ExpandsTo G (G.Kind q) t ∧ MarkedFrom G t p)
      ↔ MarkedFrom G s p := by
  constructor
  · rintro ⟨q, hq, h | ⟨k, hk⟩ | ⟨t, ht, u, hr, hm⟩⟩
    · exact ⟨s, ReachFrom.refl s, Or.inl (by rw [h]; exact hq)⟩
    · exact ⟨s, ReachFrom.refl s, Or.inr ⟨q, hq, k, hk⟩⟩
    · exact ⟨u, ReachFrom.step s q t u hq ht hr, hm⟩
  · rintro ⟨u, hr, hm⟩
    cases hr with
    | refl =>
      rcases hm with h | ⟨q, hq, k, hk⟩
      · exact ⟨p, h, Or.inl rfl⟩
      · exact ⟨q, hq, Or.inr (Or.inl ⟨k, hk⟩)⟩
    | step _ q t _ hq hE hr => exact ⟨q, hq, Or.inr (Or.inr ⟨t, hE, u, hr, hm⟩)⟩

/-- With a rank that falls along every expansion, `SerializeScriptStruct`
returns as soon as the bound exceeds the rank of the struct, and it sets the
flag of exactly the properties the expansion of the struct marks. -/
theorem serializeScriptStruct_spec (G : FTypeGraph) (rank : Nat → Nat)
    (hrank : ∀ s q t, q ∈ G.StructProps s → ExpandsTo G (G.Kind q) t → rank t < rank s) :
    ∀ (fuel : Nat) (St : Option Nat) (F : FPropertyFlags),
      (∀ t, St = some t → rank t < fuel) →
      ∃ F1, SerializeScriptStruct G fuel St F = some F1
        ∧ ∀ p, F1 p = true ↔ (F p = true ∨ ∃ t, St = some t ∧ MarkedFrom G t p) := by
  intro fuel
  induction fuel with
  | zero =>
    intro St F h
    cases St with
    | none => exact ⟨F, rfl, fun p => by simp⟩
    | some s => exact absurd (h s rfl) (Nat.not_lt_zero _)
  | succ n ih =>
    intro St F h
    cases St with
    | none => exact ⟨F, rfl, fun p => by simp⟩
    | some s =>
      have hs : rank s < n + 1 := h s rfl
      obtain ⟨F1, h1, e1⟩ := foldlM_flags (SerializeProperty G (SerializeScriptStruct G n))
        (fun q p => p = q ∨ (∃ k, G.Kind q = EPropertyKind.Map k (some p))
          ∨ ∃ t, ExpandsTo G (G.Kind q) t ∧ MarkedFrom G t p)
        (G.StructProps s)
        (fun q hq F0 => serializeProperty_spec G (SerializeScriptStruct G n)
          (fun t => rank t < n) (fun St0 F2 hSt => ih St0 F2 hSt) q F0
          (fun t ht => by
            have := hrank s q t hq ht
            omega))
        F
      refine ⟨F1, h1, fun p => ?_⟩
      rw [e1 p, markedFrom_iff G s p]
      constructor
      · rintro (h | h)
        · exact Or.inl h
        · exact Or.inr ⟨s, rfl, h⟩
      · rintro (h | ⟨t, ht, hm⟩)
        · exact Or.inl h
        · cases ht
          exact Or.inr hm

theorem expanded_of_reach (G : FTypeGraph) (Class : List FClassProperty) (r u : Nat)
    (hr : ReachFrom G r u) : Expanded G Class r → Expanded G Class u := by
  induction hr with
  | refl s => exact fun h => h
  | step s q t u hq hE _ ih => exact fun h => ih (Expanded.child s q t h hq hE)

theorem expanded_iff (G : FTypeGraph) (Class : List FClassProperty) (u : Nat) :
    Expanded G Class u
      ↔ ∃ P ∈ Class, P.bSaveGame = true ∧ ∃ r, ExpandsTo G P.Kind r ∧ ReachFrom G r u := by
  constructor
  · intro h
    induction h with
    | root P s hP hF hE => exact ⟨P, hP, hF, s, hE, ReachFrom.refl s⟩
    | child s q t _ hq hE ih =>
      obtain ⟨P, hP, hF, r, hr, hreach⟩ := ih
      exact ⟨P, hP, hF, r, hr, reachFrom_snoc G r s q t hreach hq hE⟩
  · rintro ⟨P, hP, hF, r, hr, hreach⟩
    exact expanded_of_reach G Class r u hreach (Expanded.root P r hP hF hr)

/-- The marked set, told from the flagged properties of the class. -/
theorem marked_iff (G : FTypeGraph) (Class : List FClassProperty) (p : Nat) :
    Marked G Class p
      ↔ ∃ P ∈ Class, P.bSaveGame = true
          ∧ ((∃ k, P.Kind = EPropertyKind.Map k (some p))
            ∨ ∃ r, ExpandsTo G P.Kind r ∧ MarkedFrom G r p) := by
  constructor
  · intro h
    cases h with
    | member s _ hs hp =>
      obtain ⟨P, hP, hF, r, hr, hreach⟩ := (expanded_iff G Class s).mp hs
      exact ⟨P, hP, hF, Or.inr ⟨r, hr, s, hreach, Or.inl hp⟩⟩
    | rootValue P k _ hP hF hK => exact ⟨P, hP, hF, Or.inl ⟨k, hK⟩⟩
    | memberValue s q k _ hs hq hK =>
      obtain ⟨P, hP, hF, r, hr, hreach⟩ := (expanded_iff G Class s).mp hs
      exact ⟨P, hP, hF, Or.inr ⟨r, hr, s, hreach, Or.inr ⟨q, hq, k, hK⟩⟩⟩
  · rintro ⟨P, hP, hF, ⟨k, hK⟩ | ⟨r, hr, u, hreach, hm⟩⟩
    · exact Marked.rootValue P k p hP hF hK
    · have hu : Expanded G Class u :=
        (expanded_iff G Class u).mpr ⟨P, hP, hF, r, hr, hreach⟩
      rcases hm with hp | ⟨q, hq, k, hK⟩
      · exact Marked.member u p hu hp
      · exact Marked.memberValue u q k p hu hq hK

/-- The three loops of `SerializeStructProperties`, one after the other:
with a rank below the bound that falls along every expansion the pass
returns, and it sets the flag of exactly the marked properties. -/
theorem serializeStructProperties_spec (G : FTypeGraph) (rank : Nat → Nat) (N : Nat)
    (hN : ∀ s, rank s < N)
    (hrank : ∀ s q t, q ∈ G.StructProps s → ExpandsTo G (G.Kind q) t → rank t < rank s)
    (Class : List FClassProperty) (F : FPropertyFlags) :
    ∃ F1, SerializeStructProperties G N Class F = some F1
      ∧ ∀ p, F1 p = true ↔ (F p = true ∨ Marked G Class p) := by
  have hR : ∀ (St : Option Nat) (F0 : FPropertyFlags), (∀ t, St = some t → True) →
      ∃ F1, SerializeScriptStruct G N St F0 = some F1
        ∧ ∀ p, F1 p = true ↔ (F0 p = true ∨ ∃ t, St = some t ∧ MarkedFrom G t p) :=
    fun St F0 _ => serializeScriptStruct_spec G rank hrank N St F0 (fun t _ => hN t)
  have h1 : ∀ P ∈ Class, ∀ F0, ∃ F1, StructPassStep G N F0 P = some F1
      ∧ ∀ p, F1 p = true ↔ (F0 p = true
          ∨ (P.bSaveGame = true ∧ ∃ St, P.Kind = EPropertyKind.Struct St
              ∧ ∃ t, ExpandsTo G P.Kind t ∧ MarkedFrom G t p)) := by
    intro P _ F0
    unfold StructPassStep
    cases hk : P.Kind with
    | Other => exact ⟨F0, rfl, fun p => by simp⟩
    | Array x => exact ⟨F0, rfl, fun p => by simp⟩
    | Map x y => exact ⟨F0, rfl, fun p => by simp⟩
    | Struct St =>
      by_cases hF : P.bSaveGame = true
      · obtain ⟨F1, e1, i1⟩ := hR St F0 (fun _ _ => trivial)
        refine ⟨F1, by simp only [hF, if_true]; exact e1, fun p => ?_⟩
        rw [i1 p]
        constructor
        · rintro (h | ⟨t, ht, hm⟩)
          · exact Or.inl h
          · exact Or.inr ⟨hF, St, rfl, t, (expandsTo_struct_iff G St t).mpr ht, hm⟩
        · rintro (h | ⟨_, _, _, t, ht, hm⟩)
          · exact Or.inl h
          · exact Or.inr ⟨t, (expandsTo_struct_iff G St t).mp ht, hm⟩
      · refine ⟨F0, by simp only [hF]; rfl, fun p => ?_⟩
        simp [hF]
  have h2 : ∀ P ∈ Class, ∀ F0, ∃ F1, ArrayPassStep G N F0 P = some F1
      ∧ ∀ p, F1 p = true ↔ (F0 p = true
          ∨ (P.bSaveGame = true ∧ ∃ Inner, P.Kind = EPropertyKind.Array Inner
              ∧ ∃ t, ExpandsTo G P.Kind t ∧ MarkedFrom G t p)) := by
    intro P _ F0
    unfold ArrayPassStep
    cases hk : P.Kind with
    | Other => exact ⟨F0, rfl, fun p => by simp⟩
    | Struct x => exact ⟨F0, rfl, fun p => by simp⟩
    | Map x y => exact ⟨F0, rfl, fun p => by simp⟩
    | Array Inner =>
      by_cases hF : P.bSaveGame = true
      · obtain ⟨F1, e1, i1⟩ := serializeArrayStruct_spec G (SerializeScriptStruct G N)
          (fun _ => True) hR Inner F0 (fun _ _ _ _ => trivial)
        refine ⟨F1, by simp only [hF, if_true]; exact e1, fun p => ?_⟩
        rw [i1 p]
        constructor
        · rintro (h | ⟨i, t, hi, hki, hm⟩)
          · exact Or.inl h
          · exact Or.inr ⟨hF, Inner, rfl, t,
              (expandsTo_array_iff G Inner t).mpr ⟨i, hi, hki⟩, hm⟩
        · rintro (h | ⟨_, _, _, t, ht, hm⟩)
          · exact Or.inl h
          · obtain ⟨i, hi, hki⟩ := (expandsTo_array_iff G Inner t).mp ht
            exact Or.inr ⟨i, t, hi, hki, hm⟩
      · refine ⟨F0, by simp only [hF]; rfl, fun p => ?_⟩
        simp [hF]
  have h3 : ∀ P ∈ Class, ∀ F0, ∃ F1, MapPassStep G N F0 P = some F1
      ∧ ∀ p, F1 p = true ↔ (F0 p = true
          ∨ (P.bSaveGame = true ∧ ∃ k V, P.Kind = EPropertyKind.Map k V
              ∧ (V = some p ∨ ∃ t, ExpandsTo G P.Kind t ∧ MarkedFrom G t p))) := by
    intro P _ F0
    unfold MapPassStep
    cases hk : P.Kind with
    | Other => exact ⟨F0, rfl, fun p => by simp⟩
    | Struct x => exact ⟨F0, rfl, fun p => by simp⟩
    | Array x => exact ⟨F0, rfl, fun p => by simp⟩
    | Map k V =>
      by_cases hF : P.bSaveGame = true
      · obtain ⟨F1, e1, i1⟩ := serializeMap_spec G (SerializeScriptStruct G N)
          (fun _ => True) hR V F0 (fun _ _ _ _ => trivial)
        refine ⟨F1, by simp only [hF, if_true]; exact e1, fun p => ?_⟩
        rw [i1 p]
        constructor
        · rintro (h | ⟨v, hv, h | ⟨t, hkv, hm⟩⟩)
          · exact Or.inl h
          · exact Or.inr ⟨hF, k, V, rfl, Or.inl (by rw [hv, h])⟩
          · exact Or.inr ⟨hF, k, V, rfl, Or.inr
              ⟨t, (expandsTo_map_iff G k V t).mpr ⟨v, hv, hkv⟩, hm⟩⟩
        · rintro (h | ⟨_, k2, V2, hK, h | ⟨t, ht, hm⟩⟩)
          · exact Or.inl h
          · cases hK
            exact Or.inr ⟨p, h, Or.inl rfl⟩
          · obtain ⟨v, hv, hkv⟩ := (expandsTo_map_iff G k V t).mp ht
            exact Or.inr ⟨v, hv, Or.inr ⟨t, hkv, hm⟩⟩
      · refine ⟨F0, by simp only [hF]; rfl, fun p => ?_⟩
        simp [hF]
  obtain ⟨F1, e1, i1⟩ := foldlM_flags (StructPassStep G N) _ Class h1 F
  obtain ⟨F2, e2, i2⟩ := foldlM_flags (ArrayPassStep G N) _ Class h2 F1
  obtain ⟨F3, e3, i3⟩ := foldlM_flags (MapPassStep G N) _ Class h3 F2
  refine ⟨F3, ?_, fun p => ?_⟩
  · unfold SerializeStructProperties
    rw [e1]
    dsimp only
    rw [e2]
    exact e3
  · rw [i3 p, i2 p, i1 p, marked_iff G Class p]
    constructor
    · rintro (((h | ⟨P, hP, hF, _, _, t, ht, hm⟩) | ⟨P, hP, hF, _, _, t, ht, hm⟩)
        | ⟨P, hP, hF, k, V, hK, h | ⟨t, ht, hm⟩⟩)
      · exact Or.inl h
      · exact Or.inr ⟨P, hP, hF, Or.inr ⟨t, ht, hm⟩⟩
      · exact Or.inr ⟨P, hP, hF, Or.inr ⟨t, ht, hm⟩⟩
      · exact Or.inr ⟨P, hP, hF, Or.inl ⟨k, by rw [hK, h]⟩⟩
      · exact Or.inr ⟨P, hP, hF, Or.inr ⟨t, ht, hm⟩⟩
    · rintro (h | ⟨P, hP, hF, ⟨k, hK⟩ | ⟨t, ht, hm⟩⟩)
      · exact Or.inl (Or.inl (Or.inl h))
      · exact Or.inr ⟨P, hP, hF, k, some p, hK, Or.inl rfl⟩
      · cases hk : P.Kind with
        | Other =>
          rw [hk] at ht
          exact absurd ht (expandsTo_other G t)
        | Struct St =>
          exact Or.inl (Or.inl (Or.inr ⟨P, hP, hF, St, hk, t, ht, hm⟩))
        | Array Inner =>
          exact Or.inl (Or.inr ⟨P, hP, hF, Inner, hk, t, ht, hm⟩)
        | Map k V =>
          exact Or.inr ⟨P, hP, hF, k, V, hk, Or.inr ⟨t, ht, hm⟩⟩

theorem inventory_value_has_no_struct (o : Nat) : 1 ∉ InventoryGraph.StructProps o := by
  match o with
  | 0 => decide
  | 1 => decide
  | n + 2 => simp [FTypeGraph.StructProps, InventoryGraph]

theorem inventory_markedBySpec (p : Nat)
    (h : MarkedBySpec InventoryGraph InventoryClass p) : p = 1 := by
  have hclass : ∀ P ∈ InventoryClass,
      P.Kind = EPropertyKind.Map (some 0) (some 1) := by
    intro P hP
    simp only [InventoryClass, List.mem_singleton] at hP
    rw [hP]
  induction h with
  | topStruct P s p hP _ hK _ =>
    rw [hclass P hP] at hK
    cases hK
  | topArray P i s p hP _ hK _ _ =>
    rw [hclass P hP] at hK
    cases hK
  | topMap P k v hP _ hK =>
    rw [hclass P hP] at hK
    cases hK
    rfl
  | ofStruct q o s p _ ho _ _ ih =>
    rw [ih] at ho
    exact absurd ho (inventory_value_has_no_struct o)
  | ofArray q o i s p _ ho _ _ _ ih =>
    rw [ih] at ho
    exact absurd ho (inventory_value_has_no_struct o)
  | ofMap q o k v _ ho _ ih =>
    rw [ih] at ho
    exact absurd ho (inventory_value_has_no_struct o)
  | ofMapValue q o k v s p _ ho _ _ _ ih =>
    rw [ih] at ho
    exact absurd ho (inventory_value_has_no_struct o)

theorem inventoryRank_bounded (s : Nat) : InventoryRank s < 2 := by
  unfold InventoryRank
  split <;> omega

theorem inventoryRank_falls (s q t : Nat) (hq : q ∈ InventoryGraph.StructProps s)
    (hE : ExpandsTo InventoryGraph (InventoryGraph.Kind q) t) :
    InventoryRank t < InventoryRank s := by
  match s with
  | 0 =>
    have hq2 : q = 2 ∨ q = 3 := by
      simpa [FTypeGraph.StructProps, InventoryGraph] using hq
    rcases hq2 with rfl | rfl
    · exact absurd hE (expandsTo_other InventoryGraph t)
    · obtain ⟨i, hi, hk⟩ := (expandsTo_array_iff InventoryGraph (some 4) t).mp hE
      cases hi
      have ht : t = 1 := by
        have h4 : InventoryGraph.Kind 4 = EPropertyKind.Struct (some 1) := rfl
        rw [h4] at hk
        cases hk
        rfl
      rw [ht]
      decide
  | 1 =>
    have hq5 : q = 5 := by
      simpa [FTypeGraph.StructProps, InventoryGraph] using hq
    rw [hq5] at hE
    exact absurd hE (expandsTo_other InventoryGraph t)
  | n + 2 =>
    simp [FTypeGraph.StructProps, InventoryGraph] at hq

/-- C22 on the code: the class has a flagged map field whose value property
is an item struct. The pass marks the value property and, through it, the
properties of the item struct: the count (property 2) carries the flag
afterwards, though it carried none before and the rule list marks, for a map
field of the class, the value property only. -/
theorem C22_struct_of_top_level_map_value_is_expanded :
    InventoryClass = [{ Kind := EPropertyKind.Map (some 0) (some 1), bSaveGame := true }]
    ∧ InventoryGraph.Kind 1 = EPropertyKind.Struct (some 0)
    ∧ InventoryGraph.StructProps 0 = [2, 3]
    ∧ NoPropertyFlags 2 = false
    ∧ (SerializeStructProperties InventoryGraph 2 InventoryClass NoPropertyFlags).map
        (fun F => F 2) = some true
    ∧ ¬ MarkedBySpec InventoryGraph InventoryClass 2 :=
  ⟨rfl, rfl, rfl, rfl, by decide,
   fun h => absurd (inventory_markedBySpec 2 h) (by decide)⟩

/-- C22, amended: on a type graph with a bounded rank that falls along every
expansion (finite and acyclic), `SerializeStructProperties` returns for every
bound of the recursion depth from the rank bound on, and a property carries
the flag afterwards exactly when it carried it before or is marked: it is a
property of an expanded struct, or the value property of a flagged map field
of the class or of a map property of an expanded struct; expanded are the
structs a flagged struct, array or map field of the class leads to (for a
map: the struct of its value property) and those a property of an expanded
struct leads to. No flag is cleared, and a property that is neither a
property of a struct nor the value property of a map, such as a key property,
keeps its flag. -/
theorem C22_flags_after_the_pass (G : FTypeGraph) (rank : Nat → Nat) (N : Nat)
    (hN : ∀ s, rank s < N)
    (hrank : ∀ s q t, q ∈ G.StructProps s → ExpandsTo G (G.Kind q) t → rank t < rank s)
    (Class : List FClassProperty) (F : FPropertyFlags) (fuel : Nat) (hfuel : N ≤ fuel) :
    ∃ F1, SerializeStructProperties G fuel Class F = some F1
      ∧ (∀ p, F1 p = true ↔ (F p = true ∨ Marked G Class p))
      ∧ (∀ p, F p = true → F1 p = true)
      ∧ (∀ p, (∀ s, p ∉ G.StructProps s) →
          (∀ q k, G.Kind q ≠ EPropertyKind.Map k (some p)) →
          (∀ P ∈ Class, ∀ k, P.Kind ≠ EPropertyKind.Map k (some p)) →
          F1 p = F p) := by
  obtain ⟨F1, e1, i1⟩ := serializeStructProperties_spec G rank fuel
    (fun s => Nat.lt_of_lt_of_le (hN s) hfuel) hrank Class F
  refine ⟨F1, e1, i1, fun p h => (i1 p).mpr (Or.inl h), ?_⟩
  intro p hmem hval htop
  have hnot : ¬ Marked G Class p := by
    intro hm
    cases hm with
    | member s _ _ hp => exact hmem s hp
    | rootValue P k _ hP _ hK => exact htop P hP k hK
    | memberValue s q k _ _ _ hK => exact hval q k hK
  have hiff : F1 p = true ↔ F p = true := by
    rw [i1 p]
    constructor
    · rintro (h | h)
      · exact h
      · exact absurd h hnot
    · exact Or.inl
  exact Bool.eq_iff_iff.mpr hiff

/-- C22, amended, at the inventory: the pass returns with depth bound 2, and
the key property (property 0) keeps its cleared flag. -/
theorem C22_flags_after_the_pass_witness :
    ∃ F1, SerializeStructProperties InventoryGraph 2 InventoryClass NoPropertyFlags = some F1
      ∧ (∀ p, F1 p = true
          ↔ (NoPropertyFlags p = true ∨ Marked InventoryGraph InventoryClass p))
      ∧ (∀ p, NoPropertyFlags p = true → F1 p = true)
      ∧ (∀ p, (∀ s, p ∉ InventoryGraph.StructProps s) →
          (∀ q k, InventoryGraph.Kind q ≠ EPropertyKind.Map k (some p)) →
          (∀ P ∈ InventoryClass, ∀ k, P.Kind ≠ EPropertyKind.Map k (some p)) →
          F1 p = NoPropertyFlags p) :=
  C22_flags_after_the_pass InventoryGraph InventoryRank 2 inventoryRank_bounded
    inventoryRank_falls InventoryClass NoPropertyFlags 2 (Nat.le_refl 2)

/-- C23 on the code: the tree node struct has an array of its own type; no
bound of the recursion depth lets `SerializeScriptStruct` return on it, since
every expansion of the struct starts the next one. -/
theorem C23_self_referential_struct_never_returns :
    TreeNodeGraph.StructProps 0 = [0]
    ∧ TreeNodeGraph.Kind 0 = EPropertyKind.Array (some 1)
    ∧ TreeNodeGraph.Kind 1 = EPropertyKind.Struct (some 0)
    ∧ ∀ (fuel : Nat) (F : FPropertyFlags),
        SerializeScriptStruct TreeNodeGraph fuel (some 0) F = none := by
  refine ⟨rfl, rfl, rfl, ?_⟩
  intro fuel
  induction fuel with
  | zero => intro F; rfl
  | succ n ih =>
    intro F
    show (TreeNodeGraph.StructProps 0).foldlM
      (SerializeProperty TreeNodeGraph (SerializeScriptStruct TreeNodeGraph n)) F = none
    have hs : TreeNodeGraph.StructProps 0 = [0] := rfl
    have hp : SerializeProperty TreeNodeGraph (SerializeScriptStruct TreeNodeGraph n) F 0
        = SerializeScriptStruct TreeNodeGraph n (some 0) (SetPropertyFlags F 0) := rfl
    rw [hs, List.foldlM_cons, hp, ih]
    rfl

/-- C23, amended: on a type graph with a bounded rank that falls along every
expansion, `SerializeScriptStruct` returns on every struct and
`SerializeStructProperties` returns, for every bound of the recursion depth
from the rank bound on; and a second run of the pass on the flags the first
run left returns the same flags. -/
theorem C23_pass_returns_and_is_idempotent (G : FTypeGraph) (rank : Nat → Nat) (N : Nat)
    (hN : ∀ s, rank s < N)
    (hrank : ∀ s q t, q ∈ G.StructProps s → ExpandsTo G (G.Kind q) t → rank t < rank s)
    (Class : List FClassProperty) (F : FPropertyFlags) (fuel : Nat) (hfuel : N ≤ fuel) :
    (∀ (St : Option Nat) (F0 : FPropertyFlags),
      (SerializeScriptStruct G fuel St F0).isSome = true)
    ∧ ∃ F1, SerializeStructProperties G fuel Class F = some F1
      ∧ ∃ F2, SerializeStructProperties G fuel Class F1 = some F2 ∧ ∀ p, F2 p = F1 p := by
  have hb : ∀ s, rank s < fuel := fun s => Nat.lt_of_lt_of_le (hN s) hfuel
  constructor
  · intro St F0
    obtain ⟨F1, e1, _⟩ := serializeScriptStruct_spec G rank hrank fuel St F0 (fun t _ => hb t)
    rw [e1]
    rfl
  · obtain ⟨F1, e1, i1⟩ := serializeStructProperties_spec G rank fuel hb hrank Class F
    obtain ⟨F2, e2, i2⟩ := serializeStructProperties_spec G rank fuel hb hrank Class F1
    refine ⟨F1, e1, F2, e2, fun p => ?_⟩
    apply Bool.eq_iff_iff.mpr
    rw [i2 p, i1 p]
    constructor
    · rintro ((h | h) | h)
      · exact Or.inl h
      · exact Or.inr h
      · exact Or.inr h
    · exact Or.inl

/-- C23, amended, at the inventory with depth bound 2. -/
theorem C23_pass_returns_and_is_idempotent_witness :
    (∀ (St : Option Nat) (F0 : FPropertyFlags),
      (SerializeScriptStruct InventoryGraph 2 St F0).isSome = true)
    ∧ ∃ F1, SerializeStructProperties InventoryGraph 2 InventoryClass NoPropertyFlags = some F1
      ∧ ∃ F2, SerializeStructProperties InventoryGraph 2 InventoryClass F1 = some F2
        ∧ ∀ p, F2 p = F1 p :=
  C23_pass_returns_and_is_idempotent InventoryGraph InventoryRank 2 inventoryRank_bounded
    inventoryRank_falls InventoryClass NoPropertyFlags 2 (Nat.le_refl 2)

/-! ### A record applied in place, in full -/

/-- `LoadActorState` in closed form for an actor that is no level script. -/
theorem loadActorState_eq (x : AActor) (d : FGameObjectSaveData)
    (hnl : GetActorType x ≠ EActorType.AT_LevelScript) :
    LoadActorState x d =
      { x with
        Tags := x.Tags ++ [HasLoadedTag],
        Fields := d.Data,
        ComponentsToSave := ComponentsAfterLoad x.ComponentsToSave d.Components } := by
  have hty : GetActorType
      { x with Tags := TagsAdd x.Tags HasLoadedTag, Fields := SerializeFromBinary d.Data }
        = GetActorType x :=
    getActorType_of_same_traits x _ rfl rfl
      (hasTag_tagsAdd x PersistentTag HasLoadedTag (by decide)) rfl
  unfold LoadActorState
  simp only [hty]
  simp [hnl, TagsAdd, SerializeFromBinary, LoadActorComponents, ComponentsAfterLoad,
    foldl_loadComponent_last]

/-- The actor a matching record leaves behind, field by field: the loaded
marker is added, the fields are the record's data, the root component stands
at the saved transform when it is movable and the transform is valid, and
each registered component has read the last sub-record of its name. -/
theorem processedActor_eq (a : AActor) (r : FActorSaveData)
    (hnl : GetActorType a ≠ EActorType.AT_LevelScript) :
    ProcessedActor a r =
      { a with
        Tags := a.Tags ++ [HasLoadedTag],
        Fields := r.SaveData.Data,
        RootComponent :=
          (if IsMovable (a.RootComponent.map (fun x => x.Mobility)) && r.Transform.IsValid then
            SetActorTransform a r.Transform
          else a).RootComponent,
        ComponentsToSave := ComponentsAfterLoad a.ComponentsToSave r.SaveData.Components } := by
  unfold ProcessedActor
  by_cases hm : (IsMovable (a.RootComponent.map (fun x => x.Mobility))
      && r.Transform.IsValid) = true
  · have ht := setActorTransform_traits a r.Transform
    have hty : GetActorType (SetActorTransform a r.Transform) = GetActorType a :=
      getActorType_of_same_traits a _ ht.1 ht.2.1
        (by unfold ActorHasTag; rw [ht.2.2.1]) ht.2.2.2.1
    simp only [hm, if_true]
    rw [loadActorState_eq _ _ (by rw [hty]; exact hnl)]
    unfold SetActorTransform
    cases a.RootComponent <;> rfl
  · simp only [hm, Bool.false_eq_true, if_false]
    rw [loadActorState_eq _ _ hnl]

/-- C3, amended: for a record of type placed, runtime or persistent, when the
first valid actor of `ActorList` that has the record's name does not carry the
loaded marker and is classified as the record's type says,
`SpawnOrUpdateLevelActor` succeeds and rewrites that actor in place, spawning
nothing: afterwards the actor carries the loaded marker, its fields are the
record's data, and each of its registered components has read the sub-record
of its name (the last one, if several carry it): a movable scene component
stands at the saved relative transform, and the saved blob is the state of
the component, or of its child actor when that does not declare the save
interface; components without a sub-record, unregistered and null components
are as before, and so is every other actor. -/
theorem C3_update_in_place (S : UEMSPluginSettings) (w : UWorld)
    (pre post : List (Option Nat)) (r : FActorSaveData) (i : Nat) (a : AActor)
    (hT : r.Type_ = EActorType.AT_Placed.toUInt8 ∨ r.Type_ = EActorType.AT_Runtime.toUInt8
      ∨ r.Type_ = EActorType.AT_Persistent.toUInt8)
    (hpre : ∀ p ∈ pre, ∀ b, w.Deref p = some b → IsValidActor b = true →
      r.Name ≠ BytesFromString b.Name)
    (ha : w.Actors[i]? = some a)
    (hv : IsValidActor a = true)
    (hn : r.Name = BytesFromString a.Name)
    (hnot : ActorHasTag a HasLoadedTag = false)
    (hty : r.Type_ = (GetActorType a).toUInt8) :
    (SpawnOrUpdateLevelActor S w (pre ++ some i :: post) r).2 = true
    ∧ (SpawnOrUpdateLevelActor S w (pre ++ some i :: post) r).1.Actors
        = w.Actors.set i (ProcessedActor a r)
    ∧ HasLoadedTag ∈ (ProcessedActor a r).Tags
    ∧ (ProcessedActor a r).Fields = r.SaveData.Data
    ∧ (ProcessedActor a r).ComponentsToSave
        = (LoadActorComponents a r.SaveData.Components).ComponentsToSave
    ∧ (ProcessedActor a r).ComponentsToSave
        = ComponentsAfterLoad a.ComponentsToSave r.SaveData.Components
    ∧ ProcessedActor a r =
        { a with
          Tags := a.Tags ++ [HasLoadedTag],
          Fields := r.SaveData.Data,
          RootComponent :=
            (if IsMovable (a.RootComponent.map (fun x => x.Mobility))
                && r.Transform.IsValid then
              SetActorTransform a r.Transform
            else a).RootComponent,
          ComponentsToSave :=
            ComponentsAfterLoad a.ComponentsToSave r.SaveData.Components } := by
  have hfind := findLevelActor_first w r.Name pre post i a hpre ha hv hn
  have hres := spawnOrUpdate_of_found S w (pre ++ some i :: post) r i a hT hfind ha
  simp only [hnot, Bool.false_eq_true, if_false] at hres
  have hf := processedActor_facts a r
  have hnl : GetActorType a ≠ EActorType.AT_LevelScript := by
    intro hc
    rw [hc] at hty
    rcases hT with h | h | h <;> rw [hty] at h <;> cases h
  have hfull := processedActor_eq a r hnl
  refine ⟨by rw [hres], ?_, by rw [hf.1]; simp, hf.2.1, ?_, ?_, hfull⟩
  · rw [hres, processLevelActor_eq w i r a ha hty]
    rfl
  · rw [hf.2.2.2, if_pos hnl]
  · rw [hfull]

/-- C3 at the lantern and its record: the lantern is rewritten in place, and
its components are the flame at the saved transform with the saved state, the
glass whose child actor has the saved state, and the hook, the spare part and
the null entry as before. -/
theorem C3_update_in_place_witness :
    ((SpawnOrUpdateLevelActor {} { Actors := [LanternActor] } ([] ++ some 0 :: [])
        LanternRecord).1.Actors.map (fun a => a.ComponentsToSave))
      = [LoadedLanternComponents]
    ∧ ((SpawnOrUpdateLevelActor {} { Actors := [LanternActor] } ([] ++ some 0 :: [])
        LanternRecord).2 = true
      ∧ (SpawnOrUpdateLevelActor {} { Actors := [LanternActor] } ([] ++ some 0 :: [])
            LanternRecord).1.Actors
          = [LanternActor].set 0 (ProcessedActor LanternActor LanternRecord)
      ∧ HasLoadedTag ∈ (ProcessedActor LanternActor LanternRecord).Tags
      ∧ (ProcessedActor LanternActor LanternRecord).Fields = LanternRecord.SaveData.Data
      ∧ (ProcessedActor LanternActor LanternRecord).ComponentsToSave
          = (LoadActorComponents LanternActor
              LanternRecord.SaveData.Components).ComponentsToSave
      ∧ (ProcessedActor LanternActor LanternRecord).ComponentsToSave
          = ComponentsAfterLoad LanternActor.ComponentsToSave LanternRecord.SaveData.Components
      ∧ ProcessedActor LanternActor LanternRecord =
          { LanternActor with
            Tags := LanternActor.Tags ++ [HasLoadedTag],
            Fields := LanternRecord.SaveData.Data,
            RootComponent :=
              (if IsMovable (LanternActor.RootComponent.map (fun x => x.Mobility))
                  && LanternRecord.Transform.IsValid then
                SetActorTransform LanternActor LanternRecord.Transform
              else LanternActor).RootComponent,
            ComponentsToSave :=
              ComponentsAfterLoad LanternActor.ComponentsToSave
                LanternRecord.SaveData.Components }) :=
  ⟨by decide,
   C3_update_in_place {} { Actors := [LanternActor] } [] [] LanternRecord 0 LanternActor
    (by decide) (by intro p hp; cases hp) (by decide) (by decide) (by decide) (by decide)
    (by decide)⟩

/-! ### Records of one identity among other records -/

end EMS
